import Mathlib

/-!
# Query resolution of the BUFR query engine

A shallow embedding of `QueryRunner::getTargets` / `QueryRunner::accumulate`
(`core/src/bufr/BufrReader/Query/QueryRunner.cpp`) together with the declarations of
`core/include/bufr/DataProvider.h` that the resolver reads.

Conventions of the embedding:
* `size_t` / `FortranIdx` values are `Nat`, `int` values are `Int`;
* a C++ read or write through `operator[]` outside the vector, and a dereference of a null
  pointer, are undefined behaviour in the source; here they are the explicit results
  `Except.error Fault.outOfRange` and `Except.error Fault.nullDeref`;
* calls to collaborators whose effect is not a value (building the table tree, looking a path
  up in it, printing a warning) are recorded, in program order, in a list of `Event`s.
-/

namespace bufr

/-! ## `DataProvider.h` -/

/-- Enum for elements stored in the BUFR lib TYP variable (`enum class Typ`). -/
inductive Typ where
  | Subset
  | DelayedRep
  | FixedRep
  | DelayedRepStacked
  | DelayedBinary
  | Sequence
  | Repeat
  | StackedRepeat
  | Number
  | Character
  deriving DecidableEq, Repr

/-- The struct `TypeInfo`; the defaults are the member initialisers of the source
(`std::string` members default to the empty string). -/
structure TypeInfo where
  scale : Int := 0
  reference : Int := 0
  bits : Int := 0
  unit : String := ""
  description : String := ""
  deriving DecidableEq, Repr

/-- Modelled from the spec: `SubsetVariant.h` is not among the sources. The spec gives the
identity key of a subset variant as (subset name, variant index); the third constructor
argument used by `DataProvider::getSubsetVariant` is the "has more than one variant" flag. -/
structure SubsetVariant where
  subset : String
  variantId : Nat
  otherVariantsExist : Bool
  deriving DecidableEq, Repr

/-- Modelled from the spec: key identity of `SubsetVariant` (the comparison the cache map uses):
equal subset name and equal variant index. -/
def SubsetVariant.sameKey (a b : SubsetVariant) : Bool :=
  a.subset == b.subset && a.variantId == b.variantId

/-! ## Queries (`QueryParser.h`, `QuerySet.h` are not among the sources) -/

/-- Modelled from the spec: the subset filter of a query, "an explicit subset name + variant, or
any subset". The fields are the ones `getTargets` reads: `isAnySubset`, `name`, `index`. -/
structure SubsetComponent where
  name : String := ""
  index : Nat := 0
  isAnySubset : Bool := false
  deriving DecidableEq, Repr

/-- Modelled from the spec: one path segment, a mnemonic name with an index selector. -/
structure PathComponent where
  name : String := ""
  index : Nat := 0
  deriving DecidableEq, Repr

/-- Modelled from the spec: a parsed path query, its subset filter and its ordered path
segments. `str` stands for the value of `Query::str()`, whose rendering code is not among the
sources; the default value is the default-constructed `Query()`. -/
structure Query where
  subset : SubsetComponent := {}
  path : List PathComponent := []
  str : String := ""
  deriving DecidableEq, Repr

/-- Modelled from the spec: a named query set, the ordered export names (`names()`) and the
ordered alternatives of each name (`queriesFor(name)`). -/
structure QuerySet where
  names : List String
  queriesFor : String → List Query

/-! ## The table tree (`SubsetTable.h`, `BufrNode` are not among the sources) -/

/-- Modelled from the spec: the attributes of a table node that `getTargets` reads
(id, tag, repetition index of the tag, kind, type metadata, fixed-repeat count). -/
structure NodeData where
  nodeIdx : Nat
  mnemonic : String
  mnemonicIdx : Nat := 0
  type : Typ
  typeInfo : TypeInfo := {}
  fixedRepCount : Nat := 0
  deriving DecidableEq, Repr

/-- Modelled from the spec: the table tree, a node with its ordered children. Every node other
than the root then has exactly one parent, as the spec's invariant asks. -/
inductive TableTree where
  | node (data : NodeData) (children : List TableTree)

/-- Attributes of the node at the top of a tree. -/
def TableTree.data : TableTree → NodeData
  | .node d _ => d

/-- Ordered children of the node at the top of a tree. -/
def TableTree.children : TableTree → List TableTree
  | .node _ cs => cs

/-- Modelled from the spec: a node of the table tree as the resolver holds it
(`std::shared_ptr<BufrNode>`): its attributes and its strict ancestors, subset root first
(the back-links of the spec, followed up to the root). -/
structure BufrNode where
  ancestors : List NodeData
  data : NodeData
  deriving DecidableEq, Repr

/-- Modelled from the spec: the kinds that introduce a repetition dimension. -/
def Typ.isDimension : Typ → Bool
  | .FixedRep | .DelayedRep | .DelayedRepStacked | .DelayedBinary | .Repeat | .StackedRepeat => true
  | _ => false

/-- Modelled from the spec: `BufrNode::getParent()`, the back-link to the parent node; null
(`none`) for the subset root. -/
def BufrNode.getParent (n : BufrNode) : Option BufrNode :=
  match n.ancestors.getLast? with
  | none => none
  | some p => some { ancestors := n.ancestors.dropLast, data := p }

/-- Modelled from the spec: `BufrNode::getDimensionParent()`, "the nearest strict ancestor whose
kind is one of FixedRepeat, DelayedRepeat, DelayedRepeatStacked, DelayedBinary, Repeat,
StackedRepeat, or the subset root if none exists"; null (`none`) for the subset root itself. -/
def BufrNode.getDimensionParent (n : BufrNode) : Option NodeData :=
  match n.ancestors with
  | [] => none
  | root :: rest =>
    some (((root :: rest).reverse.find? (fun a => a.type.isDimension)).getD root)

/-- Walk down a root-to-node chain: `pre` are the nodes already passed (root first), the list
argument the nodes still to come; each node is paired with the ancestors above it. -/
def BufrNode.chainNodes : List NodeData → List NodeData → List BufrNode
  | _, [] => []
  | pre, d :: rest => { ancestors := pre, data := d } :: BufrNode.chainNodes (pre ++ [d]) rest

/-- Modelled from the spec: `BufrNode::getPathNodes()`, the nodes on the path from the subset
root to this node, root first, this node last. -/
def BufrNode.getPathNodes (n : BufrNode) : List BufrNode :=
  BufrNode.chainNodes [] (n.ancestors ++ [n.data])

/-- Modelled from the spec: the lookup operation. Descend from the given node, "matching each
segment's mnemonic against children at that level"; "not found" if a segment has no matching
child. `anc` are the strict ancestors of the node the descent is at. -/
def TableTree.descend : TableTree → List NodeData → List PathComponent → Option BufrNode
  | t, anc, [] => some { ancestors := anc, data := t.data }
  | t, anc, seg :: rest =>
    match t.children.find? (fun c => c.data.mnemonic == seg.name) with
    | none => none
    | some c => c.descend (anc ++ [t.data]) rest

/-- Modelled from the spec: the table tree model of one subset variant (`SubsetTable`); it
exposes the root node and "get node by path". -/
structure SubsetTable where
  tree : TableTree

/-- Modelled from the spec: `SubsetTable::getRoot()`. -/
def SubsetTable.getRoot (t : SubsetTable) : BufrNode :=
  { ancestors := [], data := t.tree.data }

/-- Modelled from the spec: `SubsetTable::getNodeForPath(path)`. -/
def SubsetTable.getNodeForPath (t : SubsetTable) (path : List PathComponent) : Option BufrNode :=
  t.tree.descend [] path

/-- The part of `DataProvider` the resolver reads: the members behind `getSubsetVariant()`
(`subset_`, `variantId()`, `hasVariants()`) and the table data of the currently loaded subset,
from which `SubsetTable(dataProvider_)` builds the tree. -/
structure DataProvider where
  subset_ : String
  variantId : Nat
  hasVariants : Bool
  tableData : TableTree

/-- `DataProvider::getSubsetVariant`: `SubsetVariant(subset_, variantId(), hasVariants())`. -/
def DataProvider.getSubsetVariant (dp : DataProvider) : SubsetVariant :=
  { subset := dp.subset_, variantId := dp.variantId, otherVariantsExist := dp.hasVariants }

/-! ## Targets (`Target.h` is not among the sources) -/

/-- The `queryComponent` pointer of a target component: null, the subset filter of the query
(component 0) or one of its path segments. -/
inductive QueryComponent where
  | null
  | subset (c : SubsetComponent)
  | path (c : PathComponent)
  deriving DecidableEq, Repr

/-- Modelled from the spec: one step of a resolved path, "the originating query segment, the node
id, its parent's node id, its dimension-parent's node id, the node kind, and (for FixedRepeat)
the fixed repeat count". The defaults are the value-initialised element of
`std::vector<TargetComponent>(n)`. -/
structure TargetComponent where
  queryComponent : QueryComponent := .null
  nodeId : Nat := 0
  parentNodeId : Nat := 0
  parentDimensionNodeId : Nat := 0
  type : Typ := .Subset
  fixedRepeatCount : Nat := 0
  deriving DecidableEq, Repr

/-- Modelled from the spec: `TargetComponent::setType`, which records the node kind. -/
def TargetComponent.setType (c : TargetComponent) (t : Typ) : TargetComponent :=
  { c with type := t }

/-- Modelled from the spec: the resolved form of a named query, with the members `getTargets`
assigns; the defaults are the default-constructed `Target`. -/
structure Target where
  name : String := ""
  queryStr : String := ""
  nodeIdx : Nat := 0
  longStrId : String := ""
  typeInfo : TypeInfo := {}
  path : List TargetComponent := []
  dimPaths : List Query := []
  exportDimIdxs : List Nat := []
  deriving DecidableEq, Repr

/-- Modelled from the spec: `Target::setPath`, which stores the component chain in the target
(the dimension bookkeeping that the real method derives from the chain is not among the sources
and is read by none of the properties below). -/
def Target.setPath (t : Target) (components : List TargetComponent) : Target :=
  { t with path := components }

/-- The collection `Targets` (`std::vector<std::shared_ptr<Target>>`). -/
abbrev Targets := List Target

/-! ## `QueryRunner.cpp` -/

/-- Undefined behaviour of the source made explicit. -/
inductive Fault where
  | outOfRange
  | nullDeref
  deriving DecidableEq, Repr

/-- Calls whose effect is not a return value, in program order. -/
inductive Event where
  | buildTable (variant : SubsetVariant)
  | lookup (path : List PathComponent)
  | warning (queryStr : String) (variant : SubsetVariant)
  deriving DecidableEq, Repr

/-- Recogniser of the `getNodeForPath` calls in an event list. -/
def Event.isLookup : Event → Bool
  | .lookup _ => true
  | _ => false

/-- Recogniser of the `SubsetTable(dataProvider_)` constructions in an event list. -/
def Event.isBuildTable : Event → Bool
  | .buildTable _ => true
  | _ => false

/-- Checked `v[i]` read. -/
def readAt {α : Type} (v : List α) (i : Nat) : Except Fault α :=
  match v[i]? with
  | some x => .ok x
  | none => .error .outOfRange

/-- Checked `v[i] = f(v[i])` write. -/
def writeAt {α : Type} (v : List α) (i : Nat) (f : α → α) : Except Fault (List α) :=
  match v[i]? with
  | some x => .ok (v.set i (f x))
  | none => .error .outOfRange

/-- Checked `p->` dereference. -/
def deref {α : Type} (p : Option α) : Except Fault α :=
  match p with
  | some x => .ok x
  | none => .error .nullDeref

/-- The condition of lines 49-51: the query's subset filter is the wildcard, or names the active
subset with the active variant index. -/
def subsetMatches (query : Query) (variant : SubsetVariant) : Bool :=
  query.subset.isAnySubset ||
    (query.subset.name == variant.subset && query.subset.index == variant.variantId)

/-- The loop of lines 47-57 over `querySet_.queriesFor(name)`. The state carried through the
loop is `foundQuery`, `tableNode` and the events so far; the `break` of line 55 is the return of
the then-branch. -/
def findTableNode (variant : SubsetVariant) (table : SubsetTable) :
    List Query → Query → Option BufrNode → List Event → Query × Option BufrNode × List Event
  | [], foundQuery, tableNode, evs => (foundQuery, tableNode, evs)
  | query :: rest, foundQuery, tableNode, evs =>
    if subsetMatches query variant then
      let tableNode' := table.getNodeForPath query.path
      let evs' := evs ++ [Event.lookup query.path]
      if tableNode'.isSome then (query, tableNode', evs')
      else findTableNode variant table rest query tableNode' evs'
    else findTableNode variant table rest foundQuery tableNode evs

/-- The loop of lines 100-110. `nodeIdx` and `pathIdx` are the two counters of the source; the
first argument is the number of iterations left (`nodes.size() - nodeIdx`). -/
def buildPathLoop (foundQuery : Query) (nodes : List BufrNode) :
    Nat → Nat → Nat → List TargetComponent → Except Fault (List TargetComponent)
  | 0, _, _, path => .ok path
  | left + 1, nodeIdx, pathIdx, path => do
    let seg ← readAt foundQuery.path (nodeIdx - 1)
    let node ← readAt nodes nodeIdx
    let parent ← deref node.getParent
    let dimParent ← deref node.getDimensionParent
    let path ← writeAt path pathIdx (fun c =>
      { ({ c with queryComponent := .path seg
                  nodeId := node.data.nodeIdx
                  parentNodeId := parent.data.nodeIdx
                  parentDimensionNodeId := dimParent.nodeIdx } : TargetComponent).setType
            node.data.type with
        fixedRepeatCount := node.data.fixedRepCount })
    buildPathLoop foundQuery nodes left (nodeIdx + 1) (pathIdx + 1) path

/-- Lines 88-110: the target components of a resolved query. -/
def buildPath (foundQuery : Query) (table : SubsetTable) (tableNode : BufrNode) :
    Except Fault (List TargetComponent) := do
  let path : List TargetComponent := List.replicate (foundQuery.path.length + 1) {}
  let path ← writeAt path 0 (fun c =>
    ({ c with queryComponent := .subset foundQuery.subset
              nodeId := table.getRoot.data.nodeIdx
              parentNodeId := 0
              parentDimensionNodeId := 0 } : TargetComponent).setType Typ.Subset)
  let nodes := tableNode.getPathNodes
  buildPathLoop foundQuery nodes (nodes.length - 1) 1 1 path

/-- The empty target of lines 66-71. -/
def emptyTarget (name queryStr : String) : Target :=
  { name := name
    nodeIdx := 0
    queryStr := queryStr
    dimPaths := [({} : Query)]
    typeInfo := {}
    exportDimIdxs := [0] }

/-- The body of the loop over `querySet_.names()` (lines 43-117) for one name: the target
pushed for it and the events of the iteration. -/
def resolveName (querySet : QuerySet) (variant : SubsetVariant) (table : SubsetTable)
    (name : String) : Except Fault (Target × List Event) :=
  match findTableNode variant table (querySet.queriesFor name) {} none [] with
  | (_, none, evs) => do
    let first ← readAt (querySet.queriesFor name) 0
    let target := emptyTarget name first.str
    let first ← readAt (querySet.queriesFor name) 0
    .ok (target, evs ++ [Event.warning first.str variant])
  | (foundQuery, some tableNode, evs) => do
    let target : Target := { name := name, queryStr := foundQuery.str }
    let path ← buildPath foundQuery table tableNode
    let target := target.setPath path
    let target := { target with typeInfo := tableNode.data.typeInfo }
    let target := { target with nodeIdx := tableNode.data.nodeIdx }
    let target := { target with
      longStrId := tableNode.data.mnemonic ++ "#" ++ toString tableNode.data.mnemonicIdx }
    .ok (target, evs)

/-- The loop of lines 41-118 over the names, in order; `targets->push_back` appends. -/
def resolveAll (querySet : QuerySet) (variant : SubsetVariant) (table : SubsetTable) :
    List String → Except Fault (Targets × List Event)
  | [] => .ok ([], [])
  | name :: rest => do
    let (target, evs) ← resolveName querySet variant table name
    let (targets, evs') ← resolveAll querySet variant table rest
    .ok (target :: targets, evs ++ evs')

/-- Modelled from the spec: the variant cache `targetsCache_`, a map from `SubsetVariant` to
`Targets` (the member is declared in `QueryRunner.h`, which is not among the sources). -/
abbrev TargetsCache := List (SubsetVariant × Targets)

/-- Map lookup (`find` / `at`): the entry stored under a key equal to `key`. -/
def TargetsCache.find (cache : TargetsCache) (key : SubsetVariant) : Option Targets :=
  (List.find? (fun e => e.1.sameKey key) cache).map (fun e => e.2)

/-- Map `insert`: adds the entry unless the key is already present. -/
def TargetsCache.insert (cache : TargetsCache) (key : SubsetVariant) (value : Targets) :
    TargetsCache :=
  match cache.find key with
  | some _ => cache
  | none => cache ++ [(key, value)]

/-- Modelled from the spec: one frame of the result set (`SubsetLookupTable`), built from the
data provider and the targets of the active subset. -/
structure SubsetLookupTable where
  provider : DataProvider
  targets : Targets

/-- The state of a `QueryRunner`: its members `querySet_`, `targetsCache_`, the frames of
`resultSet_`, and the events it has caused so far. -/
structure QueryRunner where
  querySet_ : QuerySet
  targetsCache_ : TargetsCache := []
  frames_ : List SubsetLookupTable := []
  events : List Event := []

/-- `QueryRunner::getTargets` (lines 29-124), with the active state of `dataProvider_`. -/
def QueryRunner.getTargets (r : QueryRunner) (dataProvider_ : DataProvider) :
    Except Fault (Targets × QueryRunner) :=
  match r.targetsCache_.find dataProvider_.getSubsetVariant with
  | some targets => .ok (targets, r)
  | none => do
    let table : SubsetTable := { tree := dataProvider_.tableData }
    let (targets, evs) ←
      resolveAll r.querySet_ dataProvider_.getSubsetVariant table r.querySet_.names
    .ok (targets,
      { r with
        targetsCache_ := r.targetsCache_.insert dataProvider_.getSubsetVariant targets
        events := r.events ++ Event.buildTable dataProvider_.getSubsetVariant :: evs })

/-- `QueryRunner::accumulate` (lines 24-27). -/
def QueryRunner.accumulate (r : QueryRunner) (dataProvider_ : DataProvider) :
    Except Fault QueryRunner := do
  let (targets, r) ← r.getTargets dataProvider_
  .ok { r with frames_ := r.frames_ ++ [{ provider := dataProvider_, targets := targets }] }

/-- The two public operations of a `QueryRunner`. -/
inductive Call where
  | getTargets
  | accumulate
  deriving DecidableEq, Repr

/-- One call on the runner, made while the data provider is in state `dataProvider_`. -/
def QueryRunner.call (r : QueryRunner) (dataProvider_ : DataProvider) :
    Call → Except Fault QueryRunner
  | .getTargets => (r.getTargets dataProvider_).map (fun res => res.2)
  | .accumulate => r.accumulate dataProvider_

/-- A sequence of calls; between calls the data provider may have moved to another subset, so
each call comes with the provider state it sees. -/
def QueryRunner.calls (r : QueryRunner) : List (DataProvider × Call) → Except Fault QueryRunner
  | [] => .ok r
  | (dp, c) :: rest => do
    let r ← r.call dp c
    r.calls rest

/-! ## Well-formedness of table node ids -/

mutual
/-- Table node ids are 1-based: every node of the tree has a positive id. -/
def TableTree.idsPositive : TableTree → Bool
  | .node d cs => decide (0 < d.nodeIdx) && TableTree.idsPositiveList cs
/-- Every node of every tree of the list has a positive id. -/
def TableTree.idsPositiveList : List TableTree → Bool
  | [] => true
  | c :: cs => c.idsPositive && TableTree.idsPositiveList cs
end

/-! ## Sample data -/

/-- A leaf node `LAT` of a small table. -/
def sampleLat : NodeData :=
  { nodeIdx := 3, mnemonic := "LAT", type := .Number,
    typeInfo := { scale := 2, reference := -9000, bits := 15, unit := "DEG" } }

/-- A leaf node `LON` of a small table. -/
def sampleLon : NodeData :=
  { nodeIdx := 4, mnemonic := "LON", type := .Number,
    typeInfo := { scale := 2, reference := -18000, bits := 16, unit := "DEG" } }

/-- A delayed replication `SEQ` holding `LAT` and `LON`. -/
def sampleSeq : NodeData :=
  { nodeIdx := 2, mnemonic := "SEQ", type := .DelayedRep }

/-- The subset root of the small table. -/
def sampleRoot : NodeData :=
  { nodeIdx := 1, mnemonic := "TypeB", type := .Subset }

/-- A small table tree: `TypeB / SEQ / (LAT, LON)` and `TypeB / LAT`. -/
def sampleTree : TableTree :=
  .node sampleRoot
    [.node sampleSeq [.node sampleLat [], .node sampleLon []],
     .node { sampleLat with nodeIdx := 5, mnemonicIdx := 1 } []]

/-- A data provider positioned on subset `TypeB`, variant 0. -/
def sampleProvider : DataProvider :=
  { subset_ := "TypeB", variantId := 0, hasVariants := false, tableData := sampleTree }

/-- Wildcard query `*/SEQ/LAT`. -/
def qSeqLat : Query :=
  { subset := { isAnySubset := true }, path := [{ name := "SEQ" }, { name := "LAT" }],
    str := "*/SEQ/LAT" }

/-- Wildcard query `*/LAT`. -/
def qLat : Query :=
  { subset := { isAnySubset := true }, path := [{ name := "LAT" }], str := "*/LAT" }

/-- Query `TypeA/LAT`, for another subset. -/
def qTypeALat : Query :=
  { subset := { name := "TypeA" }, path := [{ name := "LAT" }], str := "TypeA/LAT" }

/-- Wildcard query `*/ALT`, a mnemonic the small table does not have. -/
def qAlt : Query :=
  { subset := { isAnySubset := true }, path := [{ name := "ALT" }], str := "*/ALT" }

/-- A query set with a resolving name, a name for another subset and a name that does not
resolve. -/
def sampleQuerySet : QuerySet :=
  { names := ["lat", "latA", "alt"]
    queriesFor := fun name =>
      if name = "lat" then [qAlt, qTypeALat, qSeqLat, qLat]
      else if name = "latA" then [qTypeALat]
      else if name = "alt" then [qAlt]
      else [] }

/-- A data provider positioned on subset `TypeA`, variant 0, with a table that has only `LAT`. -/
def sampleProviderA : DataProvider :=
  { subset_ := "TypeA", variantId := 0, hasVariants := false,
    tableData := .node { nodeIdx := 1, mnemonic := "TypeA", type := .Subset }
      [.node { sampleLat with nodeIdx := 2 } []] }

/-- A fresh runner for the sample query set. -/
def sampleRunner : QueryRunner := { querySet_ := sampleQuerySet }

/-- The node `TypeB / SEQ / LAT` of the small table. -/
def sampleSeqLatNode : BufrNode :=
  { ancestors := [sampleRoot, sampleSeq], data := sampleLat }

/-- What the fresh runner returns on subset `TypeB`: the targets and the runner afterwards. -/
def sampleFirstCall : Targets × QueryRunner :=
  match sampleRunner.getTargets sampleProvider with
  | .ok res => res
  | .error _ => ([], sampleRunner)

/-- The runner after an `accumulate` on subset `TypeA` and a `getTargets` on subset `TypeB`,
made after the first call. -/
def sampleLaterRunner : QueryRunner :=
  match sampleFirstCall.2.calls [(sampleProviderA, .accumulate), (sampleProvider, .getTargets)] with
  | .ok r => r
  | .error _ => sampleRunner

/-- A runner whose cache holds an entry for subset `TypeB`, variant 0. -/
def cachedRunner : QueryRunner :=
  { querySet_ := sampleQuerySet
    targetsCache_ := [({ subset := "TypeB", variantId := 0, otherVariantsExist := false },
      [emptyTarget "lat" "*/LAT"])] }

/-- A query set one of whose names has no alternative at all. -/
def emptyAltQuerySet : QuerySet :=
  { names := ["none", "lat"]
    queriesFor := fun name => if name = "lat" then [qLat] else [] }

/-! ## `DataProvider.h`: the derived predicates of `TypeInfo` -/

/-- `TypeInfo::isString` (line 60). -/
def TypeInfo.isString (t : TypeInfo) : Bool := t.unit == "CCITT IA5"

/-- `TypeInfo::isSigned` (lines 61-66): all fields are assumed signed. -/
def TypeInfo.isSigned (_t : TypeInfo) : Bool := true

/-- `TypeInfo::isInteger` (line 67). -/
def TypeInfo.isInteger (t : TypeInfo) : Bool := decide (t.scale ≤ 0)

/-- The argument of `fmax` on lines 79-80, in exact arithmetic:
`fmax(-1 * reference, (pow(2, bits - 1) - 1) / pow(10, scale) + reference)`. -/
def TypeInfo.maxMagnitude (t : TypeInfo) : ℚ :=
  max (-1 * (t.reference : ℚ))
    (((2 : ℚ) ^ (t.bits - 1) - 1) / (10 : ℚ) ^ t.scale + (t.reference : ℚ))

/-- `TypeInfo::is64Bit` (lines 68-88), with `pow`, `fmax`, `log2` and the division taken in
exact arithmetic. A comparison `log2(x) > c` is written `2^c < x`: for positive `x` the two
agree (`log2_compare` below), and for `x <= 0` the source compares minus infinity or a NaN with
`c`, which is false, as `2^c < x` is. So `log2(x) > 32` is `2^32 < x` and `log2(x) + 1 > 32`
is `2^31 < x`. -/
def TypeInfo.is64Bit (t : TypeInfo) : Bool :=
  if t.bits = 0 then false
  else if t.isInteger && !t.isSigned then
    decide ((2 : ℚ) ^ (32 : Nat) <
      ((2 : ℚ) ^ t.bits - 1) / (10 : ℚ) ^ t.scale + (t.reference : ℚ))
  else if t.isInteger && t.isSigned then
    decide ((2 : ℚ) ^ (31 : Nat) < t.maxMagnitude * 2)
  else false

/-- `TypeInfo::isLongString` (lines 90-93). -/
def TypeInfo.isLongString (t : TypeInfo) : Bool := t.isString && decide (t.bits > 64)

/-! ## `DataProvider.h`: `rewind` -/

/-- The pure virtual `open()` and `close()` of `DataProvider` (lines 140-143), taken as
parameters: their implementations are not among the sources. They are member functions of the
provider and act on the provider. -/
structure ProviderMethods where
  openFile : DataProvider → DataProvider
  closeFile : DataProvider → DataProvider

/-- `DataProvider::rewind` (lines 146-150): `close(); open();`. -/
def DataProvider.rewind (methods : ProviderMethods) (dp : DataProvider) : DataProvider :=
  methods.openFile (methods.closeFile dp)

/-- A data provider together with a `QueryRunner` that uses it (the runner holds the provider
as `dataProvider_`; the provider holds nothing of the runner). -/
structure Session where
  dataProvider_ : DataProvider
  runner : QueryRunner

/-- The call `dataProvider_->rewind()` in a session: it runs on the provider. -/
def Session.rewind (methods : ProviderMethods) (s : Session) : Session :=
  { s with dataProvider_ := s.dataProvider_.rewind methods }

/-- The call `runner.getTargets()` in a session. -/
def Session.getTargets (s : Session) : Except Fault (Targets × Session) :=
  (s.runner.getTargets s.dataProvider_).map (fun res => (res.1, { s with runner := res.2 }))

/-! ## `Tokenizer.cpp` -/

/-- The whitespace class `\s` of `std::regex` in the default locale: space, tab, line feed,
vertical tab, form feed, carriage return. -/
def isWhitespace (c : Char) : Bool :=
  c == ' ' || c == '\t' || c == '\n' || c == '\x0b' || c == '\x0c' || c == '\r'

/-- Line 13: `std::regex_replace(query, std::regex("\\s"), "")`, every whitespace character
replaced by nothing. -/
def removeWhitespace (query : String) : String :=
  String.mk (query.toList.filter (fun c => !isWhitespace c))

/-- The static `parse(iter, end)` of a token class, taken as a parameter (the token classes
are not among the sources). It is handed the character range between the two iterators and
returns the token, or null, together with the range between the iterators as it leaves them
(it receives both as lvalues). -/
abbrev TokenParser (Token : Type) := List Char → Option Token × List Char

/-- `Tokenizer::tokenize` (lines 10-31): the token list it returns and what it prints on
`std::cout`. `multiQuery` is `MultiQueryToken::parse`, `singleQuery` is `QueryToken::parse`. -/
def Tokenizer.tokenize {Token : Type} (multiQuery singleQuery : TokenParser Token)
    (query : String) : List (Option Token) × List String :=
  let cleanedStr := removeWhitespace query
  match multiQuery cleanedStr.toList with
  | (some token, _) => ([some token], [])
  | (none, range) =>
    match singleQuery range with
    | (some token, _) => ([some token], [])
    | (none, _) => ([none], ["Tokenizer::tokenize: no match for " ++ query ++ "\n"])

/-! ## Export variables: the data map and its objects -/

/-- Modelled from the spec: a result object of the data map (`DataObjectBase`, whose header is
not among the sources), "giving raw values, a missing-value test per position, typed accessors
(as integer, float, string), dimension sizes, and a dimension-path identifier". `F` stands for
the values of C++ `float`. The accessors are taken as total functions of the position. -/
structure DataObject (F : Type) where
  size : Nat
  dims : List Int
  path : String
  dimPaths : List String := []
  isMissing : Nat → Bool
  getAsFloat : Nat → F
  getAsInt : Nat → Int
  getAsString : Nat → String

/-- Modelled from the spec: `DataObjectBase::hasSamePath`, equality of the dimension-path
identifiers. -/
def DataObject.hasSamePath {F : Type} (a b : DataObject F) : Bool := a.path == b.path

/-- The data map `BufrDataMap`, from export keys to result objects (`find` is application). -/
abbrev BufrDataMap (F : Type) := String → Option (DataObject F)

/-- The C++ exceptions of the export variables: `eckit::BadParameter` with its message, and
`std::out_of_range` thrown by `at` for the key it was asked. -/
inductive Exception where
  | badParameter (msg : String)
  | outOfRange (key : String)
  deriving DecidableEq, Repr

/-- How an export ends when it returns no object: with an exception, or in undefined
behaviour. -/
inductive Abort where
  | raised (e : Exception)
  | undefined (f : Fault)
  deriving DecidableEq, Repr

/-- `map.at(key)`: the object stored under the key, or `std::out_of_range`. -/
def BufrDataMap.at {F : Type} (map : BufrDataMap F) (key : String) :
    Except Abort (DataObject F) :=
  match map key with
  | some obj => .ok obj
  | none => .error (.raised (.outOfRange key))

/-- The members of the base class `Variable` that the export variables read: the export name,
the group-by field and, of the configuration `conf_`, which keys it has. -/
structure Variable where
  exportName : String
  groupByField_ : String := ""
  has : String → Bool

/-- The method `getExportKey` of each of the three variables: `getExportName() + "_" + name`. -/
def Variable.getExportKey (v : Variable) (name : String) : String :=
  v.exportName ++ "_" ++ name

/-- What `DataObjectBuilder::make<T>(values, name, groupByField, dims, path, dimPaths)` is
called with (the builder is not among the sources). -/
structure ExportedObject (V : Type) where
  values : List V
  exportName : String
  groupByField : String
  dims : List Int
  path : String
  dimPaths : List String

/-- The loop over `requiredKeys` in `checkKeys`: at the first key absent from the map it sets
`isKeyMissing`, appends the key to `errStr` and breaks. Returns `isKeyMissing` and `errStr`. -/
def checkKeysLoop {F : Type} (map : BufrDataMap F) : List String → String → Bool × String
  | [], errStr => (false, errStr)
  | key :: rest, errStr =>
    if (map key).isNone then (true, errStr ++ key) else checkKeysLoop map rest errStr

/-! ## `WigosidVariable.cpp` -/

/-- The required keys of `WigosidVariable::checkKeys` (lines 101-104). -/
def WigosidVariable.requiredKeys (v : Variable) : List String :=
  [v.getExportKey "wgosids", v.getExportKey "wgosisid", v.getExportKey "wgosisnm",
   v.getExportKey "wgoslid"]

/-- `WigosidVariable::checkKeys` (lines 99-126). -/
def WigosidVariable.checkKeys {F : Type} (v : Variable) (map : BufrDataMap F) :
    Except Abort Unit :=
  let (isKeyMissing, errStr) := checkKeysLoop map (WigosidVariable.requiredKeys v) "Query "
  let errStr := errStr ++ " could not be found during export of wigosid object."
  if isKeyMissing then .error (.raised (.badParameter errStr)) else .ok ()

/-- Lines 69-86: the string pushed for position `idx`. -/
def WigosidVariable.wigosAt {F : Type} (missingInt : Int)
    (wgosidsObj wgosisidObj wgosisnmObj wgoslidObj : DataObject F) (idx : Nat) : String :=
  let wgosids := wgosidsObj.getAsInt idx
  let wgosisid := wgosisidObj.getAsInt idx
  let wgosisnm := wgosisnmObj.getAsInt idx
  let wgoslid := wgoslidObj.getAsString idx
  if wgosids != missingInt && wgosisid != missingInt && wgosisnm != missingInt &&
      wgoslid != "" then
    toString wgosids ++ "-" ++ toString wgosisid ++ "-" ++ toString wgosisnm ++ "-" ++ wgoslid
  else ""

/-- The loop of lines 67-87. The counter `idx` is an `unsigned int` and is compared with a
`size_t`; the first argument bounds the number of iterations (`none` when it does not
suffice). -/
def WigosidVariable.wigosLoop {F : Type} (missingInt : Int)
    (wgosidsObj wgosisidObj wgosisnmObj wgoslidObj : DataObject F) :
    Nat → Nat → List String → Option (List String)
  | 0, idx, wigosID => if idx < wgosidsObj.size then none else some wigosID
  | steps + 1, idx, wigosID =>
    if idx < wgosidsObj.size then
      WigosidVariable.wigosLoop missingInt wgosidsObj wgosisidObj wgosisnmObj wgoslidObj steps
        ((idx + 1) % 2 ^ 32)
        (wigosID ++
          [WigosidVariable.wigosAt missingInt wgosidsObj wgosisidObj wgosisnmObj wgoslidObj idx])
    else some wigosID

/-- Lines 49-65 of `WigosidVariable::exportData`: the key check, the four objects of the map
and the validation of their paths (the `||` of lines 58-60 evaluates its operands in order and
stops at the first that holds). -/
def WigosidVariable.inputs {F : Type} (v : Variable) (map : BufrDataMap F) :
    Except Abort (DataObject F × DataObject F × DataObject F × DataObject F) := do
  WigosidVariable.checkKeys v map
  let samePathError : Abort :=
    .raised (.badParameter "Wigosid variables are not all from the same path.")
  let wgosidsVar ← map.at (v.getExportKey "wgosids")
  let wgosisidVar ← map.at (v.getExportKey "wgosisid")
  if !wgosidsVar.hasSamePath wgosisidVar then .error samePathError else
  let wgosisnmVar ← map.at (v.getExportKey "wgosisnm")
  if !wgosidsVar.hasSamePath wgosisnmVar then .error samePathError else
  let wgoslidVar ← map.at (v.getExportKey "wgoslid")
  if !wgosidsVar.hasSamePath wgoslidVar then .error samePathError else
  .ok (wgosidsVar, wgosisidVar, wgosisnmVar, wgoslidVar)

/-- `WigosidVariable::exportData` (lines 47-97). `missingInt` is
`DataObject<int>::missingValue()`; `steps` bounds the iterations of the loop, and the result is
`none` when the loop has not ended within them. -/
def WigosidVariable.exportData {F : Type} (missingInt : Int) (steps : Nat) (v : Variable)
    (map : BufrDataMap F) : Option (Except Abort (ExportedObject String)) :=
  match WigosidVariable.inputs v map with
  | .error e => some (.error e)
  | .ok (wgosidsVar, wgosisidVar, wgosisnmVar, wgoslidVar) =>
    match WigosidVariable.wigosLoop missingInt wgosidsVar wgosisidVar wgosisnmVar
        wgoslidVar steps 0 [] with
    | none => none
    | some wigosID =>
      some (.ok
        { values := wigosID
          exportName := v.exportName
          groupByField := v.groupByField_
          dims := wgosidsVar.dims
          path := wgosidsVar.path
          dimPaths := wgosidsVar.dimPaths })

/-! ## `AircraftAltitudeVariable.cpp` -/

/-- The constant `FieldNames` (lines 29-35). -/
def AircraftAltitudeVariable.FieldNames : List String :=
  ["pressure", "aircraftIndicatedAltitude", "pressureAltitudeRelativeToMeanSeaLevel",
   "flightLevel", "height", "heightOrAltitude", "flightLevelST"]

/-- The required keys of `AircraftAltitudeVariable::checkKeys` (lines 138-145): the export keys
of the configured fields, in the order of `FieldNames`. -/
def AircraftAltitudeVariable.requiredKeys (v : Variable) : List String :=
  (AircraftAltitudeVariable.FieldNames.filter v.has).map v.getExportKey

/-- `AircraftAltitudeVariable::checkKeys` (lines 136-167). -/
def AircraftAltitudeVariable.checkKeys {F : Type} (v : Variable) (map : BufrDataMap F) :
    Except Abort Unit :=
  let (isKeyMissing, errStr) :=
    checkKeysLoop map (AircraftAltitudeVariable.requiredKeys v) "Query "
  let errStr := errStr ++ " could not be found during export of AircraftAltitude object."
  if isKeyMissing then .error (.raised (.badParameter errStr)) else .ok ()

/-- The float operations of `exportData`, taken as parameters: the missing value
`DataObject<float>::missingValue()` and the conversion of a pressure to an altitude of lines
94-104 (`log1p`, `powf` on `float`). -/
structure FloatOps (F : Type) where
  missingValue : F
  pressureToAltitude : F → F

/-- The loop of lines 56-63 over the field names: `includedFieldMap`, as the list of its
entries in the order of insertion (the field names are distinct, so `insert` always adds);
`includedFields` is the list of its keys. -/
def AircraftAltitudeVariable.includeFields {F : Type} (v : Variable) (map : BufrDataMap F) :
    List String → Except Abort (List (String × DataObject F))
  | [] => .ok []
  | fieldName :: rest =>
    if v.has fieldName then do
      let obj ← map.at (v.getExportKey fieldName)
      let included ← AircraftAltitudeVariable.includeFields v map rest
      .ok ((fieldName, obj) :: included)
    else AircraftAltitudeVariable.includeFields v map rest

/-- The method `find` of `includedFieldMap`: the object stored under a field name, if any. -/
def findField {F : Type} (includedFieldMap : List (String × DataObject F)) (fieldName : String) :
    Option (DataObject F) :=
  (includedFieldMap.find? (fun e => e.1 == fieldName)).map (fun e => e.2)

/-- The method `at` of `includedFieldMap`. -/
def atField {F : Type} (includedFieldMap : List (String × DataObject F)) (fieldName : String) :
    Except Abort (DataObject F) :=
  match findField includedFieldMap fieldName with
  | some obj => .ok obj
  | none => .error (.raised (.outOfRange fieldName))

/-- Line 65: `(*includedFieldMap.begin()).second`. The map is unordered, so which entry comes
first is not fixed: `beginIdx` selects it. Dereferencing `begin()` of an empty map is
undefined. -/
def unorderedBegin {F : Type} (beginIdx : Nat) (includedFieldMap : List (String × DataObject F)) :
    Except Abort (DataObject F) :=
  match includedFieldMap[beginIdx % includedFieldMap.length]? with
  | some e => .ok e.2
  | none => .error (.undefined .nullDeref)

/-- The validation loop of lines 69-78 over the field names. -/
def AircraftAltitudeVariable.validatePaths {F : Type}
    (includedFieldMap : List (String × DataObject F)) (path : String) :
    List String → Except Abort Unit
  | [] => .ok ()
  | fieldName :: rest =>
    match findField includedFieldMap fieldName with
    | some obj =>
      if obj.path != path then
        .error (.raised (.badParameter "Inconsistent dimensions found in source data."))
      else AircraftAltitudeVariable.validatePaths includedFieldMap path rest
    | none => AircraftAltitudeVariable.validatePaths includedFieldMap path rest

/-- The inner loop of lines 85-125 for one position `idx`: the field names still to visit
(the source visits `includedFields` from its last element to its first) and the current value
of `aircraftAlts[idx]`. -/
def AircraftAltitudeVariable.altitudeLoop {F : Type} (ops : FloatOps F)
    (includedFieldMap : List (String × DataObject F)) (idx : Nat) :
    List String → F → Except Abort F
  | [], alt => .ok alt
  | fieldName :: rest, alt => do
    let fieldValues ← atField includedFieldMap fieldName
    if fieldName == "pressure" then
      if !fieldValues.isMissing idx then
        AircraftAltitudeVariable.altitudeLoop ops includedFieldMap idx rest
          (ops.pressureToAltitude (fieldValues.getAsFloat idx))
      else
        match findField includedFieldMap "aircraftIndicatedAltitude" with
        | some indicated =>
          if !indicated.isMissing idx then
            AircraftAltitudeVariable.altitudeLoop ops includedFieldMap idx rest
              (indicated.getAsFloat idx)
          else AircraftAltitudeVariable.altitudeLoop ops includedFieldMap idx rest alt
        | none => AircraftAltitudeVariable.altitudeLoop ops includedFieldMap idx rest alt
    else if fieldName == "aircraftIndicatedAltitude" then
      AircraftAltitudeVariable.altitudeLoop ops includedFieldMap idx rest alt
    else if !fieldValues.isMissing idx then
      AircraftAltitudeVariable.altitudeLoop ops includedFieldMap idx rest
        (fieldValues.getAsFloat idx)
    else AircraftAltitudeVariable.altitudeLoop ops includedFieldMap idx rest alt

/-- The outer loop of lines 80-126: the values of `aircraftAlts` at the positions given. -/
def AircraftAltitudeVariable.altitudes {F : Type} (ops : FloatOps F)
    (includedFieldMap : List (String × DataObject F)) (includedFields : List String) :
    List Nat → Except Abort (List F)
  | [] => .ok []
  | idx :: rest => do
    let alt ← AircraftAltitudeVariable.altitudeLoop ops includedFieldMap idx
      includedFields.reverse ops.missingValue
    let alts ← AircraftAltitudeVariable.altitudes ops includedFieldMap includedFields rest
    .ok (alt :: alts)

/-- `AircraftAltitudeVariable::exportData` (lines 48-134). -/
def AircraftAltitudeVariable.exportData {F : Type} (ops : FloatOps F) (beginIdx : Nat)
    (v : Variable) (map : BufrDataMap F) : Except Abort (ExportedObject F) := do
  AircraftAltitudeVariable.checkKeys v map
  let includedFieldMap ←
    AircraftAltitudeVariable.includeFields v map AircraftAltitudeVariable.FieldNames
  let includedFields := includedFieldMap.map (fun e => e.1)
  let referenceObj ← unorderedBegin beginIdx includedFieldMap
  let path := referenceObj.path
  AircraftAltitudeVariable.validatePaths includedFieldMap path
    AircraftAltitudeVariable.FieldNames
  let aircraftAlts ← AircraftAltitudeVariable.altitudes ops includedFieldMap includedFields
    (List.range referenceObj.size)
  .ok
    { values := aircraftAlts
      exportName := v.exportName
      groupByField := v.groupByField_
      dims := referenceObj.dims
      path := referenceObj.path
      dimPaths := referenceObj.dimPaths }

/-! ## `RemappedBrightnessTemperatureVariable.cpp` -/

/-- The constant `FieldNames` (lines 29-32). -/
def RemappedBrightnessTemperatureVariable.FieldNames : List String :=
  ["fieldOfViewNumber", "sensorChannelNumber", "brightnessTemperature"]

/-- `RemappedBrightnessTemperatureVariable::checkKeys` (lines 115-146). -/
def RemappedBrightnessTemperatureVariable.checkKeys {F : Type} (v : Variable)
    (map : BufrDataMap F) : Except Abort Unit :=
  let requiredKeys :=
    (RemappedBrightnessTemperatureVariable.FieldNames.filter v.has).map v.getExportKey
  let (isKeyMissing, errStr) := checkKeysLoop map requiredKeys "Query "
  let errStr := errStr ++ " could not be found during export of datetime object."
  if isKeyMissing then .error (.raised (.badParameter errStr)) else .ok ()

/-- `RemappedBrightnessTemperatureVariable::exportData` (lines 47-113): what it writes to the
log, and how it ends. Lines 67-112 (the export of the observation time, the copies of the three
objects and the spatial average, which is external) are the parameter `remap`, called with the
map and the values of `nobs` and `nchn`. -/
def RemappedBrightnessTemperatureVariable.exportData {F Out : Type}
    (remap : BufrDataMap F → Int → Int → Except Abort Out) (v : Variable)
    (map : BufrDataMap F) : List String × Except Abort Out :=
  match (do
      RemappedBrightnessTemperatureVariable.checkKeys v map
      let radObj ← map.at (v.getExportKey "brightnessTemperature")
      let _sensorChanObj ← map.at (v.getExportKey "sensorChannelNumber")
      let _fovnObj ← map.at (v.getExportKey "fieldOfViewNumber")
      .ok radObj : Except Abort (DataObject F)) with
  | .error e => ([], .error e)
  | .ok radObj =>
    let log :=
      if radObj.dims.length != 2 then
        ["Observation dimension should be 2 \n",
         "Incorrect observation dimension : " ++ toString radObj.dims.length ++ "\n"]
      else []
    (log,
      match radObj.dims[0]?, radObj.dims[1]? with
      | some nobs, some nchn => remap map nobs nchn
      | _, _ => .error (.undefined .outOfRange))

/-! ## Sample data for the type metadata, the rewind and the tokenizer -/

/-- A 32-bit numeric field without scale or reference. -/
def sampleField32 : TypeInfo :=
  { scale := 0, reference := 0, bits := 32, unit := "NUMERIC" }

/-- A 16-bit numeric field with a reference of -1000 and a scale of -1. -/
def sampleField16 : TypeInfo :=
  { scale := -1, reference := -1000, bits := 16, unit := "NUMERIC" }

/-- A 40-bit numeric field without scale or reference. -/
def sampleField40 : TypeInfo :=
  { scale := 0, reference := 0, bits := 40, unit := "NUMERIC" }

/-- A character field of exactly 64 bits. -/
def sampleField64Chars : TypeInfo :=
  { scale := 0, reference := 0, bits := 64, unit := "CCITT IA5" }

/-- The table of subset `TypeB` as a re-opened file presents it: the same mnemonics under other
node ids. -/
def reopenedTree : TableTree :=
  .node { sampleRoot with nodeIdx := 11 }
    [.node { sampleSeq with nodeIdx := 12 }
      [.node { sampleLat with nodeIdx := 13 } [], .node { sampleLon with nodeIdx := 14 } []],
     .node { sampleLat with nodeIdx := 15, mnemonicIdx := 1 } []]

/-- Provider methods for the sample: closing keeps the provider, opening loads the re-opened
table. -/
def sampleMethods : ProviderMethods :=
  { openFile := fun dp => { dp with tableData := reopenedTree }
    closeFile := fun dp => dp }

/-- The sample provider with the runner as its first `getTargets` call on `TypeB` left it. -/
def sampleSession : Session :=
  { dataProvider_ := sampleProvider, runner := sampleFirstCall.2 }

/-- A toy multi-query grammar: a range that starts with `[` is one token. -/
def toyMultiQuery : TokenParser String :=
  fun range => if range.head? = some '[' then (some (String.mk range), []) else (none, range)

/-- A toy single-query grammar: a range that starts with `*` is one token. -/
def toySingleQuery : TokenParser String :=
  fun range => if range.head? = some '*' then (some (String.mk range), []) else (none, range)

/-! ## The aircraft altitude expected at a position -/

/-- The object of a field of the variable: the entry of the map under the export key of the
field when the field is configured. -/
def fieldObject {F : Type} (v : Variable) (map : BufrDataMap F) (fieldName : String) :
    Option (DataObject F) :=
  if v.has fieldName then map (v.getExportKey fieldName) else none

/-- The value at `idx` of the first field of the list, in the order of the list, that is
configured and not missing at `idx`; `alt` when there is none. -/
def firstAvailable {F : Type} (v : Variable) (map : BufrDataMap F) (idx : Nat) :
    List String → F → F
  | [], alt => alt
  | fieldName :: rest, alt =>
    match fieldObject v map fieldName with
    | some obj =>
      if !obj.isMissing idx then obj.getAsFloat idx else firstAvailable v map idx rest alt
    | none => firstAvailable v map idx rest alt

/-- The altitude at `idx` in words: the converted pressure when `pressure` is configured and
not missing; else the indicated altitude when `pressure` and `aircraftIndicatedAltitude` are
configured and the latter is not missing; else the first available of the five other fields;
else the missing value. -/
def expectedAltitude {F : Type} (ops : FloatOps F) (v : Variable) (map : BufrDataMap F)
    (idx : Nat) : F :=
  let other :=
    firstAvailable v map idx (AircraftAltitudeVariable.FieldNames.drop 2) ops.missingValue
  match fieldObject v map "pressure" with
  | some pressure =>
    if !pressure.isMissing idx then ops.pressureToAltitude (pressure.getAsFloat idx)
    else
      match fieldObject v map "aircraftIndicatedAltitude" with
      | some indicated => if !indicated.isMissing idx then indicated.getAsFloat idx else other
      | none => other
  | none => other

/-- The variable with the field `aircraftIndicatedAltitude` taken out of its configuration. -/
def withoutIndicatedAltitude (v : Variable) : Variable :=
  { v with has := fun name => name != "aircraftIndicatedAltitude" && v.has name }

/-- The value of `aircraftAlts[idx]` after one iteration of the inner loop (lines 87-124) for
the field `fieldName` with the object `fieldValues`, when it was `alt` before. -/
def altitudeStep {F : Type} (ops : FloatOps F) (includedFieldMap : List (String × DataObject F))
    (idx : Nat) (fieldName : String) (fieldValues : DataObject F) (alt : F) : F :=
  if fieldName == "pressure" then
    if !fieldValues.isMissing idx then ops.pressureToAltitude (fieldValues.getAsFloat idx)
    else
      match findField includedFieldMap "aircraftIndicatedAltitude" with
      | some indicated => if !indicated.isMissing idx then indicated.getAsFloat idx else alt
      | none => alt
  else if fieldName == "aircraftIndicatedAltitude" then alt
  else if !fieldValues.isMissing idx then fieldValues.getAsFloat idx
  else alt

/-! ## Sample data for the export variables -/

/-- A sample object of shape (5, 3) on the path `*/SEQ`; position `i` holds `i`, and the even
positions are missing. Integers stand for the float values. -/
def sampleObject53 : DataObject Int :=
  { size := 15, dims := [5, 3], path := "*/SEQ"
    isMissing := fun i => i % 2 == 0
    getAsFloat := fun i => (i : Int)
    getAsInt := fun i => (i : Int)
    getAsString := fun i => toString i }

/-- A sample object of shape (5, 4) on another path, `*/SEQ/REP`. -/
def sampleObject54 : DataObject Int :=
  { sampleObject53 with size := 20, dims := [5, 4], path := "*/SEQ/REP" }

/-- A sample object of shape (5, 4) that reports the path `*/SEQ` of the (5, 3) object. -/
def sampleObject54SamePath : DataObject Int :=
  { sampleObject53 with size := 20, dims := [5, 4] }

/-- A sample object with one dimension. -/
def sampleObject5 : DataObject Int :=
  { sampleObject53 with size := 5, dims := [5] }

/-- A sample object with three dimensions. -/
def sampleObject532 : DataObject Int :=
  { sampleObject53 with size := 30, dims := [5, 3, 2] }

/-- An aircraft altitude variable `alt` configured with `pressure` and `height`. -/
def altPressureHeight : Variable :=
  { exportName := "alt", has := fun name => name == "pressure" || name == "height" }

/-- An aircraft altitude variable `alt` configured with `flightLevel` and
`heightOrAltitude`. -/
def altFlightLevels : Variable :=
  { exportName := "alt", has := fun name => name == "flightLevel" || name == "heightOrAltitude" }

/-- A data map that holds the given objects under the given keys. -/
def sampleMap (entries : List (String × DataObject Int)) : BufrDataMap Int :=
  fun key => (entries.find? (fun e => e.1 == key)).map (fun e => e.2)

/-- Float operations for the samples: the missing value is `-1`, the pressure conversion
negates. -/
def sampleOps : FloatOps Int :=
  { missingValue := -1, pressureToAltitude := fun p => -p }

/-- A wigos variable `wigos`. -/
def wigosVar : Variable := { exportName := "wigos", has := fun _ => true }

/-- A brightness temperature variable `bt` with its three fields configured. -/
def btVar : Variable := { exportName := "bt", has := fun _ => true }

/-- A sample series with three positions: the identifier series, where position 1 holds the
missing integer `2147483647`. -/
def sampleSeries : DataObject Int :=
  { size := 3, dims := [3], path := "*/WIGOS"
    isMissing := fun _ => false
    getAsFloat := fun i => (i : Int)
    getAsInt := fun i => if i == 1 then 2147483647 else -(i : Int) - 20
    getAsString := fun i => if i == 2 then "" else "LOCAL" }

/-- A data map with the four inputs of the wigos variable, all on one path. -/
def wigosMap : BufrDataMap Int :=
  sampleMap [("wigos_wgosids", { sampleSeries with getAsInt := fun i => (i : Int) }),
    ("wigos_wgosisid", sampleSeries), ("wigos_wgosisnm", { sampleSeries with getAsInt := fun _ => 7 }),
    ("wigos_wgoslid", sampleSeries)]

/-- A stand-in for lines 67-112 of the brightness temperature export: it returns the values of
`nobs` and `nchn` it was called with. -/
def sampleRemap : BufrDataMap Int → Int → Int → Except Abort (Int × Int) :=
  fun _ nobs nchn => .ok (nobs, nchn)

/-- A data map for the brightness temperature variable `bt` whose brightness temperature is
the given object. -/
def btMap (radObj : DataObject Int) : BufrDataMap Int :=
  sampleMap [("bt_brightnessTemperature", radObj), ("bt_sensorChannelNumber", sampleObject53),
    ("bt_fieldOfViewNumber", sampleObject5)]

/-- An altitude map with `pressure` of shape (5, 3) and `height` of shape (5, 4) on two
paths. -/
def altMapTwoPaths : BufrDataMap Int :=
  sampleMap [("alt_pressure", sampleObject53), ("alt_height", sampleObject54)]

/-- An altitude map with `pressure` of shape (5, 3) and `height` of shape (5, 4) that report
one path. -/
def altMapOnePath : BufrDataMap Int :=
  sampleMap [("alt_pressure", sampleObject53), ("alt_height", sampleObject54SamePath)]

/-- An altitude map with `flightLevel` of shape (5, 3) and `heightOrAltitude` of shape (5, 4)
on two paths. -/
def altMapFlightLevels : BufrDataMap Int :=
  sampleMap [("alt_flightLevel", sampleObject53), ("alt_heightOrAltitude", sampleObject54)]

/-- An aircraft altitude variable `alt` configured with `pressure`,
`aircraftIndicatedAltitude` and `height`. -/
def altThreeFields : Variable :=
  { exportName := "alt"
    has := fun name =>
      name == "pressure" || name == "aircraftIndicatedAltitude" || name == "height" }

/-- An altitude map for the three fields, of three positions on one path: `pressure` is missing
at positions 0 and 2, the indicated altitude (position `i` holds `100 + i`) at position 2 only,
and `height` (position `i` holds `200 + i`) at position 2 only; `pressure` holds `1000 + i`
at position `i`. -/
def altMapThreeFields : BufrDataMap Int :=
  sampleMap
    [("alt_pressure",
       { sampleSeries with isMissing := fun i => i % 2 == 0,
                           getAsFloat := fun i => 1000 + (i : Int) }),
     ("alt_aircraftIndicatedAltitude",
       { sampleSeries with isMissing := fun i => i == 2, getAsFloat := fun i => 100 + (i : Int) }),
     ("alt_height",
       { sampleSeries with isMissing := fun i => i == 2, getAsFloat := fun i => 200 + (i : Int) })]

/-! ## The search loop -/

/-- The lookups the search loop makes for a list of alternatives none of which resolves: one per
candidate, in declared order. -/
def candidateLookups (variant : SubsetVariant) (alts : List Query) : List Event :=
  (alts.filter (fun q => subsetMatches q variant)).map (fun q => Event.lookup q.path)

theorem candidateLookups_nil (variant : SubsetVariant) : candidateLookups variant [] = [] := rfl

theorem candidateLookups_cons (variant : SubsetVariant) (q : Query) (alts : List Query) :
    candidateLookups variant (q :: alts) =
      if subsetMatches q variant then Event.lookup q.path :: candidateLookups variant alts
      else candidateLookups variant alts := by
  unfold candidateLookups
  by_cases h : subsetMatches q variant = true <;> simp [List.filter_cons, h]

/-- When no candidate among the alternatives resolves, the loop runs to the end, leaves
`tableNode` null and has looked up every candidate. -/
theorem findTableNode_none (variant : SubsetVariant) (table : SubsetTable) :
    ∀ (alts : List Query) (foundQuery : Query) (evs : List Event),
      (∀ q ∈ alts, subsetMatches q variant = true → table.getNodeForPath q.path = none) →
      ∃ fq, findTableNode variant table alts foundQuery none evs =
        (fq, none, evs ++ candidateLookups variant alts) := by
  intro alts
  induction alts with
  | nil => intro fq evs _; exact ⟨fq, by simp [findTableNode, candidateLookups_nil]⟩
  | cons q rest ih =>
    intro fq evs h
    have hrest : ∀ p ∈ rest, subsetMatches p variant = true → table.getNodeForPath p.path = none :=
      fun p hp => h p (List.mem_cons_of_mem _ hp)
    by_cases hm : subsetMatches q variant = true
    · have hq := h q (List.mem_cons_self _ _) hm
      obtain ⟨fq', hfq'⟩ := ih q (evs ++ [Event.lookup q.path]) hrest
      refine ⟨fq', ?_⟩
      simp only [findTableNode, hm, if_true, hq, Option.isSome_none, Bool.false_eq_true, if_false,
        hfq', candidateLookups_cons, List.append_assoc, List.singleton_append]
    · obtain ⟨fq', hfq'⟩ := ih fq evs hrest
      refine ⟨fq', ?_⟩
      simp only [findTableNode, hm, if_false, hfq', candidateLookups_cons, Bool.false_eq_true]

/-- First match: when `q` is the first alternative that is a candidate and resolves, the loop
stops at `q` with its node, having looked up the candidates before `q` and `q` itself, and
nothing after `q`. -/
theorem findTableNode_first (variant : SubsetVariant) (table : SubsetTable) (q : Query)
    (post : List Query) (node : BufrNode)
    (hq : subsetMatches q variant = true) (hnode : table.getNodeForPath q.path = some node) :
    ∀ (pre : List Query) (foundQuery : Query) (tableNode : Option BufrNode) (evs : List Event),
      (∀ p ∈ pre, subsetMatches p variant = true → table.getNodeForPath p.path = none) →
      findTableNode variant table (pre ++ q :: post) foundQuery tableNode evs =
        (q, some node, evs ++ (candidateLookups variant pre ++ [Event.lookup q.path])) := by
  intro pre
  induction pre with
  | nil =>
    intro fq tn evs _
    simp [findTableNode, hq, hnode, candidateLookups_nil]
  | cons p rest ih =>
    intro fq tn evs h
    have hrest : ∀ x ∈ rest, subsetMatches x variant = true → table.getNodeForPath x.path = none :=
      fun x hx => h x (List.mem_cons_of_mem _ hx)
    have hcons : findTableNode variant table (p :: rest ++ q :: post) fq tn evs =
        findTableNode variant table (p :: (rest ++ q :: post)) fq tn evs := rfl
    rw [hcons]
    by_cases hm : subsetMatches p variant = true
    · have hp := h p (List.mem_cons_self _ _) hm
      rw [findTableNode]
      simp only [hm, if_true, hp, Option.isSome_none, Bool.false_eq_true, if_false]
      rw [ih p none (evs ++ [Event.lookup p.path]) hrest]
      simp [candidateLookups_cons, hm]
    · rw [findTableNode]
      simp only [hm, if_false, Bool.false_eq_true]
      rw [ih fq tn evs hrest]
      simp [candidateLookups_cons, hm]

/-- Whatever the loop returns as `tableNode` is the lookup of the query it returns as
`foundQuery`, and that query is one of the alternatives and a candidate. -/
theorem findTableNode_some (variant : SubsetVariant) (table : SubsetTable) :
    ∀ (alts : List Query) (foundQuery : Query) (evs : List Event) (fq : Query) (node : BufrNode)
      (evs' : List Event),
      findTableNode variant table alts foundQuery none evs = (fq, some node, evs') →
      fq ∈ alts ∧ subsetMatches fq variant = true ∧ table.getNodeForPath fq.path = some node := by
  intro alts
  induction alts with
  | nil => intro fq0 evs fq node evs' h; simp [findTableNode] at h
  | cons q rest ih =>
    intro fq0 evs fq node evs' h
    by_cases hm : subsetMatches q variant = true
    · cases hl : table.getNodeForPath q.path with
      | none =>
        simp only [findTableNode, hm, if_true, hl, Option.isSome_none, Bool.false_eq_true,
          if_false] at h
        obtain ⟨h1, h2, h3⟩ := ih _ _ _ _ _ h
        exact ⟨List.mem_cons_of_mem _ h1, h2, h3⟩
      | some n =>
        simp only [findTableNode, hm, if_true, hl, Option.isSome_some, Prod.mk.injEq,
          Option.some.injEq] at h
        obtain ⟨h1, h2, _⟩ := h
        subst h1; subst h2
        exact ⟨List.mem_cons_self _ _, hm, hl⟩
    · simp only [findTableNode, hm, if_false, Bool.false_eq_true] at h
      obtain ⟨h1, h2, h3⟩ := ih _ _ _ _ _ h
      exact ⟨List.mem_cons_of_mem _ h1, h2, h3⟩

/-! ## The table tree and the component chain -/

theorem readAt_ok {α : Type} {v : List α} {i : Nat} {x : α} (h : v[i]? = some x) :
    readAt v i = .ok x := by
  simp [readAt, h]

theorem writeAt_ok {α : Type} {v : List α} {i : Nat} {x : α} (f : α → α) (h : v[i]? = some x) :
    writeAt v i f = .ok (v.set i (f x)) := by
  simp [writeAt, h]

theorem chainNodes_length : ∀ (chain pre : List NodeData),
    (BufrNode.chainNodes pre chain).length = chain.length := by
  intro chain
  induction chain with
  | nil => intro pre; rfl
  | cons d rest ih => intro pre; simp [BufrNode.chainNodes, ih]

theorem chainNodes_getElem? : ∀ (chain pre : List NodeData) (k : Nat),
    (BufrNode.chainNodes pre chain)[k]? =
      chain[k]?.map (fun d => ({ ancestors := pre ++ chain.take k, data := d } : BufrNode)) := by
  intro chain
  induction chain with
  | nil => intro pre k; simp [BufrNode.chainNodes]
  | cons d rest ih =>
    intro pre k
    cases k with
    | zero => simp [BufrNode.chainNodes]
    | succ k => simp [BufrNode.chainNodes, ih]

theorem getPathNodes_length (n : BufrNode) : n.getPathNodes.length = n.ancestors.length + 1 := by
  simp [BufrNode.getPathNodes, chainNodes_length]

theorem getParent_of_ancestors (n : BufrNode) (h : n.ancestors ≠ []) :
    ∃ p, n.getParent = some p := by
  unfold BufrNode.getParent
  rw [List.getLast?_eq_getLast _ h]
  exact ⟨_, rfl⟩

theorem getDimensionParent_of_ancestors (n : BufrNode) (h : n.ancestors ≠ []) :
    ∃ dp, n.getDimensionParent = some dp := by
  unfold BufrNode.getDimensionParent
  cases hanc : n.ancestors with
  | nil => exact absurd hanc h
  | cons root rest => exact ⟨_, rfl⟩

/-- Every node of `getPathNodes` below the root has a parent and a dimension parent. -/
theorem getPathNodes_links (n : BufrNode) (j : Nat) (h1 : 1 ≤ j) (hj : j < n.getPathNodes.length) :
    ∃ node p dp, n.getPathNodes[j]? = some node ∧ node.getParent = some p ∧
      node.getDimensionParent = some dp := by
  rw [getPathNodes_length] at hj
  have hlen : j < (n.ancestors ++ [n.data]).length := by simp; omega
  have hget : (n.ancestors ++ [n.data])[j]? = some ((n.ancestors ++ [n.data])[j]) :=
    List.getElem?_eq_getElem hlen
  have hnode : n.getPathNodes[j]? =
      some { ancestors := (n.ancestors ++ [n.data]).take j, data := (n.ancestors ++ [n.data])[j] } := by
    simp only [BufrNode.getPathNodes, chainNodes_getElem?, hget, Option.map_some',
      List.nil_append]
  have hne : ((n.ancestors ++ [n.data]).take j) ≠ [] := by
    intro h0
    have := congrArg List.length h0
    simp at this
    omega
  obtain ⟨p, hp⟩ := getParent_of_ancestors
    { ancestors := (n.ancestors ++ [n.data]).take j, data := (n.ancestors ++ [n.data])[j] } hne
  obtain ⟨dp, hdp⟩ := getDimensionParent_of_ancestors
    { ancestors := (n.ancestors ++ [n.data]).take j, data := (n.ancestors ++ [n.data])[j] } hne
  exact ⟨_, p, dp, hnode, hp, hdp⟩

/-- A node found by descending `path` lies `path.length` levels below the start. -/
theorem descend_ancestors_length : ∀ (path : List PathComponent) (t : TableTree)
    (anc : List NodeData) (n : BufrNode),
    t.descend anc path = some n → n.ancestors.length = anc.length + path.length := by
  intro path
  induction path with
  | nil =>
    intro t anc n h
    simp only [TableTree.descend, Option.some.injEq] at h
    subst h; simp
  | cons seg rest ih =>
    intro t anc n h
    simp only [TableTree.descend] at h
    split at h
    · exact absurd h (by simp)
    · rename_i c _
      have := ih c (anc ++ [t.data]) n h
      simp at this ⊢
      omega

theorem getNodeForPath_depth (table : SubsetTable) (path : List PathComponent) (n : BufrNode)
    (h : table.getNodeForPath path = some n) : n.getPathNodes.length = path.length + 1 := by
  have := descend_ancestors_length path table.tree [] n h
  rw [getPathNodes_length, this]; simp

/-- The loop of lines 100-110 stays in bounds and fills the components `k ..` when the node
list is one longer than the query path and as long as the component vector. -/
theorem buildPathLoop_ok (foundQuery : Query) (nodes : List BufrNode)
    (hnodes : nodes.length = foundQuery.path.length + 1)
    (hlinks : ∀ j, 1 ≤ j → j < nodes.length →
      ∃ node p dp, nodes[j]? = some node ∧ node.getParent = some p ∧
        node.getDimensionParent = some dp) :
    ∀ (left k : Nat) (path : List TargetComponent),
      1 ≤ k → k + left = nodes.length → path.length = nodes.length →
      ∃ path', buildPathLoop foundQuery nodes left k k path = .ok path' ∧
        path'.length = path.length ∧
        (∀ j, j < k → path'[j]? = path[j]?) ∧
        (∀ j, k ≤ j → j < nodes.length →
          ∃ seg node p dp, foundQuery.path[j - 1]? = some seg ∧ nodes[j]? = some node ∧
            node.getParent = some p ∧ node.getDimensionParent = some dp ∧
            path'[j]? = some
              { queryComponent := .path seg
                nodeId := node.data.nodeIdx
                parentNodeId := p.data.nodeIdx
                parentDimensionNodeId := dp.nodeIdx
                type := node.data.type
                fixedRepeatCount := node.data.fixedRepCount }) := by
  intro left
  induction left with
  | zero =>
    intro k path _ hk _
    refine ⟨path, rfl, rfl, fun _ _ => rfl, ?_⟩
    intro j hkj hj
    omega
  | succ left ih =>
    intro k path h1 hk hlen
    have hklt : k < nodes.length := by omega
    obtain ⟨node, p, dp, hnode, hp, hdp⟩ := hlinks k h1 hklt
    have hseglt : k - 1 < foundQuery.path.length := by omega
    have hseg : foundQuery.path[k - 1]? = some (foundQuery.path[k - 1]) :=
      List.getElem?_eq_getElem hseglt
    have hkp : k < path.length := by omega
    have hpk : path[k]? = some path[k] := List.getElem?_eq_getElem hkp
    obtain ⟨path', hrun, hlen', hlow, hhigh⟩ := ih (k + 1)
      (path.set k
        { queryComponent := .path (foundQuery.path[k - 1])
          nodeId := node.data.nodeIdx
          parentNodeId := p.data.nodeIdx
          parentDimensionNodeId := dp.nodeIdx
          type := node.data.type
          fixedRepeatCount := node.data.fixedRepCount })
      (by omega) (by omega) (by simpa using hlen)
    refine ⟨path', ?_, ?_, ?_, ?_⟩
    · rw [buildPathLoop, readAt_ok hseg, readAt_ok hnode]
      simp only [bind, Except.bind, hp, hdp, deref, writeAt_ok _ hpk, TargetComponent.setType]
      exact hrun
    · simpa using hlen'
    · intro j hj
      rw [hlow j (by omega)]
      exact List.getElem?_set_ne (by omega)
    · intro j hkj hj
      by_cases hjk : j = k
      · subst hjk
        refine ⟨_, node, p, dp, hseg, hnode, hp, hdp, ?_⟩
        rw [hlow j (by omega)]
        simp [List.getElem?_set_self, hlen, hklt]
      · exact hhigh j (by omega) hj

/-- Lines 88-110 for a node that the path lookup returned: no access is out of range, the
chain has one component per path segment plus one for the subset root. -/
theorem buildPath_ok (q : Query) (table : SubsetTable) (node : BufrNode)
    (hnode : table.getNodeForPath q.path = some node) :
    ∃ path, buildPath q table node = .ok path ∧
      path.length = q.path.length + 1 ∧
      path[0]? = some
        { queryComponent := .subset q.subset
          nodeId := table.getRoot.data.nodeIdx
          parentNodeId := 0
          parentDimensionNodeId := 0
          type := Typ.Subset
          fixedRepeatCount := 0 } ∧
      (∀ k, 1 ≤ k → k ≤ q.path.length →
        ∃ seg nk p dp, q.path[k - 1]? = some seg ∧ node.getPathNodes[k]? = some nk ∧
          nk.getParent = some p ∧ nk.getDimensionParent = some dp ∧
          path[k]? = some
            { queryComponent := .path seg
              nodeId := nk.data.nodeIdx
              parentNodeId := p.data.nodeIdx
              parentDimensionNodeId := dp.nodeIdx
              type := nk.data.type
              fixedRepeatCount := nk.data.fixedRepCount }) := by
  have hdepth := getNodeForPath_depth table q.path node hnode
  have h0 : (List.replicate (q.path.length + 1) ({} : TargetComponent))[0]? =
      some ({} : TargetComponent) := by simp
  obtain ⟨path', hrun, hlen', hlow, hhigh⟩ :=
    buildPathLoop_ok q node.getPathNodes hdepth (getPathNodes_links node)
      (node.getPathNodes.length - 1) 1
      ((List.replicate (q.path.length + 1) ({} : TargetComponent)).set 0
        { queryComponent := .subset q.subset
          nodeId := table.getRoot.data.nodeIdx
          parentNodeId := 0
          parentDimensionNodeId := 0
          type := Typ.Subset
          fixedRepeatCount := 0 })
      (le_refl 1) (by omega) (by simp [hdepth])
  refine ⟨path', ?_, ?_, ?_, ?_⟩
  · unfold buildPath
    simp only [bind, Except.bind, writeAt_ok _ h0, TargetComponent.setType]
    exact hrun
  · simpa using hlen'
  · rw [hlow 0 (by omega)]
    simp
  · intro k h1 hk
    exact hhigh k h1 (by omega)

/-! ## One iteration of the loop over the names -/

/-- The iteration for a name whose search ends with a node: the resolved target. -/
theorem resolveName_resolved (querySet : QuerySet) (variant : SubsetVariant) (table : SubsetTable)
    (name : String) (fq : Query) (node : BufrNode) (evs : List Event)
    (hfind : findTableNode variant table (querySet.queriesFor name) {} none [] =
      (fq, some node, evs)) :
    ∃ path, buildPath fq table node = .ok path ∧
      resolveName querySet variant table name = .ok
        ({ name := name
           queryStr := fq.str
           nodeIdx := node.data.nodeIdx
           longStrId := node.data.mnemonic ++ "#" ++ toString node.data.mnemonicIdx
           typeInfo := node.data.typeInfo
           path := path }, evs) := by
  obtain ⟨_, _, hlookup⟩ := findTableNode_some variant table _ _ _ _ _ _ hfind
  obtain ⟨path, hpath, _⟩ := buildPath_ok fq table node hlookup
  refine ⟨path, hpath, ?_⟩
  unfold resolveName
  rw [hfind]
  simp only [bind, Except.bind, hpath, Target.setPath]

/-- The iteration for a name whose search ends without a node, when the name has a first
alternative: the empty target and the warning. -/
theorem resolveName_unresolved (querySet : QuerySet) (variant : SubsetVariant)
    (table : SubsetTable) (name : String) (fq : Query) (evs : List Event) (first : Query)
    (rest : List Query)
    (hfind : findTableNode variant table (querySet.queriesFor name) {} none [] = (fq, none, evs))
    (halts : querySet.queriesFor name = first :: rest) :
    resolveName querySet variant table name =
      .ok (emptyTarget name first.str, evs ++ [Event.warning first.str variant]) := by
  have h0 : (querySet.queriesFor name)[0]? = some first := by simp [halts]
  unfold resolveName
  rw [hfind]
  simp only [bind, Except.bind, readAt_ok h0]

/-- The iteration for a name with no alternative at all: the read of `queriesFor(name)[0]` on
line 68 is out of range. -/
theorem resolveName_no_alternative (querySet : QuerySet) (variant : SubsetVariant)
    (table : SubsetTable) (name : String) (halts : querySet.queriesFor name = []) :
    resolveName querySet variant table name = .error Fault.outOfRange := by
  unfold resolveName
  rw [halts]
  simp [findTableNode, readAt, bind, Except.bind]

/-- The iteration for a name with at least one alternative returns a target. -/
theorem resolveName_total (querySet : QuerySet) (variant : SubsetVariant) (table : SubsetTable)
    (name : String) (halts : querySet.queriesFor name ≠ []) :
    ∃ res, resolveName querySet variant table name = .ok res := by
  rcases hfind : findTableNode variant table (querySet.queriesFor name) {} none [] with
    ⟨fq, tn, evs⟩
  cases tn with
  | none =>
    cases hq : querySet.queriesFor name with
    | nil => exact absurd hq halts
    | cons first rest =>
      exact ⟨_, resolveName_unresolved querySet variant table name fq evs first rest hfind hq⟩
  | some node =>
    obtain ⟨path, _, h⟩ := resolveName_resolved querySet variant table name fq node evs hfind
    exact ⟨_, h⟩

/-- The target of an iteration carries the name of the iteration. -/
theorem resolveName_name (querySet : QuerySet) (variant : SubsetVariant) (table : SubsetTable)
    (name : String) (t : Target) (evs : List Event)
    (h : resolveName querySet variant table name = .ok (t, evs)) : t.name = name := by
  rcases hfind : findTableNode variant table (querySet.queriesFor name) {} none [] with
    ⟨fq, tn, evs'⟩
  cases tn with
  | none =>
    cases hq : querySet.queriesFor name with
    | nil =>
      rw [resolveName_no_alternative querySet variant table name hq] at h
      exact absurd h (by simp)
    | cons first rest =>
      rw [resolveName_unresolved querySet variant table name fq evs' first rest hfind hq] at h
      simp only [Except.ok.injEq, Prod.mk.injEq] at h
      rw [← h.1]; rfl
  | some node =>
    obtain ⟨path, _, h'⟩ := resolveName_resolved querySet variant table name fq node evs' hfind
    rw [h'] at h
    simp only [Except.ok.injEq, Prod.mk.injEq] at h
    rw [← h.1]

/-! ## The loop over the names and the cache -/

theorem resolveAll_cons_ok (querySet : QuerySet) (variant : SubsetVariant) (table : SubsetTable)
    (name : String) (rest : List String) (targets : Targets) (evs : List Event)
    (h : resolveAll querySet variant table (name :: rest) = .ok (targets, evs)) :
    ∃ t e ts es, resolveName querySet variant table name = .ok (t, e) ∧
      resolveAll querySet variant table rest = .ok (ts, es) ∧
      targets = t :: ts ∧ evs = e ++ es := by
  rw [resolveAll] at h
  cases h1 : resolveName querySet variant table name with
  | error f => rw [h1] at h; simp [bind, Except.bind] at h
  | ok res =>
    obtain ⟨t, e⟩ := res
    cases h2 : resolveAll querySet variant table rest with
    | error f => rw [h1, h2] at h; simp [bind, Except.bind] at h
    | ok res2 =>
      obtain ⟨ts, es⟩ := res2
      rw [h1, h2] at h
      simp only [bind, Except.bind, Except.ok.injEq, Prod.mk.injEq] at h
      exact ⟨t, e, ts, es, rfl, rfl, h.1.symm, h.2.symm⟩

/-- The `i`-th target of the loop over the names is the target of the iteration for the
`i`-th name. -/
theorem resolveAll_nth (querySet : QuerySet) (variant : SubsetVariant) (table : SubsetTable) :
    ∀ (names : List String) (targets : Targets) (evs : List Event),
      resolveAll querySet variant table names = .ok (targets, evs) →
      ∀ (i : Nat) (name : String), names[i]? = some name →
        ∃ t e, resolveName querySet variant table name = .ok (t, e) ∧ targets[i]? = some t := by
  intro names
  induction names with
  | nil => intro targets evs _ i name hi; simp at hi
  | cons n rest ih =>
    intro targets evs h i name hi
    obtain ⟨t, e, ts, es, h1, h2, ht, _⟩ := resolveAll_cons_ok _ _ _ _ _ _ _ h
    subst ht
    cases i with
    | zero =>
      simp only [List.getElem?_cons_zero, Option.some.injEq] at hi
      subst hi
      exact ⟨t, e, h1, by simp⟩
    | succ i =>
      simp only [List.getElem?_cons_succ] at hi
      obtain ⟨t', e', h1', h2'⟩ := ih ts es h2 i name hi
      exact ⟨t', e', h1', by simpa using h2'⟩

/-- The targets of the loop over the names carry the names, in order. -/
theorem resolveAll_names (querySet : QuerySet) (variant : SubsetVariant) (table : SubsetTable) :
    ∀ (names : List String) (targets : Targets) (evs : List Event),
      resolveAll querySet variant table names = .ok (targets, evs) →
      targets.map (fun t => t.name) = names := by
  intro names
  induction names with
  | nil =>
    intro targets evs h
    simp only [resolveAll, Except.ok.injEq, Prod.mk.injEq] at h
    rw [← h.1]; rfl
  | cons n rest ih =>
    intro targets evs h
    obtain ⟨t, e, ts, es, h1, h2, ht, _⟩ := resolveAll_cons_ok _ _ _ _ _ _ _ h
    subst ht
    simp [resolveName_name _ _ _ _ _ _ h1, ih ts es h2]

/-- The loop over the names returns when every name has at least one alternative. -/
theorem resolveAll_total (querySet : QuerySet) (variant : SubsetVariant) (table : SubsetTable) :
    ∀ (names : List String), (∀ name ∈ names, querySet.queriesFor name ≠ []) →
      ∃ res, resolveAll querySet variant table names = .ok res := by
  intro names
  induction names with
  | nil => intro _; exact ⟨_, rfl⟩
  | cons n rest ih =>
    intro h
    obtain ⟨⟨t, e⟩, h1⟩ := resolveName_total querySet variant table n (h n (List.mem_cons_self _ _))
    obtain ⟨⟨ts, es⟩, h2⟩ := ih (fun x hx => h x (List.mem_cons_of_mem _ hx))
    refine ⟨(t :: ts, e ++ es), ?_⟩
    rw [resolveAll, h1, h2]
    rfl

/-- On a cache miss `getTargets` returns exactly what the loop over the names produced, stores
it under the active variant and records the table construction and the events of the loop. -/
theorem getTargets_miss (r : QueryRunner) (dp : DataProvider)
    (hmiss : r.targetsCache_.find dp.getSubsetVariant = none) (targets : Targets)
    (r' : QueryRunner) :
    r.getTargets dp = .ok (targets, r') ↔
      ∃ evs, resolveAll r.querySet_ dp.getSubsetVariant { tree := dp.tableData }
          r.querySet_.names = .ok (targets, evs) ∧
        r' = { r with
          targetsCache_ := r.targetsCache_.insert dp.getSubsetVariant targets
          events := r.events ++ Event.buildTable dp.getSubsetVariant :: evs } := by
  unfold QueryRunner.getTargets
  rw [hmiss]
  cases hres : resolveAll r.querySet_ dp.getSubsetVariant { tree := dp.tableData }
      r.querySet_.names with
  | error f => simp [bind, Except.bind, hres]
  | ok res =>
    obtain ⟨ts, es⟩ := res
    simp only [bind, Except.bind, hres, Except.ok.injEq, Prod.mk.injEq]
    constructor
    · rintro ⟨h1, h2⟩
      subst h1
      exact ⟨es, ⟨rfl, rfl⟩, h2.symm⟩
    · rintro ⟨evs, ⟨h1, h2⟩, h3⟩
      subst h1; subst h2
      exact ⟨rfl, h3.symm⟩

/-- On a cache miss the `i`-th target returned is the target of the iteration for the `i`-th
name. -/
theorem getTargets_miss_nth (r : QueryRunner) (dp : DataProvider)
    (hmiss : r.targetsCache_.find dp.getSubsetVariant = none) (targets : Targets)
    (r' : QueryRunner) (h : r.getTargets dp = .ok (targets, r')) (i : Nat) (name : String)
    (hi : r.querySet_.names[i]? = some name) :
    ∃ t e, resolveName r.querySet_ dp.getSubsetVariant { tree := dp.tableData } name = .ok (t, e) ∧
      targets[i]? = some t := by
  obtain ⟨evs, hres, _⟩ := (getTargets_miss r dp hmiss targets r').1 h
  exact resolveAll_nth _ _ _ _ _ _ hres i name hi

/-- The call `getTargets` returns when every name has at least one alternative. -/
theorem getTargets_total (r : QueryRunner) (dp : DataProvider)
    (h : ∀ name ∈ r.querySet_.names, r.querySet_.queriesFor name ≠ []) :
    ∃ targets r', r.getTargets dp = .ok (targets, r') := by
  cases hfind : r.targetsCache_.find dp.getSubsetVariant with
  | some ts => exact ⟨ts, r, by simp [QueryRunner.getTargets, hfind]⟩
  | none =>
    obtain ⟨⟨ts, es⟩, hres⟩ := resolveAll_total r.querySet_ dp.getSubsetVariant
      { tree := dp.tableData } r.querySet_.names h
    exact ⟨ts, _, (getTargets_miss r dp hfind ts _).2 ⟨es, hres, rfl⟩⟩

/-- The loop ends with a null `tableNode` only if no candidate resolves. -/
theorem findTableNode_none_inv (variant : SubsetVariant) (table : SubsetTable) :
    ∀ (alts : List Query) (foundQuery : Query) (tableNode : Option BufrNode) (evs : List Event)
      (fq : Query) (evs' : List Event),
      findTableNode variant table alts foundQuery tableNode evs = (fq, none, evs') →
      ∀ q ∈ alts, subsetMatches q variant = true → table.getNodeForPath q.path = none := by
  intro alts
  induction alts with
  | nil => intro _ _ _ _ _ _ q hq; simp at hq
  | cons a rest ih =>
    intro fq0 tn evs fq evs' h q hq hm
    by_cases ha : subsetMatches a variant = true
    · cases hl : table.getNodeForPath a.path with
      | none =>
        simp only [findTableNode, ha, if_true, hl, Option.isSome_none, Bool.false_eq_true,
          if_false] at h
        rcases List.mem_cons.1 hq with rfl | hq'
        · exact hl
        · exact ih _ _ _ _ _ h q hq' hm
      | some n =>
        simp [findTableNode, ha, hl] at h
    · simp only [findTableNode, ha, if_false, Bool.false_eq_true] at h
      rcases List.mem_cons.1 hq with rfl | hq'
      · exact absurd hm ha
      · exact ih _ _ _ _ _ h q hq' hm

theorem subsetMatches_iff (q : Query) (variant : SubsetVariant) :
    subsetMatches q variant = true ↔
      q.subset.isAnySubset = true ∨
        (q.subset.name = variant.subset ∧ q.subset.index = variant.variantId) := by
  simp [subsetMatches]

theorem idsPositive_node (t : TableTree) (h : t.idsPositive = true) :
    0 < t.data.nodeIdx ∧ TableTree.idsPositiveList t.children = true := by
  cases t with
  | node d cs => simpa [TableTree.idsPositive, TableTree.data, TableTree.children] using h

theorem idsPositiveList_mem : ∀ (cs : List TableTree), TableTree.idsPositiveList cs = true →
    ∀ c ∈ cs, c.idsPositive = true := by
  intro cs
  induction cs with
  | nil => intro _ c hc; simp at hc
  | cons x xs ih =>
    intro h c hc
    simp only [TableTree.idsPositiveList, Bool.and_eq_true] at h
    rcases List.mem_cons.1 hc with rfl | hc
    · exact h.1
    · exact ih h.2 c hc

/-- A node found in a tree with positive ids has a positive id. -/
theorem descend_idsPositive : ∀ (path : List PathComponent) (t : TableTree)
    (anc : List NodeData) (n : BufrNode),
    t.idsPositive = true → t.descend anc path = some n → 0 < n.data.nodeIdx := by
  intro path
  induction path with
  | nil =>
    intro t anc n hpos h
    simp only [TableTree.descend, Option.some.injEq] at h
    subst h
    exact (idsPositive_node t hpos).1
  | cons seg rest ih =>
    intro t anc n hpos h
    simp only [TableTree.descend] at h
    split at h
    · exact absurd h (by simp)
    · rename_i c hc
      exact ih c _ n
        (idsPositiveList_mem _ (idsPositive_node t hpos).2 c (List.mem_of_find?_eq_some hc)) h

/-! ## The variant cache -/

theorem sameKey_iff (a b : SubsetVariant) :
    a.sameKey b = true ↔ a.subset = b.subset ∧ a.variantId = b.variantId := by
  simp [SubsetVariant.sameKey]

theorem sameKey_refl (a : SubsetVariant) : a.sameKey a = true := by
  simp [SubsetVariant.sameKey]

/-- Keys that are the same variant find the same entry. -/
theorem find_congr (cache : TargetsCache) (k k' : SubsetVariant) (h : k.sameKey k' = true) :
    cache.find k' = cache.find k := by
  have hk := (sameKey_iff k k').1 h
  have hfun : (fun e : SubsetVariant × Targets => e.1.sameKey k') =
      (fun e : SubsetVariant × Targets => e.1.sameKey k) := by
    funext e
    simp only [SubsetVariant.sameKey, hk.1, hk.2]
  simp only [TargetsCache.find, hfun]

theorem find_append_single (cache : TargetsCache) (k : SubsetVariant) (v : Targets)
    (k' : SubsetVariant) :
    TargetsCache.find (cache ++ [(k, v)]) k' =
      match cache.find k' with
      | some x => some x
      | none => if k.sameKey k' then some v else none := by
  unfold TargetsCache.find
  rw [List.find?_append]
  cases hf : List.find? (fun e => e.1.sameKey k') cache with
  | some e => simp
  | none =>
    by_cases hk : k.sameKey k' = true
    · simp [List.find?_cons, hk]
    · simp [List.find?_cons, hk]

/-- An entry that is present stays present, with its value, across `insert`. -/
theorem find_insert_of_find (cache : TargetsCache) (k : SubsetVariant) (v : Targets)
    (k' : SubsetVariant) (v' : Targets) (h : cache.find k' = some v') :
    (cache.insert k v).find k' = some v' := by
  unfold TargetsCache.insert
  cases hk : cache.find k with
  | some _ => simpa using h
  | none => simp only [find_append_single, h]

/-- After `insert` on a miss the new entry is found under the inserted key. -/
theorem find_insert_self (cache : TargetsCache) (k : SubsetVariant) (v : Targets)
    (h : cache.find k = none) : (cache.insert k v).find k = some v := by
  unfold TargetsCache.insert
  simp only [h, find_append_single, sameKey_refl, if_true]

/-- The keys after `insert` are the keys before plus the inserted key. -/
theorem find_insert_isSome (cache : TargetsCache) (k : SubsetVariant) (v : Targets)
    (k' : SubsetVariant) :
    ((cache.insert k v).find k').isSome = true ↔
      (cache.find k').isSome = true ∨ k.sameKey k' = true := by
  unfold TargetsCache.insert
  cases hk : cache.find k with
  | some x =>
    simp only
    constructor
    · exact Or.inl
    · rintro (h | h)
      · exact h
      · rw [find_congr cache k k' h, hk]; rfl
  | none =>
    simp only [find_append_single]
    cases hk' : cache.find k' with
    | some y => simp
    | none =>
      by_cases hs : k.sameKey k' = true <;> simp [hs]

/-- A cache hit: `getTargets` returns the stored entry and changes nothing. -/
theorem getTargets_hit (r : QueryRunner) (dp : DataProvider) (stored : Targets)
    (hhit : r.targetsCache_.find dp.getSubsetVariant = some stored) :
    r.getTargets dp = .ok (stored, r) := by
  simp [QueryRunner.getTargets, hhit]

/-- What `getTargets` returns is afterwards stored under the active variant. -/
theorem getTargets_stores (r : QueryRunner) (dp : DataProvider) (targets : Targets)
    (r' : QueryRunner) (h : r.getTargets dp = .ok (targets, r')) :
    r'.targetsCache_.find dp.getSubsetVariant = some targets := by
  cases hfind : r.targetsCache_.find dp.getSubsetVariant with
  | some ts =>
    rw [getTargets_hit r dp ts hfind] at h
    simp only [Except.ok.injEq, Prod.mk.injEq] at h
    rw [← h.1, ← h.2]; exact hfind
  | none =>
    obtain ⟨evs, _, hr'⟩ := (getTargets_miss r dp hfind targets r').1 h
    rw [hr']
    exact find_insert_self _ _ _ hfind

/-- An entry present before `getTargets` is present, with its value, afterwards. -/
theorem getTargets_keeps (r : QueryRunner) (dp : DataProvider) (targets : Targets)
    (r' : QueryRunner) (h : r.getTargets dp = .ok (targets, r')) (k : SubsetVariant)
    (v : Targets) (hk : r.targetsCache_.find k = some v) :
    r'.targetsCache_.find k = some v := by
  cases hfind : r.targetsCache_.find dp.getSubsetVariant with
  | some ts =>
    rw [getTargets_hit r dp ts hfind] at h
    simp only [Except.ok.injEq, Prod.mk.injEq] at h
    rw [← h.2]; exact hk
  | none =>
    obtain ⟨evs, _, hr'⟩ := (getTargets_miss r dp hfind targets r').1 h
    rw [hr']
    exact find_insert_of_find _ _ _ _ _ hk

/-- The keys of the cache after `getTargets` are the keys before plus the active variant. -/
theorem getTargets_keys (r : QueryRunner) (dp : DataProvider) (targets : Targets)
    (r' : QueryRunner) (h : r.getTargets dp = .ok (targets, r')) (k : SubsetVariant) :
    (r'.targetsCache_.find k).isSome = true ↔
      (r.targetsCache_.find k).isSome = true ∨ dp.getSubsetVariant.sameKey k = true := by
  cases hfind : r.targetsCache_.find dp.getSubsetVariant with
  | some ts =>
    rw [getTargets_hit r dp ts hfind] at h
    simp only [Except.ok.injEq, Prod.mk.injEq] at h
    rw [← h.2]
    constructor
    · exact Or.inl
    · rintro (h1 | h1)
      · exact h1
      · rw [find_congr _ _ _ h1, hfind]; rfl
  | none =>
    obtain ⟨evs, _, hr'⟩ := (getTargets_miss r dp hfind targets r').1 h
    rw [hr']
    exact find_insert_isSome _ _ _ _

theorem accumulate_ok (r : QueryRunner) (dp : DataProvider) (r' : QueryRunner)
    (h : r.accumulate dp = .ok r') :
    ∃ targets r1, r.getTargets dp = .ok (targets, r1) ∧
      r' = { r1 with frames_ := r1.frames_ ++ [{ provider := dp, targets := targets }] } := by
  unfold QueryRunner.accumulate at h
  cases hg : r.getTargets dp with
  | error f => rw [hg] at h; simp [bind, Except.bind] at h
  | ok res =>
    obtain ⟨ts, r1⟩ := res
    rw [hg] at h
    simp only [bind, Except.bind, Except.ok.injEq] at h
    exact ⟨ts, r1, rfl, h.symm⟩

/-- An entry present before a call is present, with its value, after the call. -/
theorem call_keeps (r : QueryRunner) (dp : DataProvider) (c : Call) (r' : QueryRunner)
    (h : r.call dp c = .ok r') (k : SubsetVariant) (v : Targets)
    (hk : r.targetsCache_.find k = some v) : r'.targetsCache_.find k = some v := by
  cases c with
  | getTargets =>
    simp only [QueryRunner.call] at h
    cases hg : r.getTargets dp with
    | error f => rw [hg] at h; simp [Except.map] at h
    | ok res =>
      obtain ⟨ts, r1⟩ := res
      rw [hg] at h
      simp only [Except.map, Except.ok.injEq] at h
      rw [← h]
      exact getTargets_keeps r dp ts r1 hg k v hk
  | accumulate =>
    simp only [QueryRunner.call] at h
    obtain ⟨ts, r1, hg, hr'⟩ := accumulate_ok r dp r' h
    rw [hr']
    exact getTargets_keeps r dp ts r1 hg k v hk

/-- An entry present before a sequence of calls is present, with its value, after it. -/
theorem calls_keeps : ∀ (cs : List (DataProvider × Call)) (r r' : QueryRunner),
    r.calls cs = .ok r' → ∀ (k : SubsetVariant) (v : Targets),
      r.targetsCache_.find k = some v → r'.targetsCache_.find k = some v := by
  intro cs
  induction cs with
  | nil =>
    intro r r' h k v hk
    simp only [QueryRunner.calls, Except.ok.injEq] at h
    rw [← h]; exact hk
  | cons c rest ih =>
    intro r r' h k v hk
    obtain ⟨dp, c⟩ := c
    simp only [QueryRunner.calls] at h
    cases hc : r.call dp c with
    | error f => rw [hc] at h; simp [bind, Except.bind] at h
    | ok r1 =>
      rw [hc] at h
      simp only [bind, Except.bind] at h
      exact ih r1 r' h k v (call_keeps r dp c r1 hc k v hk)

/-- On a cache miss `getTargets` returns nothing as soon as one name has no alternative. -/
theorem getTargets_faults_of_no_alternative (r : QueryRunner) (dp : DataProvider)
    (hmiss : r.targetsCache_.find dp.getSubsetVariant = none) (name : String)
    (hmem : name ∈ r.querySet_.names) (halts : r.querySet_.queriesFor name = [])
    (targets : Targets) (r' : QueryRunner) : r.getTargets dp ≠ .ok (targets, r') := by
  intro hget
  obtain ⟨n, hn, hi⟩ := List.getElem_of_mem hmem
  have hi' : r.querySet_.names[n]? = some name := by
    rw [List.getElem?_eq_getElem hn, hi]
  obtain ⟨t, e, ht, _⟩ := getTargets_miss_nth r dp hmiss targets r' hget n name hi'
  rw [resolveName_no_alternative _ _ _ _ halts] at ht
  exact absurd ht (by simp)

/-! ## Resolution: first match, order of the targets, the sentinel -/

/-- C1: `QueryRunner::getTargets` is first-match. On a cache miss, let `q` be the first
alternative of the `i`-th name, in declared order, whose subset filter matches the active
subset variant and whose path lookup returns a node (`pre` are the alternatives before it,
`post` the ones after it, which may resolve as well). Then the iteration for that name looks up
the candidates of `pre` and `q` and nothing of `post`, and the target it builds, which is the
`i`-th target `getTargets` returns, has the `queryStr` of `q` and the `nodeIdx` and `typeInfo`
of the node of `q`. -/
theorem getTargets_first_match (r : QueryRunner) (dp : DataProvider) (i : Nat) (name : String)
    (pre post : List Query) (q : Query) (node : BufrNode)
    (hmiss : r.targetsCache_.find dp.getSubsetVariant = none)
    (hname : r.querySet_.names[i]? = some name)
    (halts : r.querySet_.queriesFor name = pre ++ q :: post)
    (hpre : ∀ p ∈ pre, subsetMatches p dp.getSubsetVariant = true →
      SubsetTable.getNodeForPath { tree := dp.tableData } p.path = none)
    (hq : q.subset.isAnySubset = true ∨
      (q.subset.name = dp.getSubsetVariant.subset ∧ q.subset.index = dp.getSubsetVariant.variantId))
    (hnode : SubsetTable.getNodeForPath { tree := dp.tableData } q.path = some node) :
    ∃ t, resolveName r.querySet_ dp.getSubsetVariant { tree := dp.tableData } name =
          .ok (t, candidateLookups dp.getSubsetVariant pre ++ [Event.lookup q.path]) ∧
      t.queryStr = q.str ∧ t.nodeIdx = node.data.nodeIdx ∧ t.typeInfo = node.data.typeInfo ∧
      ∀ targets r', r.getTargets dp = .ok (targets, r') → targets[i]? = some t := by
  have hfind := findTableNode_first dp.getSubsetVariant { tree := dp.tableData } q post node
    ((subsetMatches_iff _ _).2 hq) hnode pre {} none [] hpre
  rw [← halts, List.nil_append] at hfind
  obtain ⟨path, _, hres⟩ := resolveName_resolved r.querySet_ dp.getSubsetVariant
    { tree := dp.tableData } name q node _ hfind
  refine ⟨_, hres, rfl, rfl, rfl, ?_⟩
  intro targets r' hget
  obtain ⟨t, e, ht, hi⟩ := getTargets_miss_nth r dp hmiss targets r' hget i name hname
  rw [hres] at ht
  simp only [Except.ok.injEq, Prod.mk.injEq] at ht
  rw [hi, ← ht.1]

/-- C2: on a cache miss the targets `getTargets` returns are one per name of
`querySet.names()`, in the same order (resolved or sentinel alike); and the call does return
when every name has at least one alternative. -/
theorem getTargets_one_target_per_name (r : QueryRunner) (dp : DataProvider)
    (hmiss : r.targetsCache_.find dp.getSubsetVariant = none) :
    (∀ targets r', r.getTargets dp = .ok (targets, r') →
      targets.length = r.querySet_.names.length ∧
      targets.map (fun t => t.name) = r.querySet_.names ∧
      ∀ (i : Nat) (name : String), r.querySet_.names[i]? = some name →
        ∃ t, targets[i]? = some t ∧ t.name = name) ∧
    ((∀ name ∈ r.querySet_.names, r.querySet_.queriesFor name ≠ []) →
      ∃ targets r', r.getTargets dp = .ok (targets, r')) := by
  refine ⟨?_, getTargets_total r dp⟩
  intro targets r' hget
  obtain ⟨evs, hres, _⟩ := (getTargets_miss r dp hmiss targets r').1 hget
  have hnames := resolveAll_names _ _ _ _ _ _ hres
  refine ⟨?_, hnames, ?_⟩
  · have := congrArg List.length hnames
    simpa using this
  · intro i name hi
    obtain ⟨t, e, ht, hti⟩ := resolveAll_nth _ _ _ _ _ _ hres i name hi
    exact ⟨t, hti, resolveName_name _ _ _ _ _ _ ht⟩

/-- C3: for a name none of whose alternatives is a wildcard or names the active subset with the
active variant index (`first` being the first of these alternatives), the iteration of
`getTargets` makes no tree lookup (its only event is the warning) and yields the sentinel
target, with `nodeIdx` 0, as the `i`-th target, for every table tree `dp.tableData`. -/
theorem getTargets_filter_mismatch_sentinel (r : QueryRunner) (dp : DataProvider) (i : Nat)
    (name : String) (first : Query) (rest : List Query)
    (hmiss : r.targetsCache_.find dp.getSubsetVariant = none)
    (hname : r.querySet_.names[i]? = some name)
    (halts : r.querySet_.queriesFor name = first :: rest)
    (hfilter : ∀ q ∈ first :: rest, q.subset.isAnySubset = false ∧
      ¬ (q.subset.name = dp.getSubsetVariant.subset ∧
          q.subset.index = dp.getSubsetVariant.variantId)) :
    ∃ t evs, resolveName r.querySet_ dp.getSubsetVariant { tree := dp.tableData } name =
          .ok (t, evs) ∧
      evs = [Event.warning first.str dp.getSubsetVariant] ∧
      (∀ e ∈ evs, e.isLookup = false) ∧
      t = emptyTarget name first.str ∧ t.nodeIdx = 0 ∧
      ∀ targets r', r.getTargets dp = .ok (targets, r') → targets[i]? = some t := by
  have hno : ∀ q ∈ r.querySet_.queriesFor name, subsetMatches q dp.getSubsetVariant = false := by
    intro q hq
    rw [halts] at hq
    have := hfilter q hq
    cases hm : subsetMatches q dp.getSubsetVariant with
    | false => rfl
    | true =>
      rcases (subsetMatches_iff _ _).1 hm with h | h
      · rw [this.1] at h; exact absurd h (by simp)
      · exact absurd h this.2
  have hcand : candidateLookups dp.getSubsetVariant (r.querySet_.queriesFor name) = [] := by
    unfold candidateLookups
    rw [List.filter_eq_nil_iff.2 (fun q hq => by simp [hno q hq])]
    rfl
  obtain ⟨fq, hfind⟩ := findTableNode_none dp.getSubsetVariant { tree := dp.tableData }
    (r.querySet_.queriesFor name) {} []
    (fun q hq hm => by rw [hno q hq] at hm; exact absurd hm (by simp))
  rw [hcand] at hfind
  have hres := resolveName_unresolved r.querySet_ dp.getSubsetVariant { tree := dp.tableData }
    name fq _ first rest hfind halts
  refine ⟨_, _, hres, rfl, ?_, rfl, rfl, ?_⟩
  · intro e he
    simp only [List.append_nil, List.nil_append, List.mem_singleton] at he
    subst he; rfl
  · intro targets r' hget
    obtain ⟨t, e, ht, hi⟩ := getTargets_miss_nth r dp hmiss targets r' hget i name hname
    rw [hres] at ht
    simp only [Except.ok.injEq, Prod.mk.injEq] at ht
    rw [hi, ← ht.1]

/-- C4: the source at a query set one of whose names has no alternative. The search loop does
not run for that name, `tableNode` stays null, and the empty-target branch reads
`queriesFor(name)[0]` of an empty vector: the read is out of range and `getTargets` returns no
targets, although the other name, `lat`, resolves (to node 5) when it is the only name. -/
theorem getTargets_no_alternative_out_of_range :
    emptyAltQuerySet.names = ["none", "lat"] ∧
    emptyAltQuerySet.queriesFor "none" = [] ∧
    QueryRunner.getTargets { querySet_ := emptyAltQuerySet } sampleProvider =
      .error Fault.outOfRange ∧
    ((QueryRunner.getTargets
        { querySet_ := { emptyAltQuerySet with names := ["lat"] } } sampleProvider).map
      (fun res => res.1.map (fun t => (t.name, t.nodeIdx)))) = .ok [("lat", 5)] := by
  refine ⟨rfl, rfl, rfl, rfl⟩

/-- C5: for a name no candidate of which resolves (`first` being its first alternative), the
target `getTargets` builds is the sentinel: its name is that name, its `nodeIdx` is 0, it has the single
placeholder `Query()` as its path (`dimPaths`) and no component, its type metadata is empty
(scale 0, reference 0, bits 0, empty unit and description) and its `queryStr` is the string of
the first alternative. -/
theorem getTargets_unresolved_sentinel (r : QueryRunner) (dp : DataProvider) (i : Nat)
    (name : String) (first : Query) (rest : List Query)
    (hmiss : r.targetsCache_.find dp.getSubsetVariant = none)
    (hname : r.querySet_.names[i]? = some name)
    (halts : r.querySet_.queriesFor name = first :: rest)
    (hnone : ∀ q ∈ first :: rest, subsetMatches q dp.getSubsetVariant = true →
      SubsetTable.getNodeForPath { tree := dp.tableData } q.path = none) :
    ∃ t, resolveName r.querySet_ dp.getSubsetVariant { tree := dp.tableData } name =
          .ok (t, candidateLookups dp.getSubsetVariant (first :: rest) ++
            [Event.warning first.str dp.getSubsetVariant]) ∧
      t.name = name ∧ t.nodeIdx = 0 ∧ t.dimPaths = [({} : Query)] ∧ t.path = [] ∧
      t.exportDimIdxs = [0] ∧
      t.typeInfo = { scale := 0, reference := 0, bits := 0, unit := "", description := "" } ∧
      t.queryStr = first.str ∧
      ∀ targets r', r.getTargets dp = .ok (targets, r') → targets[i]? = some t := by
  obtain ⟨fq, hfind⟩ := findTableNode_none dp.getSubsetVariant { tree := dp.tableData }
    (r.querySet_.queriesFor name) {} [] (by rw [halts]; exact hnone)
  have hres := resolveName_unresolved r.querySet_ dp.getSubsetVariant { tree := dp.tableData }
    name fq _ first rest hfind halts
  rw [halts, List.nil_append] at hres
  refine ⟨_, hres, rfl, rfl, rfl, rfl, rfl, rfl, rfl, ?_⟩
  intro targets r' hget
  obtain ⟨t, e, ht, hi⟩ := getTargets_miss_nth r dp hmiss targets r' hget i name hname
  rw [hres] at ht
  simp only [Except.ok.injEq, Prod.mk.injEq] at ht
  rw [hi, ← ht.1]

/-! ## Resolution: the component chain and the leaf -/

/-- C6: for a resolved target (the first resolving candidate `q` of the `i`-th name, with node
`node`), the component chain built by `getTargets` (every access of lines 88-110 in bounds,
`buildPath` returns) has one component per path segment of `q` plus one; component 0 stands for
the subset root (its node id is the root's, parent id 0, dimension-parent id 0, kind Subset);
and for every `k` from 1 to the number of segments component `k` carries the `k`-th segment and
the id, parent id, dimension-parent id, kind and fixed-repeat count of the `k`-th node of the
root-to-leaf path. -/
theorem getTargets_component_chain (r : QueryRunner) (dp : DataProvider) (i : Nat)
    (name : String) (pre post : List Query) (q : Query) (node : BufrNode)
    (hmiss : r.targetsCache_.find dp.getSubsetVariant = none)
    (hname : r.querySet_.names[i]? = some name)
    (halts : r.querySet_.queriesFor name = pre ++ q :: post)
    (hpre : ∀ p ∈ pre, subsetMatches p dp.getSubsetVariant = true →
      SubsetTable.getNodeForPath { tree := dp.tableData } p.path = none)
    (hq : subsetMatches q dp.getSubsetVariant = true)
    (hnode : SubsetTable.getNodeForPath { tree := dp.tableData } q.path = some node) :
    ∃ t evs, resolveName r.querySet_ dp.getSubsetVariant { tree := dp.tableData } name =
          .ok (t, evs) ∧
      buildPath q { tree := dp.tableData } node = .ok t.path ∧
      t.path.length = q.path.length + 1 ∧
      (∃ c, t.path[0]? = some c ∧ c.queryComponent = .subset q.subset ∧
        c.nodeId = (SubsetTable.getRoot { tree := dp.tableData }).data.nodeIdx ∧
        c.parentNodeId = 0 ∧ c.parentDimensionNodeId = 0 ∧ c.type = Typ.Subset) ∧
      (∀ k, 1 ≤ k → k ≤ q.path.length →
        ∃ seg nk parent dimParent, q.path[k - 1]? = some seg ∧
          node.getPathNodes[k]? = some nk ∧
          nk.getParent = some parent ∧ nk.getDimensionParent = some dimParent ∧
          t.path[k]? = some
            { queryComponent := .path seg
              nodeId := nk.data.nodeIdx
              parentNodeId := parent.data.nodeIdx
              parentDimensionNodeId := dimParent.nodeIdx
              type := nk.data.type
              fixedRepeatCount := nk.data.fixedRepCount }) ∧
      ∀ targets r', r.getTargets dp = .ok (targets, r') → targets[i]? = some t := by
  have hfind := findTableNode_first dp.getSubsetVariant { tree := dp.tableData } q post node
    hq hnode pre {} none [] hpre
  rw [← halts, List.nil_append] at hfind
  obtain ⟨path, hpath, hres⟩ := resolveName_resolved r.querySet_ dp.getSubsetVariant
    { tree := dp.tableData } name q node _ hfind
  obtain ⟨path2, hpath2, hlen, h0, hk⟩ := buildPath_ok q { tree := dp.tableData } node hnode
  rw [hpath] at hpath2
  simp only [Except.ok.injEq] at hpath2
  subst hpath2
  refine ⟨_, _, hres, hpath, hlen, ⟨_, h0, rfl, rfl, rfl, rfl, rfl⟩, hk, ?_⟩
  intro targets r' hget
  obtain ⟨t, e, ht, hi⟩ := getTargets_miss_nth r dp hmiss targets r' hget i name hname
  rw [hres] at ht
  simp only [Except.ok.injEq, Prod.mk.injEq] at ht
  rw [hi, ← ht.1]

/-- C7: for a resolved target (the first resolving candidate `q` of the `i`-th name, with node
`node`), `nodeIdx` and `typeInfo` are the leaf's and `longStrId` is the leaf's mnemonic, then
`#`, then the decimal rendering of the leaf's `mnemonicIdx`; and when the ids of the table nodes
are positive, the `i`-th target returned has `nodeIdx` 0 exactly when no candidate of the `i`-th
name resolved. -/
theorem getTargets_leaf_identity (r : QueryRunner) (dp : DataProvider) (i : Nat) (name : String)
    (hmiss : r.targetsCache_.find dp.getSubsetVariant = none)
    (hname : r.querySet_.names[i]? = some name) :
    (∀ (pre post : List Query) (q : Query) (node : BufrNode),
      r.querySet_.queriesFor name = pre ++ q :: post →
      (∀ p ∈ pre, subsetMatches p dp.getSubsetVariant = true →
        SubsetTable.getNodeForPath { tree := dp.tableData } p.path = none) →
      subsetMatches q dp.getSubsetVariant = true →
      SubsetTable.getNodeForPath { tree := dp.tableData } q.path = some node →
      ∃ t evs, resolveName r.querySet_ dp.getSubsetVariant { tree := dp.tableData } name =
            .ok (t, evs) ∧
        t.nodeIdx = node.data.nodeIdx ∧ t.typeInfo = node.data.typeInfo ∧
        t.longStrId = node.data.mnemonic ++ "#" ++ toString node.data.mnemonicIdx ∧
        ∀ targets r', r.getTargets dp = .ok (targets, r') → targets[i]? = some t) ∧
    (dp.tableData.idsPositive = true →
      ∀ targets r' t, r.getTargets dp = .ok (targets, r') → targets[i]? = some t →
        (t.nodeIdx = 0 ↔
          ∀ q ∈ r.querySet_.queriesFor name, subsetMatches q dp.getSubsetVariant = true →
            SubsetTable.getNodeForPath { tree := dp.tableData } q.path = none)) := by
  constructor
  · intro pre post q node halts hpre hq hnode
    have hfind := findTableNode_first dp.getSubsetVariant { tree := dp.tableData } q post node
      hq hnode pre {} none [] hpre
    rw [← halts, List.nil_append] at hfind
    obtain ⟨path, _, hres⟩ := resolveName_resolved r.querySet_ dp.getSubsetVariant
      { tree := dp.tableData } name q node _ hfind
    refine ⟨_, _, hres, rfl, rfl, rfl, ?_⟩
    intro targets r' hget
    obtain ⟨t, e, ht, hi⟩ := getTargets_miss_nth r dp hmiss targets r' hget i name hname
    rw [hres] at ht
    simp only [Except.ok.injEq, Prod.mk.injEq] at ht
    rw [hi, ← ht.1]
  · intro hpos targets r' t hget hti
    obtain ⟨t', e, ht, hi⟩ := getTargets_miss_nth r dp hmiss targets r' hget i name hname
    rw [hti] at hi
    simp only [Option.some.injEq] at hi
    subst hi
    rcases hfind : findTableNode dp.getSubsetVariant { tree := dp.tableData }
      (r.querySet_.queriesFor name) {} none [] with ⟨fq, tn, evs⟩
    cases tn with
    | none =>
      have hnone := findTableNode_none_inv _ _ _ _ _ _ _ _ hfind
      cases hq : r.querySet_.queriesFor name with
      | nil =>
        rw [resolveName_no_alternative _ _ _ _ hq] at ht
        exact absurd ht (by simp)
      | cons first rest =>
        rw [resolveName_unresolved _ _ _ _ fq evs first rest hfind hq] at ht
        simp only [Except.ok.injEq, Prod.mk.injEq] at ht
        rw [← ht.1, ← hq]
        exact ⟨fun _ => hnone, fun _ => rfl⟩
    | some node =>
      obtain ⟨hmem, hm, hlook⟩ := findTableNode_some _ _ _ _ _ _ _ _ hfind
      obtain ⟨path, _, hres⟩ := resolveName_resolved r.querySet_ dp.getSubsetVariant
        { tree := dp.tableData } name fq node evs hfind
      rw [hres] at ht
      simp only [Except.ok.injEq, Prod.mk.injEq] at ht
      have hposn : 0 < node.data.nodeIdx :=
        descend_idsPositive fq.path dp.tableData [] node hpos hlook
      rw [← ht.1]
      constructor
      · intro h0
        simp only at h0
        omega
      · intro hall
        have := hall fq hmem hm
        rw [hlook] at this
        exact absurd this (by simp)

/-! ## The variant cache -/

/-- C8: a cache hit. When the cache has an entry for the active subset variant, `getTargets`
returns exactly that entry and the runner is unchanged: the cache is the same and no event
(no table construction, no lookup, no warning) is added. -/
theorem getTargets_cache_hit (r : QueryRunner) (dp : DataProvider) (stored : Targets)
    (hhit : r.targetsCache_.find dp.getSubsetVariant = some stored) :
    r.getTargets dp = .ok (stored, r) ∧
    ∀ targets r', r.getTargets dp = .ok (targets, r') →
      targets = stored ∧ r'.targetsCache_ = r.targetsCache_ ∧ r'.events = r.events := by
  have h := getTargets_hit r dp stored hhit
  refine ⟨h, ?_⟩
  intro targets r' hget
  rw [h] at hget
  simp only [Except.ok.injEq, Prod.mk.injEq] at hget
  rw [← hget.1, ← hget.2]
  exact ⟨rfl, rfl, rfl⟩

/-- C9: idempotence. Whatever the cache state, after a `getTargets` call that returned
`targets`, these are stored under the active variant, and a second call with the same active
variant (the same subset name and variant index) is a cache hit that returns the same
`targets` and leaves the runner, its events included, as the first call left it; the first call
does return when every name has at least one alternative. -/
theorem getTargets_idempotent (r : QueryRunner) (dp dp2 : DataProvider)
    (hsame : dp.getSubsetVariant.sameKey dp2.getSubsetVariant = true) :
    (∀ targets r', r.getTargets dp = .ok (targets, r') →
      r'.targetsCache_.find dp2.getSubsetVariant = some targets ∧
      r'.getTargets dp2 = .ok (targets, r')) ∧
    ((∀ name ∈ r.querySet_.names, r.querySet_.queriesFor name ≠ []) →
      ∃ targets r', r.getTargets dp = .ok (targets, r')) := by
  refine ⟨?_, getTargets_total r dp⟩
  intro targets r' hget
  have hstored := getTargets_stores r dp targets r' hget
  have hstored2 : r'.targetsCache_.find dp2.getSubsetVariant = some targets := by
    rw [find_congr _ _ _ hsame]; exact hstored
  exact ⟨hstored2, getTargets_hit r' dp2 targets hstored2⟩

/-- C10: cache entries are never evicted or overwritten. Over every sequence of `getTargets`
and `accumulate` calls (each made in some state of the data provider) an entry found in the
cache before is found, with the same value, after; and after one `getTargets` call the keys of
the cache are the keys before plus the active subset variant. -/
theorem targetsCache_never_evicts :
    (∀ (r : QueryRunner) (cs : List (DataProvider × Call)) (r' : QueryRunner),
      r.calls cs = .ok r' →
      ∀ (k : SubsetVariant) (v : Targets),
        r.targetsCache_.find k = some v → r'.targetsCache_.find k = some v) ∧
    (∀ (r : QueryRunner) (dp : DataProvider) (targets : Targets) (r' : QueryRunner),
      r.getTargets dp = .ok (targets, r') →
      ∀ (k : SubsetVariant),
        (r'.targetsCache_.find k).isSome = true ↔
          ((r.targetsCache_.find k).isSome = true ∨ dp.getSubsetVariant.sameKey k = true)) :=
  ⟨fun r cs r' h k v hk => calls_keeps cs r r' h k v hk,
   fun r dp targets r' h k => getTargets_keys r dp targets r' h k⟩

/-! ## The properties on the sample table -/

/-- First match on the sample table: `lat` has the alternatives `*/ALT` (no node), `TypeA/LAT`
(other subset), `*/SEQ/LAT` and `*/LAT`; the third is taken although the fourth resolves too. -/
theorem getTargets_first_match_witness :
    ∃ t, resolveName sampleRunner.querySet_ sampleProvider.getSubsetVariant
          { tree := sampleProvider.tableData } "lat" =
          .ok (t, candidateLookups sampleProvider.getSubsetVariant [qAlt, qTypeALat] ++
            [Event.lookup qSeqLat.path]) ∧
      t.queryStr = qSeqLat.str ∧ t.nodeIdx = sampleSeqLatNode.data.nodeIdx ∧
      t.typeInfo = sampleSeqLatNode.data.typeInfo ∧
      ∀ targets r', sampleRunner.getTargets sampleProvider = .ok (targets, r') →
        targets[0]? = some t :=
  getTargets_first_match sampleRunner sampleProvider 0 "lat" [qAlt, qTypeALat] [qLat] qSeqLat
    sampleSeqLatNode rfl rfl rfl (by decide) (Or.inl rfl) rfl

/-- One target per name on the sample table: three names, three targets, in order. -/
theorem getTargets_one_target_per_name_witness :
    (sampleFirstCall.1.length = sampleRunner.querySet_.names.length ∧
      sampleFirstCall.1.map (fun t => t.name) = sampleRunner.querySet_.names ∧
      ∀ (i : Nat) (name : String), sampleRunner.querySet_.names[i]? = some name →
        ∃ t, sampleFirstCall.1[i]? = some t ∧ t.name = name) ∧
    ∃ targets r', sampleRunner.getTargets sampleProvider = .ok (targets, r') :=
  ⟨(getTargets_one_target_per_name sampleRunner sampleProvider rfl).1
      sampleFirstCall.1 sampleFirstCall.2 rfl,
   (getTargets_one_target_per_name sampleRunner sampleProvider rfl).2 (by decide)⟩

/-- Subset filter mismatch on the sample table: `latA` names `TypeA` while `TypeB` is active. -/
theorem getTargets_filter_mismatch_sentinel_witness :
    ∃ t evs, resolveName sampleRunner.querySet_ sampleProvider.getSubsetVariant
          { tree := sampleProvider.tableData } "latA" = .ok (t, evs) ∧
      evs = [Event.warning qTypeALat.str sampleProvider.getSubsetVariant] ∧
      (∀ e ∈ evs, e.isLookup = false) ∧
      t = emptyTarget "latA" qTypeALat.str ∧ t.nodeIdx = 0 ∧
      ∀ targets r', sampleRunner.getTargets sampleProvider = .ok (targets, r') →
        targets[1]? = some t :=
  getTargets_filter_mismatch_sentinel sampleRunner sampleProvider 1 "latA" qTypeALat [] rfl rfl
    rfl (by decide)

/-- The sentinel on the sample table: the only alternative of `alt` has no node. -/
theorem getTargets_unresolved_sentinel_witness :
    ∃ t, resolveName sampleRunner.querySet_ sampleProvider.getSubsetVariant
          { tree := sampleProvider.tableData } "alt" =
          .ok (t, candidateLookups sampleProvider.getSubsetVariant [qAlt] ++
            [Event.warning qAlt.str sampleProvider.getSubsetVariant]) ∧
      t.name = "alt" ∧ t.nodeIdx = 0 ∧ t.dimPaths = [({} : Query)] ∧ t.path = [] ∧
      t.exportDimIdxs = [0] ∧
      t.typeInfo = { scale := 0, reference := 0, bits := 0, unit := "", description := "" } ∧
      t.queryStr = qAlt.str ∧
      ∀ targets r', sampleRunner.getTargets sampleProvider = .ok (targets, r') →
        targets[2]? = some t :=
  getTargets_unresolved_sentinel sampleRunner sampleProvider 2 "alt" qAlt [] rfl rfl rfl
    (by decide)

/-- The component chain of `*/SEQ/LAT` on the sample table: root, `SEQ`, `LAT`. -/
theorem getTargets_component_chain_witness :
    ∃ t evs, resolveName sampleRunner.querySet_ sampleProvider.getSubsetVariant
          { tree := sampleProvider.tableData } "lat" = .ok (t, evs) ∧
      buildPath qSeqLat { tree := sampleProvider.tableData } sampleSeqLatNode = .ok t.path ∧
      t.path.length = qSeqLat.path.length + 1 ∧
      (∃ c, t.path[0]? = some c ∧ c.queryComponent = .subset qSeqLat.subset ∧
        c.nodeId = (SubsetTable.getRoot { tree := sampleProvider.tableData }).data.nodeIdx ∧
        c.parentNodeId = 0 ∧ c.parentDimensionNodeId = 0 ∧ c.type = Typ.Subset) ∧
      (∀ k, 1 ≤ k → k ≤ qSeqLat.path.length →
        ∃ seg nk parent dimParent, qSeqLat.path[k - 1]? = some seg ∧
          sampleSeqLatNode.getPathNodes[k]? = some nk ∧
          nk.getParent = some parent ∧ nk.getDimensionParent = some dimParent ∧
          t.path[k]? = some
            { queryComponent := .path seg
              nodeId := nk.data.nodeIdx
              parentNodeId := parent.data.nodeIdx
              parentDimensionNodeId := dimParent.nodeIdx
              type := nk.data.type
              fixedRepeatCount := nk.data.fixedRepCount }) ∧
      ∀ targets r', sampleRunner.getTargets sampleProvider = .ok (targets, r') →
        targets[0]? = some t :=
  getTargets_component_chain sampleRunner sampleProvider 0 "lat" [qAlt, qTypeALat] [qLat] qSeqLat
    sampleSeqLatNode rfl rfl rfl (by decide) rfl rfl

/-- The leaf of `lat` and the sentinel of `latA` on the sample table, whose ids are positive. -/
theorem getTargets_leaf_identity_witness :
    (∃ t evs, resolveName sampleRunner.querySet_ sampleProvider.getSubsetVariant
          { tree := sampleProvider.tableData } "lat" = .ok (t, evs) ∧
      t.nodeIdx = sampleSeqLatNode.data.nodeIdx ∧ t.typeInfo = sampleSeqLatNode.data.typeInfo ∧
      t.longStrId = sampleSeqLatNode.data.mnemonic ++ "#" ++
        toString sampleSeqLatNode.data.mnemonicIdx ∧
      ∀ targets r', sampleRunner.getTargets sampleProvider = .ok (targets, r') →
        targets[0]? = some t) ∧
    ((emptyTarget "latA" qTypeALat.str).nodeIdx = 0 ↔
      ∀ q ∈ sampleRunner.querySet_.queriesFor "latA",
        subsetMatches q sampleProvider.getSubsetVariant = true →
          SubsetTable.getNodeForPath { tree := sampleProvider.tableData } q.path = none) :=
  ⟨(getTargets_leaf_identity sampleRunner sampleProvider 0 "lat" rfl rfl).1
      [qAlt, qTypeALat] [qLat] qSeqLat sampleSeqLatNode rfl (by decide) rfl rfl,
   (getTargets_leaf_identity sampleRunner sampleProvider 1 "latA" rfl rfl).2 rfl
      sampleFirstCall.1 sampleFirstCall.2 (emptyTarget "latA" qTypeALat.str) rfl rfl⟩

/-- A cache hit on a runner that holds an entry for the active variant. -/
theorem getTargets_cache_hit_witness :
    cachedRunner.getTargets sampleProvider =
        .ok ([emptyTarget "lat" "*/LAT"], cachedRunner) ∧
    ∀ targets r', cachedRunner.getTargets sampleProvider = .ok (targets, r') →
      targets = [emptyTarget "lat" "*/LAT"] ∧
      r'.targetsCache_ = cachedRunner.targetsCache_ ∧ r'.events = cachedRunner.events :=
  getTargets_cache_hit cachedRunner sampleProvider [emptyTarget "lat" "*/LAT"] rfl

/-- A second call on the sample table, made with another tree under the same variant. -/
theorem getTargets_idempotent_witness :
    (sampleFirstCall.2.targetsCache_.find
        (DataProvider.getSubsetVariant
          { sampleProvider with hasVariants := true, tableData := .node sampleRoot [] }) =
        some sampleFirstCall.1 ∧
      sampleFirstCall.2.getTargets
          { sampleProvider with hasVariants := true, tableData := .node sampleRoot [] } =
        .ok (sampleFirstCall.1, sampleFirstCall.2)) ∧
    ∃ targets r', sampleRunner.getTargets sampleProvider = .ok (targets, r') :=
  ⟨(getTargets_idempotent sampleRunner sampleProvider
      { sampleProvider with hasVariants := true, tableData := .node sampleRoot [] } rfl).1
      sampleFirstCall.1 sampleFirstCall.2 rfl,
   (getTargets_idempotent sampleRunner sampleProvider
      { sampleProvider with hasVariants := true, tableData := .node sampleRoot [] } rfl).2
      (by decide)⟩

/-- The entry of `TypeB` survives an `accumulate` on `TypeA` and another `getTargets`; the keys
after the first call are those of the empty cache plus `TypeB`, so `TypeA` is not among them. -/
theorem targetsCache_never_evicts_witness :
    sampleLaterRunner.targetsCache_.find sampleProvider.getSubsetVariant =
        some sampleFirstCall.1 ∧
    ((sampleFirstCall.2.targetsCache_.find sampleProviderA.getSubsetVariant).isSome = true ↔
      ((sampleRunner.targetsCache_.find sampleProviderA.getSubsetVariant).isSome = true ∨
        sampleProvider.getSubsetVariant.sameKey sampleProviderA.getSubsetVariant = true)) :=
  ⟨targetsCache_never_evicts.1 sampleFirstCall.2
      [(sampleProviderA, .accumulate), (sampleProvider, .getTargets)] sampleLaterRunner rfl
      sampleProvider.getSubsetVariant sampleFirstCall.1 rfl,
   targetsCache_never_evicts.2 sampleRunner sampleProvider sampleFirstCall.1 sampleFirstCall.2
      rfl sampleProviderA.getSubsetVariant⟩

/-! ## The derived predicates of `TypeInfo` -/

/-- C17: the derived predicates of `TypeInfo`. `isSigned` is true; `isInteger` holds iff
`scale <= 0`; `isString` holds iff the unit is exactly `CCITT IA5`; `isLongString` holds iff
`isString` holds and `bits > 64`, so a character field of exactly 64 bits is not a long string
and no field that is not a string is one. -/
theorem typeInfo_predicates (t : TypeInfo) :
    t.isSigned = true ∧
    (t.isInteger = true ↔ t.scale ≤ 0) ∧
    (t.isString = true ↔ t.unit = "CCITT IA5") ∧
    (t.isLongString = true ↔ (t.isString = true ∧ t.bits > 64)) ∧
    (t.bits = 64 → t.isLongString = false) ∧
    (t.isString = false → t.isLongString = false) := by
  refine ⟨rfl, ?_, ?_, ?_, ?_, ?_⟩
  · simp [TypeInfo.isInteger]
  · simp [TypeInfo.isString]
  · simp [TypeInfo.isLongString]
  · intro h
    simp [TypeInfo.isLongString, h]
  · intro h
    simp [TypeInfo.isLongString, h]

/-- The predicates on a character field of exactly 64 bits. -/
theorem typeInfo_predicates_witness :
    sampleField64Chars.isString = true ∧ sampleField64Chars.isLongString = false ∧
    sampleField32.isLongString = false :=
  ⟨rfl, (typeInfo_predicates sampleField64Chars).2.2.2.2.1 rfl,
   (typeInfo_predicates sampleField32).2.2.2.2.2 rfl⟩

/-- The comparison `log2(x) + 1 > 32` of a positive `x` is the comparison `2^31 < x`, and
`log2(x) > 32` is `2^32 < x`: the form in which `is64Bit` is written here. -/
theorem log2_compare (x : ℝ) (hx : 0 < x) :
    (32 < Real.logb 2 x + 1 ↔ (2 : ℝ) ^ (31 : ℕ) < x) ∧
    (32 < Real.logb 2 x ↔ (2 : ℝ) ^ (32 : ℕ) < x) := by
  have h2 : (1 : ℝ) < 2 := by norm_num
  constructor
  · rw [show (32 : ℝ) < Real.logb 2 x + 1 ↔ (31 : ℝ) < Real.logb 2 x by
      constructor <;> intro h <;> linarith]
    rw [Real.lt_logb_iff_rpow_lt h2 hx]
    norm_num
  · rw [Real.lt_logb_iff_rpow_lt h2 hx]
    norm_num

/-- In the branch of integer fields with a width, `is64Bit` compares `M * 2` with `2^31`. -/
theorem is64Bit_eq_true_iff (t : TypeInfo) (hbits : t.bits ≠ 0) (hscale : t.scale ≤ 0) :
    t.is64Bit = true ↔ (2 : ℚ) ^ (30 : ℕ) < t.maxMagnitude := by
  simp only [TypeInfo.is64Bit, hbits, if_false, TypeInfo.isInteger, TypeInfo.isSigned, hscale,
    decide_True, Bool.not_true, Bool.and_false, Bool.false_eq_true, Bool.and_self, if_true,
    decide_eq_true_eq]
  constructor <;> intro h <;> norm_num at h ⊢ <;> linarith

theorem sampleField32_maxMagnitude : sampleField32.maxMagnitude = 2147483647 := by
  simp [TypeInfo.maxMagnitude, sampleField32]
  norm_num

theorem sampleField40_maxMagnitude : sampleField40.maxMagnitude = 549755813887 := by
  simp [TypeInfo.maxMagnitude, sampleField40]
  norm_num

theorem sampleField16_maxMagnitude : sampleField16.maxMagnitude = 326670 := by
  simp [TypeInfo.maxMagnitude, sampleField16]
  norm_num

/-- C14, as the source has it: for `bits > 0` and `scale <= 0` the threshold of `is64Bit` on
the maximum magnitude `M = max(-reference, (2^(bits-1) - 1) / 10^scale + reference)` is `2^30`
(the source compares `log2(M * 2) + 1` with 32). It reports true exactly when `M` exceeds
`2^30`; so it does whenever `M` exceeds `2^31`, and it reports false whenever `M` is at most
`2^30`. -/
theorem is64Bit_threshold (t : TypeInfo) (hbits : 0 < t.bits) (hscale : t.scale ≤ 0) :
    (t.is64Bit = true ↔ (2 : ℚ) ^ (30 : ℕ) < t.maxMagnitude) ∧
    ((2 : ℚ) ^ (31 : ℕ) < t.maxMagnitude → t.is64Bit = true) ∧
    (t.maxMagnitude ≤ (2 : ℚ) ^ (30 : ℕ) → t.is64Bit = false) := by
  have hiff := is64Bit_eq_true_iff t (by omega) hscale
  refine ⟨hiff, ?_, ?_⟩
  · intro h
    rw [hiff]
    have : (2 : ℚ) ^ (30 : ℕ) < (2 : ℚ) ^ (31 : ℕ) := by norm_num
    linarith
  · intro h
    cases hv : t.is64Bit with
    | false => rfl
    | true =>
      have := hiff.1 hv
      exact absurd h (not_le.2 this)

/-- C14 at a 32-bit field without scale or reference: its maximum magnitude `2^31 - 1` is
under `2^31`, and `is64Bit` reports true. -/
theorem is64Bit_true_below_two_pow_31 :
    0 < sampleField32.bits ∧ sampleField32.scale ≤ 0 ∧
    sampleField32.maxMagnitude = 2147483647 ∧
    sampleField32.maxMagnitude < (2 : ℚ) ^ (31 : ℕ) ∧
    sampleField32.is64Bit = true := by
  refine ⟨by decide, by decide, sampleField32_maxMagnitude, ?_, ?_⟩
  · rw [sampleField32_maxMagnitude]; norm_num
  · rw [is64Bit_eq_true_iff sampleField32 (by decide) (by decide), sampleField32_maxMagnitude]
    norm_num

/-- The threshold on three fields: 32 bits (between `2^30` and `2^31`), 40 bits (above `2^31`)
and 16 bits (below `2^30`). -/
theorem is64Bit_threshold_witness :
    (sampleField32.is64Bit = true ↔ (2 : ℚ) ^ (30 : ℕ) < sampleField32.maxMagnitude) ∧
    sampleField40.is64Bit = true ∧ sampleField16.is64Bit = false :=
  ⟨(is64Bit_threshold sampleField32 (by decide) (by decide)).1,
   (is64Bit_threshold sampleField40 (by decide) (by decide)).2.1
     (by rw [sampleField40_maxMagnitude]; norm_num),
   (is64Bit_threshold sampleField16 (by decide) (by decide)).2.2
     (by rw [sampleField16_maxMagnitude]; norm_num)⟩

/-! ## Rewind and the variant cache -/

/-- C11, as the source has it: `DataProvider::rewind` (close then open) runs on the provider and
leaves the targets cache of a `QueryRunner` that uses the provider as it was. Every entry is
still found with its value, and a `getTargets` call after the rewind for a variant that has an
entry is a hit: it returns the stored targets and resolves nothing against the new table. -/
theorem rewind_keeps_targets_cache (methods : ProviderMethods) (s : Session) :
    (s.rewind methods).runner.targetsCache_ = s.runner.targetsCache_ ∧
    (∀ (k : SubsetVariant) (v : Targets), s.runner.targetsCache_.find k = some v →
      (s.rewind methods).runner.targetsCache_.find k = some v) ∧
    (∀ stored : Targets,
      s.runner.targetsCache_.find (s.rewind methods).dataProvider_.getSubsetVariant =
        some stored →
      (s.rewind methods).getTargets = .ok (stored, s.rewind methods)) := by
  refine ⟨rfl, fun k v h => h, ?_⟩
  intro stored h
  have hhit := getTargets_hit (s.rewind methods).runner (s.rewind methods).dataProvider_ stored h
  simp only [Session.getTargets, hhit, Except.map]

/-- C11 on the sample: the runner has resolved `TypeB`; the file is rewound and presents the
table of `TypeB` under new node ids. The cache still holds the entry of `TypeB`, the next
`getTargets` call is a hit that returns the targets of the old table (node 3 for `lat`) and adds
no event, while a resolution against the new table gives node 13. -/
theorem rewind_does_not_clear_cache :
    (sampleSession.rewind sampleMethods).dataProvider_.tableData = reopenedTree ∧
    (sampleSession.rewind sampleMethods).runner.targetsCache_.length = 1 ∧
    (sampleSession.rewind sampleMethods).runner.targetsCache_.find
      (sampleSession.rewind sampleMethods).dataProvider_.getSubsetVariant =
        some sampleFirstCall.1 ∧
    (sampleSession.rewind sampleMethods).getTargets =
      .ok (sampleFirstCall.1, sampleSession.rewind sampleMethods) ∧
    sampleFirstCall.1.map (fun t => t.nodeIdx) = [3, 0, 0] ∧
    ((sampleRunner.getTargets (sampleSession.rewind sampleMethods).dataProvider_).map
      (fun res => res.1.map (fun t => t.nodeIdx))) = .ok [13, 0, 0] := by
  refine ⟨rfl, rfl, rfl, rfl, rfl, rfl⟩

/-- The rewind of the sample session keeps the entry of `TypeB` and the next call is a hit. -/
theorem rewind_keeps_targets_cache_witness :
    (sampleSession.rewind sampleMethods).runner.targetsCache_.find
        sampleProvider.getSubsetVariant = some sampleFirstCall.1 ∧
    (sampleSession.rewind sampleMethods).getTargets =
      .ok (sampleFirstCall.1, sampleSession.rewind sampleMethods) :=
  ⟨(rewind_keeps_targets_cache sampleMethods sampleSession).2.1
      sampleProvider.getSubsetVariant sampleFirstCall.1 rfl,
   (rewind_keeps_targets_cache sampleMethods sampleSession).2.2 sampleFirstCall.1 rfl⟩

/-! ## The tokenizer -/

theorem removeWhitespace_idem (query : String) :
    removeWhitespace (removeWhitespace query) = removeWhitespace query := by
  simp [removeWhitespace, List.filter_filter]

/-- The token list of `tokenize` is a function of the whitespace-stripped string. -/
theorem tokenize_tokens_of_cleaned {Token : Type} (multiQuery singleQuery : TokenParser Token)
    (query : String) :
    (Tokenizer.tokenize multiQuery singleQuery query).1 =
      match multiQuery (removeWhitespace query).toList with
      | (some token, _) => [some token]
      | (none, range) =>
        match singleQuery range with
        | (some token, _) => [some token]
        | (none, _) => [none] := by
  simp only [Tokenizer.tokenize]
  rcases h1 : multiQuery (removeWhitespace query).toList with ⟨t1, r1⟩
  cases t1 with
  | some t => rfl
  | none =>
    rcases h2 : singleQuery r1 with ⟨t2, r2⟩
    cases t2 with
    | some t => simp only [h2]
    | none => simp only [h2]

/-- C12: `Tokenizer::tokenize` is whitespace-insensitive. Two query strings that are equal once
their whitespace characters are removed get the same token list, for any two parsers, and the
token list of a string is that of its whitespace-stripped form. -/
theorem tokenize_whitespace_insensitive {Token : Type}
    (multiQuery singleQuery : TokenParser Token) :
    (∀ q1 q2 : String, removeWhitespace q1 = removeWhitespace q2 →
      (Tokenizer.tokenize multiQuery singleQuery q1).1 =
        (Tokenizer.tokenize multiQuery singleQuery q2).1) ∧
    (∀ query : String,
      (Tokenizer.tokenize multiQuery singleQuery (removeWhitespace query)).1 =
        (Tokenizer.tokenize multiQuery singleQuery query).1) := by
  constructor
  · intro q1 q2 h
    rw [tokenize_tokens_of_cleaned, tokenize_tokens_of_cleaned, h]
  · intro query
    rw [tokenize_tokens_of_cleaned, tokenize_tokens_of_cleaned, removeWhitespace_idem]

/-- Two spellings of `*/SEQ/LAT` under the toy grammars. -/
theorem tokenize_whitespace_insensitive_witness :
    (Tokenizer.tokenize toyMultiQuery toySingleQuery " */ SEQ /\tLAT").1 =
      (Tokenizer.tokenize toyMultiQuery toySingleQuery "*/SEQ/LAT\n").1 :=
  (tokenize_whitespace_insensitive toyMultiQuery toySingleQuery).1 " */ SEQ /\tLAT"
    "*/SEQ/LAT\n" (by decide)

/-- C13: `Tokenizer::tokenize` tries the two grammars in order. It returns the multi-query
parse of the stripped string when that is not null; otherwise the single-query parse when that
is not null (of the range the multi-query attempt left, the stripped string when that attempt
does not move the iterators); and when both are null it prints the failure for that string and
returns the list that holds exactly one null token. In every case the list has one element,
which is the whole result of one parser or null. -/
theorem tokenize_grammars_in_order {Token : Type} (multiQuery singleQuery : TokenParser Token)
    (query : String) :
    (∀ token rest, multiQuery (removeWhitespace query).toList = (some token, rest) →
      Tokenizer.tokenize multiQuery singleQuery query = ([some token], [])) ∧
    (∀ range token rest, multiQuery (removeWhitespace query).toList = (none, range) →
      singleQuery range = (some token, rest) →
      Tokenizer.tokenize multiQuery singleQuery query = ([some token], [])) ∧
    (∀ range rest, multiQuery (removeWhitespace query).toList = (none, range) →
      singleQuery range = (none, rest) →
      Tokenizer.tokenize multiQuery singleQuery query =
        ([none], ["Tokenizer::tokenize: no match for " ++ query ++ "\n"])) ∧
    (Tokenizer.tokenize multiQuery singleQuery query).1.length = 1 := by
  refine ⟨?_, ?_, ?_, ?_⟩
  · intro token rest h
    simp only [Tokenizer.tokenize, h]
  · intro range token rest h1 h2
    simp only [Tokenizer.tokenize, h1, h2]
  · intro range rest h1 h2
    simp only [Tokenizer.tokenize, h1, h2]
  · rw [tokenize_tokens_of_cleaned]
    rcases h1 : multiQuery (removeWhitespace query).toList with ⟨t1, r1⟩
    cases t1 with
    | some t => rfl
    | none =>
      rcases h2 : singleQuery r1 with ⟨t2, r2⟩
      cases t2 with
      | some t => simp only [h2, List.length_singleton]
      | none => simp only [h2, List.length_singleton]

/-- The three outcomes under the toy grammars: a multi-query, a single query, no match. -/
theorem tokenize_grammars_in_order_witness :
    Tokenizer.tokenize toyMultiQuery toySingleQuery "[*/A, */B]" =
      ([some "[*/A,*/B]"], []) ∧
    Tokenizer.tokenize toyMultiQuery toySingleQuery "*/SEQ /LAT" = ([some "*/SEQ/LAT"], []) ∧
    Tokenizer.tokenize toyMultiQuery toySingleQuery "SEQ LAT" =
      ([none], ["Tokenizer::tokenize: no match for " ++ "SEQ LAT" ++ "\n"]) :=
  ⟨(tokenize_grammars_in_order toyMultiQuery toySingleQuery "[*/A, */B]").1
      "[*/A,*/B]" [] (by decide),
   (tokenize_grammars_in_order toyMultiQuery toySingleQuery "*/SEQ /LAT").2.1
      "*/SEQ/LAT".toList "*/SEQ/LAT" [] (by decide) (by decide),
   (tokenize_grammars_in_order toyMultiQuery toySingleQuery "SEQ LAT").2.2.1
      "SEQLAT".toList "SEQLAT".toList (by decide) (by decide)⟩

/-! ## The key check of the export variables -/

/-- When every key is in the map the loop of `checkKeys` finds nothing. -/
theorem checkKeysLoop_present {F : Type} (map : BufrDataMap F) :
    ∀ (keys : List String) (errStr : String), (∀ k ∈ keys, (map k).isSome = true) →
      checkKeysLoop map keys errStr = (false, errStr) := by
  intro keys
  induction keys with
  | nil => intro errStr _; rfl
  | cons k rest ih =>
    intro errStr h
    have hk := h k (List.mem_cons_self _ _)
    have hk' : (map k).isNone = false := by
      cases hm : map k with
      | none => rw [hm] at hk; exact absurd hk (by simp)
      | some _ => rfl
    simp only [checkKeysLoop, hk', Bool.false_eq_true, if_false]
    exact ih errStr (fun x hx => h x (List.mem_cons_of_mem _ hx))

/-- The loop of `checkKeys` stops at the first key that is not in the map and appends it. -/
theorem checkKeysLoop_absent {F : Type} (map : BufrDataMap F) (key : String)
    (post : List String) (hkey : map key = none) :
    ∀ (pre : List String) (errStr : String), (∀ k ∈ pre, (map k).isSome = true) →
      checkKeysLoop map (pre ++ key :: post) errStr = (true, errStr ++ key) := by
  intro pre
  induction pre with
  | nil =>
    intro errStr _
    simp [checkKeysLoop, hkey]
  | cons k rest ih =>
    intro errStr h
    have hk := h k (List.mem_cons_self _ _)
    have hk' : (map k).isNone = false := by
      cases hm : map k with
      | none => rw [hm] at hk; exact absurd hk (by simp)
      | some _ => rfl
    have hcons : checkKeysLoop map (k :: rest ++ key :: post) errStr =
        checkKeysLoop map (k :: (rest ++ key :: post)) errStr := rfl
    rw [hcons, checkKeysLoop]
    simp only [hk', Bool.false_eq_true, if_false]
    exact ih errStr (fun x hx => h x (List.mem_cons_of_mem _ hx))

/-- A list with a key that is not in the map splits at the first such key. -/
theorem exists_first_absent {F : Type} (map : BufrDataMap F) :
    ∀ (keys : List String), (∃ k ∈ keys, map k = none) →
      ∃ pre key post, keys = pre ++ key :: post ∧ (∀ k ∈ pre, (map k).isSome = true) ∧
        map key = none := by
  intro keys
  induction keys with
  | nil => rintro ⟨k, hk, _⟩; simp at hk
  | cons k rest ih =>
    rintro ⟨x, hx, hnone⟩
    cases hm : map k with
    | none => exact ⟨[], k, rest, rfl, fun y hy => by simp at hy, hm⟩
    | some obj =>
      have hrest : ∃ y ∈ rest, map y = none := by
        rcases List.mem_cons.1 hx with rfl | hx'
        · rw [hm] at hnone; exact absurd hnone (by simp)
        · exact ⟨x, hx', hnone⟩
      obtain ⟨pre, key, post, hsplit, hpre, hkey⟩ := ih hrest
      refine ⟨k :: pre, key, post, by rw [hsplit]; rfl, ?_, hkey⟩
      intro y hy
      rcases List.mem_cons.1 hy with rfl | hy'
      · rw [hm]; rfl
      · exact hpre y hy'

/-- The outcome of a key check over `keys` with the message ending `suffix`: it returns when
every key is in the map, and raises `BadParameter` naming the first absent key otherwise. -/
theorem checkKeys_outcome {F : Type} (map : BufrDataMap F) (keys : List String)
    (suffix : String) :
    let check : Except Abort Unit :=
      if (checkKeysLoop map keys "Query ").1 then
        .error (.raised (.badParameter ((checkKeysLoop map keys "Query ").2 ++ suffix)))
      else .ok ()
    ((∀ k ∈ keys, (map k).isSome = true) → check = .ok ()) ∧
    (∀ pre key post, keys = pre ++ key :: post → (∀ k ∈ pre, (map k).isSome = true) →
      map key = none →
      check = .error (.raised (.badParameter ("Query " ++ key ++ suffix)))) ∧
    ((∃ msg, check = .error (.raised (.badParameter msg))) ↔ ∃ k ∈ keys, map k = none) := by
  intro check
  have hpresent : (∀ k ∈ keys, (map k).isSome = true) → check = .ok () := by
    intro h
    simp only [check, checkKeysLoop_present map keys "Query " h, Bool.false_eq_true, if_false]
  have habsent : ∀ pre key post, keys = pre ++ key :: post →
      (∀ k ∈ pre, (map k).isSome = true) → map key = none →
      check = .error (.raised (.badParameter ("Query " ++ key ++ suffix))) := by
    intro pre key post hsplit hpre hkey
    simp only [check, hsplit, checkKeysLoop_absent map key post hkey pre "Query " hpre, if_true]
  refine ⟨hpresent, habsent, ?_⟩
  constructor
  · rintro ⟨msg, hmsg⟩
    by_contra hno
    have hall : ∀ k ∈ keys, (map k).isSome = true := by
      intro k hk
      cases hm : map k with
      | none => exact absurd ⟨k, hk, hm⟩ hno
      | some _ => rfl
    rw [hpresent hall] at hmsg
    exact absurd hmsg (by simp)
  · intro h
    obtain ⟨pre, key, post, hsplit, hpre, hkey⟩ := exists_first_absent map keys h
    exact ⟨_, habsent pre key post hsplit hpre hkey⟩

/-- C15: the key checks. `checkKeys` of `WigosidVariable` raises `BadParameter` iff one of the
four export keys of `wgosids`, `wgosisid`, `wgosisnm`, `wgoslid` is absent from the map, and
`checkKeys` of `AircraftAltitudeVariable` raises iff the export key of a configured field is
absent; the message names the first absent key in the order of the required keys, and when no
key is absent the call returns. -/
theorem checkKeys_missing_required_field {F : Type} (v : Variable) (map : BufrDataMap F) :
    (((∃ msg, WigosidVariable.checkKeys v map = .error (.raised (.badParameter msg))) ↔
        ∃ name ∈ ["wgosids", "wgosisid", "wgosisnm", "wgoslid"],
          map (v.getExportKey name) = none) ∧
      (∀ pre key post, WigosidVariable.requiredKeys v = pre ++ key :: post →
        (∀ k ∈ pre, (map k).isSome = true) → map key = none →
        WigosidVariable.checkKeys v map = .error (.raised (.badParameter
          ("Query " ++ key ++ " could not be found during export of wigosid object.")))) ∧
      ((∀ k ∈ WigosidVariable.requiredKeys v, (map k).isSome = true) →
        WigosidVariable.checkKeys v map = .ok ())) ∧
    (((∃ msg, AircraftAltitudeVariable.checkKeys v map = .error (.raised (.badParameter msg))) ↔
        ∃ name ∈ AircraftAltitudeVariable.FieldNames,
          v.has name = true ∧ map (v.getExportKey name) = none) ∧
      (∀ pre key post, AircraftAltitudeVariable.requiredKeys v = pre ++ key :: post →
        (∀ k ∈ pre, (map k).isSome = true) → map key = none →
        AircraftAltitudeVariable.checkKeys v map = .error (.raised (.badParameter
          ("Query " ++ key ++
            " could not be found during export of AircraftAltitude object.")))) ∧
      ((∀ k ∈ AircraftAltitudeVariable.requiredKeys v, (map k).isSome = true) →
        AircraftAltitudeVariable.checkKeys v map = .ok ())) := by
  have hw := checkKeys_outcome map (WigosidVariable.requiredKeys v)
    " could not be found during export of wigosid object."
  have ha := checkKeys_outcome map (AircraftAltitudeVariable.requiredKeys v)
    " could not be found during export of AircraftAltitude object."
  refine ⟨⟨?_, hw.2.1, hw.1⟩, ⟨?_, ha.2.1, ha.1⟩⟩
  · have h := hw.2.2
    simp only [WigosidVariable.requiredKeys, List.mem_cons, List.mem_singleton,
      List.not_mem_nil, or_false, exists_eq_or_imp, exists_eq_left] at h
    simp only [List.mem_cons, List.mem_singleton, List.not_mem_nil, or_false,
      exists_eq_or_imp, exists_eq_left]
    exact h
  · have h := ha.2.2
    rw [show (∃ k ∈ AircraftAltitudeVariable.requiredKeys v, map k = none) ↔
        ∃ name ∈ AircraftAltitudeVariable.FieldNames,
          v.has name = true ∧ map (v.getExportKey name) = none by
      simp only [AircraftAltitudeVariable.requiredKeys, List.mem_map, List.mem_filter]
      constructor
      · rintro ⟨k, ⟨name, ⟨hmem, hhas⟩, rfl⟩, hk⟩
        exact ⟨name, hmem, hhas, hk⟩
      · rintro ⟨name, hmem, hhas, hk⟩
        exact ⟨_, ⟨name, ⟨hmem, hhas⟩, rfl⟩, hk⟩] at h
    exact h

/-- The key checks on sample maps: `wgosisnm` is the first absent key of a wigos map with two
entries, `height` the one of an altitude map with `pressure` only, and a map with both keys
passes. -/
theorem checkKeys_missing_required_field_witness :
    WigosidVariable.checkKeys wigosVar
        (sampleMap [("wigos_wgosids", sampleSeries), ("wigos_wgosisid", sampleSeries)]) =
      .error (.raised (.badParameter
        ("Query " ++ "wigos_wgosisnm" ++
          " could not be found during export of wigosid object."))) ∧
    WigosidVariable.checkKeys wigosVar wigosMap = .ok () ∧
    AircraftAltitudeVariable.checkKeys altPressureHeight
        (sampleMap [("alt_pressure", sampleObject53)]) =
      .error (.raised (.badParameter
        ("Query " ++ "alt_height" ++
          " could not be found during export of AircraftAltitude object."))) ∧
    AircraftAltitudeVariable.checkKeys altPressureHeight
        (sampleMap [("alt_pressure", sampleObject53), ("alt_height", sampleObject53)]) =
      .ok () :=
  ⟨(checkKeys_missing_required_field wigosVar
      (sampleMap [("wigos_wgosids", sampleSeries), ("wigos_wgosisid", sampleSeries)])).1.2.1
      ["wigos_wgosids", "wigos_wgosisid"] "wigos_wgosisnm" ["wigos_wgoslid"] rfl (by decide) rfl,
   (checkKeys_missing_required_field wigosVar wigosMap).1.2.2 (by decide),
   (checkKeys_missing_required_field altPressureHeight
      (sampleMap [("alt_pressure", sampleObject53)])).2.2.1
      ["alt_pressure"] "alt_height" [] rfl (by decide) rfl,
   (checkKeys_missing_required_field altPressureHeight
      (sampleMap [("alt_pressure", sampleObject53), ("alt_height", sampleObject53)])).2.2.2
      (by decide)⟩

/-! ## The wigos identifier -/

/-- The strings of the positions `idx, idx + 1, ..` below `idx + count`. -/
theorem wigosLoop_ok {F : Type} (missingInt : Int) (a b c d : DataObject F)
    (hsize : a.size < 2 ^ 32) :
    ∀ (steps idx : Nat) (wigosID : List String), idx ≤ a.size → a.size - idx ≤ steps →
      WigosidVariable.wigosLoop missingInt a b c d steps idx wigosID =
        some (wigosID ++
          (List.range' idx (a.size - idx)).map (WigosidVariable.wigosAt missingInt a b c d)) := by
  intro steps
  induction steps with
  | zero =>
    intro idx wigosID hle hsteps
    have hidx : ¬ idx < a.size := by omega
    have h0 : a.size - idx = 0 := by omega
    simp [WigosidVariable.wigosLoop, hidx, h0]
  | succ steps ih =>
    intro idx wigosID hle hsteps
    by_cases hidx : idx < a.size
    · have hmod : (idx + 1) % 2 ^ 32 = idx + 1 := Nat.mod_eq_of_lt (by omega)
      have hcount : a.size - idx = (a.size - (idx + 1)) + 1 := by omega
      rw [WigosidVariable.wigosLoop]
      simp only [hidx, if_true, hmod]
      rw [ih (idx + 1) _ (by omega) (by omega), hcount, List.range'_succ]
      simp
    · have h0 : a.size - idx = 0 := by omega
      simp [WigosidVariable.wigosLoop, hidx, h0]

/-- Lines 49-65 when the four keys are in the map: the four objects if they share the path of
`wgosids`, the `BadParameter` of line 64 if one of the three others has another path. -/
theorem wigos_inputs {F : Type} (v : Variable) (map : BufrDataMap F) (a b c d : DataObject F)
    (ha : map (v.getExportKey "wgosids") = some a)
    (hb : map (v.getExportKey "wgosisid") = some b)
    (hc : map (v.getExportKey "wgosisnm") = some c)
    (hd : map (v.getExportKey "wgoslid") = some d) :
    WigosidVariable.inputs v map =
      if a.path = b.path ∧ a.path = c.path ∧ a.path = d.path then .ok (a, b, c, d)
      else .error (.raised (.badParameter "Wigosid variables are not all from the same path.")) := by
  have hkeys : WigosidVariable.checkKeys v map = .ok () := by
    apply (checkKeys_outcome map (WigosidVariable.requiredKeys v)
      " could not be found during export of wigosid object.").1
    intro k hk
    simp only [WigosidVariable.requiredKeys, List.mem_cons, List.mem_singleton,
      List.not_mem_nil, or_false] at hk
    rcases hk with rfl | rfl | rfl | rfl
    · rw [ha]; rfl
    · rw [hb]; rfl
    · rw [hc]; rfl
    · rw [hd]; rfl
  unfold WigosidVariable.inputs
  simp only [hkeys, bind, Except.bind, BufrDataMap.at, ha, hb, hc, hd, DataObject.hasSamePath]
  by_cases h1 : a.path = b.path
  · have e1 : (a.path == b.path) = true := beq_iff_eq.2 h1
    by_cases h2 : a.path = c.path
    · have e2 : (a.path == c.path) = true := beq_iff_eq.2 h2
      by_cases h3 : a.path = d.path
      · have e3 : (a.path == d.path) = true := beq_iff_eq.2 h3
        simp only [e1, e2, e3, Bool.not_true, Bool.false_eq_true, if_false]
        rw [if_pos ⟨h1, h2, h3⟩]
      · have e3 : (a.path == d.path) = false := beq_eq_false_iff_ne.2 h3
        simp only [e1, e2, e3, Bool.not_true, Bool.not_false, Bool.false_eq_true, if_false,
          if_true]
        rw [if_neg (fun h => h3 h.2.2)]
    · have e2 : (a.path == c.path) = false := beq_eq_false_iff_ne.2 h2
      simp only [e1, e2, Bool.not_true, Bool.not_false, Bool.false_eq_true, if_false, if_true]
      rw [if_neg (fun h => h2 h.2.1)]
  · have e1 : (a.path == b.path) = false := beq_eq_false_iff_ne.2 h1
    simp only [e1, Bool.not_false, if_true]
    rw [if_neg (fun h => h1 h.1)]

/-- C20: `WigosidVariable::exportData` with the four inputs `a` (wgosids), `b` (wgosisid),
`c` (wgosisnm), `d` (wgoslid) in the map. When they share one path (and the positions of
`wgosids` number fewer than `2^32`, the range of the loop counter) it returns one string per
position of the wgosids object, in index order: at position `i` the three integers in decimal
and the local id joined by `-` when none of the integers is the missing integer and the local
id is not empty, the empty string otherwise. When one of the three others has a path other than
that of `wgosids` it raises `BadParameter`. -/
theorem wigosid_exportData {F : Type} (missingInt : Int) (steps : Nat) (v : Variable)
    (map : BufrDataMap F) (a b c d : DataObject F)
    (ha : map (v.getExportKey "wgosids") = some a)
    (hb : map (v.getExportKey "wgosisid") = some b)
    (hc : map (v.getExportKey "wgosisnm") = some c)
    (hd : map (v.getExportKey "wgoslid") = some d) :
    ((a.path = b.path ∧ a.path = c.path ∧ a.path = d.path) → a.size < 2 ^ 32 →
      a.size ≤ steps →
      ∃ out, WigosidVariable.exportData missingInt steps v map = some (.ok out) ∧
        out.values.length = a.size ∧
        (∀ i, i < a.size → out.values[i]? = some
          (if a.getAsInt i ≠ missingInt ∧ b.getAsInt i ≠ missingInt ∧
              c.getAsInt i ≠ missingInt ∧ d.getAsString i ≠ "" then
            toString (a.getAsInt i) ++ "-" ++ toString (b.getAsInt i) ++ "-" ++
              toString (c.getAsInt i) ++ "-" ++ d.getAsString i
          else "")) ∧
        out.exportName = v.exportName ∧ out.dims = a.dims ∧ out.path = a.path) ∧
    (¬ (a.path = b.path ∧ a.path = c.path ∧ a.path = d.path) →
      WigosidVariable.exportData missingInt steps v map =
        some (.error (.raised
          (.badParameter "Wigosid variables are not all from the same path.")))) := by
  have hin := wigos_inputs v map a b c d ha hb hc hd
  constructor
  · intro hpath hsize hsteps
    rw [if_pos hpath] at hin
    have hloop := wigosLoop_ok missingInt a b c d hsize steps 0 [] (Nat.zero_le _)
      (by omega)
    have hexp : WigosidVariable.exportData missingInt steps v map = some (.ok
        { values := [] ++ (List.range' 0 (a.size - 0)).map
            (WigosidVariable.wigosAt missingInt a b c d)
          exportName := v.exportName
          groupByField := v.groupByField_
          dims := a.dims
          path := a.path
          dimPaths := a.dimPaths }) := by
      simp only [WigosidVariable.exportData, hin, hloop]
    refine ⟨_, hexp, ?_, ?_, rfl, rfl, rfl⟩
    · simp
    · intro i hi
      simp only [List.nil_append, Nat.sub_zero]
      rw [List.getElem?_map, List.getElem?_range' _ _ hi]
      simp only [Option.map_some', Nat.zero_add, Nat.one_mul, WigosidVariable.wigosAt]
      congr 1
      by_cases h1 : a.getAsInt i = missingInt <;> by_cases h2 : b.getAsInt i = missingInt <;>
        by_cases h3 : c.getAsInt i = missingInt <;> by_cases h4 : d.getAsString i = "" <;>
        simp [h1, h2, h3, h4]
  · intro hpath
    rw [if_neg hpath] at hin
    simp only [WigosidVariable.exportData, hin]

/-- The wigos identifiers of the sample map (position 1 holds the missing integer, position 2
an empty local id), and the error for a map whose `wgoslid` is on another path. -/
theorem wigosid_exportData_witness :
    (∃ out, WigosidVariable.exportData 2147483647 3 wigosVar wigosMap = some (.ok out) ∧
      out.values.length = 3 ∧
      (∀ i : Nat, i < 3 → out.values[i]? = some
        (if (i : Int) ≠ 2147483647 ∧ sampleSeries.getAsInt i ≠ 2147483647 ∧
            (7 : Int) ≠ 2147483647 ∧ sampleSeries.getAsString i ≠ "" then
          toString (i : Int) ++ "-" ++ toString (sampleSeries.getAsInt i) ++ "-" ++
            toString (7 : Int) ++ "-" ++ sampleSeries.getAsString i
        else "")) ∧
      out.exportName = "wigos" ∧ out.dims = [3] ∧ out.path = "*/WIGOS") ∧
    WigosidVariable.exportData 2147483647 3 wigosVar
        (sampleMap [("wigos_wgosids", sampleSeries), ("wigos_wgosisid", sampleSeries),
          ("wigos_wgosisnm", sampleSeries),
          ("wigos_wgoslid", { sampleSeries with path := "*/OTHER" })]) =
      some (.error (.raised
        (.badParameter "Wigosid variables are not all from the same path."))) :=
  ⟨(wigosid_exportData 2147483647 3 wigosVar wigosMap
      { sampleSeries with getAsInt := fun i => (i : Int) } sampleSeries
      { sampleSeries with getAsInt := fun _ => 7 } sampleSeries rfl rfl rfl rfl).1
      (by decide) (by decide) (by decide),
   (wigosid_exportData 2147483647 3 wigosVar
      (sampleMap [("wigos_wgosids", sampleSeries), ("wigos_wgosisid", sampleSeries),
        ("wigos_wgosisnm", sampleSeries),
        ("wigos_wgoslid", { sampleSeries with path := "*/OTHER" })])
      sampleSeries sampleSeries sampleSeries { sampleSeries with path := "*/OTHER" }
      rfl rfl rfl rfl).2 (by decide)⟩

/-! ## The aircraft altitude: the included fields and the validation -/

/-- What `find` gives on `includedFieldMap` after the loop of lines 56-63. -/
theorem includeFields_find {F : Type} (v : Variable) (map : BufrDataMap F) :
    ∀ (names : List String) (fields : List (String × DataObject F)),
      AircraftAltitudeVariable.includeFields v map names = .ok fields →
      ∀ n, findField fields n =
        if n ∈ names ∧ v.has n = true then map (v.getExportKey n) else none := by
  intro names
  induction names with
  | nil =>
    intro fields h n
    simp only [AircraftAltitudeVariable.includeFields, Except.ok.injEq] at h
    subst h
    simp [findField]
  | cons m rest ih =>
    intro fields h n
    rw [AircraftAltitudeVariable.includeFields] at h
    by_cases hm : v.has m = true
    · simp only [hm, if_true, bind, Except.bind, BufrDataMap.at] at h
      cases hobj : map (v.getExportKey m) with
      | none => rw [hobj] at h; simp at h
      | some obj =>
        rw [hobj] at h
        simp only at h
        cases htail : AircraftAltitudeVariable.includeFields v map rest with
        | error e => rw [htail] at h; simp at h
        | ok tail =>
          rw [htail] at h
          simp only [Except.ok.injEq] at h
          subst h
          by_cases hnm : m = n
          · subst hnm
            simp [findField, hm, hobj]
          · have hne : (m == n) = false := beq_eq_false_iff_ne.2 hnm
            have := ih tail htail n
            simp only [findField, List.find?_cons, hne] at this ⊢
            rw [this]
            have hmem : n ∈ m :: rest ↔ n ∈ rest := by
              simp only [List.mem_cons]
              constructor
              · rintro (h | h)
                · exact absurd h.symm hnm
                · exact h
              · exact Or.inr
            simp only [hmem]
    · simp only [hm, Bool.false_eq_true, if_false] at h
      rw [ih fields h n]
      by_cases hnm : m = n
      · subst hnm
        simp [hm]
      · have hmem : n ∈ m :: rest ↔ n ∈ rest := by
          simp only [List.mem_cons]
          constructor
          · rintro (h | h)
            · exact absurd h.symm hnm
            · exact h
          · exact Or.inr
        simp only [hmem]

/-- The keys of `includedFieldMap` are the configured field names, and each of them is in the
data map. -/
theorem includeFields_keys {F : Type} (v : Variable) (map : BufrDataMap F) :
    ∀ (names : List String) (fields : List (String × DataObject F)),
      AircraftAltitudeVariable.includeFields v map names = .ok fields →
      fields.map (fun e => e.1) = names.filter v.has ∧
      ∀ n ∈ names, v.has n = true → ∃ obj, map (v.getExportKey n) = some obj := by
  intro names
  induction names with
  | nil =>
    intro fields h
    simp only [AircraftAltitudeVariable.includeFields, Except.ok.injEq] at h
    subst h
    exact ⟨rfl, fun n hn => by simp at hn⟩
  | cons m rest ih =>
    intro fields h
    rw [AircraftAltitudeVariable.includeFields] at h
    by_cases hm : v.has m = true
    · simp only [hm, if_true, bind, Except.bind, BufrDataMap.at] at h
      cases hobj : map (v.getExportKey m) with
      | none => rw [hobj] at h; simp at h
      | some obj =>
        rw [hobj] at h
        simp only at h
        cases htail : AircraftAltitudeVariable.includeFields v map rest with
        | error e => rw [htail] at h; simp at h
        | ok tail =>
          rw [htail] at h
          simp only [Except.ok.injEq] at h
          subst h
          obtain ⟨h1, h2⟩ := ih tail htail
          refine ⟨by simp [List.filter_cons, hm, h1], ?_⟩
          intro n hn hhas
          rcases List.mem_cons.1 hn with rfl | hn'
          · exact ⟨obj, hobj⟩
          · exact h2 n hn' hhas
    · simp only [hm, Bool.false_eq_true, if_false] at h
      obtain ⟨h1, h2⟩ := ih fields h
      refine ⟨by simp [List.filter_cons, hm, h1], ?_⟩
      intro n hn hhas
      rcases List.mem_cons.1 hn with rfl | hn'
      · exact absurd hhas hm
      · exact h2 n hn' hhas

/-- The loop of lines 56-63 ends without an exception when the keys of the configured fields
are in the data map. -/
theorem includeFields_total {F : Type} (v : Variable) (map : BufrDataMap F) :
    ∀ (names : List String),
      (∀ n ∈ names, v.has n = true → ∃ obj, map (v.getExportKey n) = some obj) →
      ∃ fields, AircraftAltitudeVariable.includeFields v map names = .ok fields := by
  intro names
  induction names with
  | nil => intro _; exact ⟨[], rfl⟩
  | cons m rest ih =>
    intro h
    obtain ⟨tail, htail⟩ := ih (fun n hn => h n (List.mem_cons_of_mem _ hn))
    by_cases hm : v.has m = true
    · obtain ⟨obj, hobj⟩ := h m (List.mem_cons_self _ _) hm
      refine ⟨(m, obj) :: tail, ?_⟩
      rw [AircraftAltitudeVariable.includeFields]
      simp only [hm, if_true, bind, Except.bind, BufrDataMap.at, hobj, htail]
    · refine ⟨tail, ?_⟩
      rw [AircraftAltitudeVariable.includeFields]
      simp only [hm, Bool.false_eq_true, if_false, htail]

/-- The validation loop passes when every included field has the reference path. -/
theorem validatePaths_ok {F : Type} (fields : List (String × DataObject F)) (path : String) :
    ∀ (names : List String),
      (∀ n ∈ names, ∀ obj, findField fields n = some obj → obj.path = path) →
      AircraftAltitudeVariable.validatePaths fields path names = .ok () := by
  intro names
  induction names with
  | nil => intro _; rfl
  | cons m rest ih =>
    intro h
    have hrest := ih (fun n hn => h n (List.mem_cons_of_mem _ hn))
    rw [AircraftAltitudeVariable.validatePaths]
    cases hf : findField fields m with
    | none => simpa using hrest
    | some obj =>
      have hp := h m (List.mem_cons_self _ _) obj hf
      simpa [hp] using hrest

/-- The validation loop raises the `BadParameter` of line 76 when an included field has
another path than the reference. -/
theorem validatePaths_raises {F : Type} (fields : List (String × DataObject F))
    (path : String) :
    ∀ (names : List String),
      (∃ n ∈ names, ∃ obj, findField fields n = some obj ∧ obj.path ≠ path) →
      AircraftAltitudeVariable.validatePaths fields path names =
        .error (.raised (.badParameter "Inconsistent dimensions found in source data.")) := by
  intro names
  induction names with
  | nil => rintro ⟨n, hn, _⟩; simp at hn
  | cons m rest ih =>
    rintro ⟨n, hn, obj, hf, hp⟩
    rw [AircraftAltitudeVariable.validatePaths]
    cases hfm : findField fields m with
    | none =>
      have hrest : ∃ n ∈ rest, ∃ obj, findField fields n = some obj ∧ obj.path ≠ path := by
        rcases List.mem_cons.1 hn with rfl | hn'
        · rw [hfm] at hf; exact absurd hf (by simp)
        · exact ⟨n, hn', obj, hf, hp⟩
      simpa using ih hrest
    | some objm =>
      by_cases hpm : objm.path = path
      · have hrest : ∃ n ∈ rest, ∃ obj, findField fields n = some obj ∧ obj.path ≠ path := by
          rcases List.mem_cons.1 hn with rfl | hn'
          · rw [hfm] at hf
            simp only [Option.some.injEq] at hf
            subst hf
            exact absurd hpm hp
          · exact ⟨n, hn', obj, hf, hp⟩
        simpa [hpm] using ih hrest
      · simp [hpm]

/-- The entry that `begin()` gives is an entry of the map; an empty map has none. -/
theorem unorderedBegin_mem {F : Type} (beginIdx : Nat) (fields : List (String × DataObject F))
    (hne : fields ≠ []) :
    ∃ e ∈ fields, unorderedBegin beginIdx fields = .ok e.2 := by
  have hlen : 0 < fields.length := List.length_pos.2 hne
  have hlt : beginIdx % fields.length < fields.length := Nat.mod_lt _ hlen
  refine ⟨fields[beginIdx % fields.length], List.getElem_mem _, ?_⟩
  simp [unorderedBegin, List.getElem?_eq_getElem hlt]

/-! ## The aircraft altitude: the inner loop -/

/-- One iteration of the inner loop. -/
theorem altitudeLoop_cons {F : Type} (ops : FloatOps F) (fields : List (String × DataObject F))
    (idx : Nat) (n : String) (rest : List String) (alt : F) :
    AircraftAltitudeVariable.altitudeLoop ops fields idx (n :: rest) alt =
      match atField fields n with
      | .ok fieldValues =>
        AircraftAltitudeVariable.altitudeLoop ops fields idx rest
          (altitudeStep ops fields idx n fieldValues alt)
      | .error e => .error e := by
  rw [AircraftAltitudeVariable.altitudeLoop]
  cases hat : atField fields n with
  | error e => rfl
  | ok fv =>
    simp only [bind, Except.bind, altitudeStep]
    by_cases h1 : (n == "pressure") = true
    · simp only [h1, if_true]
      by_cases h2 : (!fv.isMissing idx) = true
      · simp only [h2, if_true]
      · simp only [h2, Bool.false_eq_true, if_false]
        cases findField fields "aircraftIndicatedAltitude" with
        | none => rfl
        | some ind =>
          by_cases h3 : (!ind.isMissing idx) = true
          · simp only [h3, if_true]
          · simp only [h3, Bool.false_eq_true, if_false]
    · simp only [h1, Bool.false_eq_true, if_false]
      by_cases h2 : (n == "aircraftIndicatedAltitude") = true
      · simp only [h2, if_true]
      · simp only [h2, Bool.false_eq_true, if_false]
        by_cases h3 : (!fv.isMissing idx) = true
        · simp only [h3, if_true]
        · simp only [h3, Bool.false_eq_true, if_false]

/-- The inner loop over a concatenation. -/
theorem altitudeLoop_append {F : Type} (ops : FloatOps F)
    (fields : List (String × DataObject F)) (idx : Nat) (l2 : List String) :
    ∀ (l1 : List String) (alt : F),
      AircraftAltitudeVariable.altitudeLoop ops fields idx (l1 ++ l2) alt =
        match AircraftAltitudeVariable.altitudeLoop ops fields idx l1 alt with
        | .ok alt1 => AircraftAltitudeVariable.altitudeLoop ops fields idx l2 alt1
        | .error e => .error e := by
  intro l1
  induction l1 with
  | nil => intro alt; rfl
  | cons n rest ih =>
    intro alt
    have hcons : AircraftAltitudeVariable.altitudeLoop ops fields idx (n :: rest ++ l2) alt =
        AircraftAltitudeVariable.altitudeLoop ops fields idx (n :: (rest ++ l2)) alt := rfl
    rw [hcons, altitudeLoop_cons, altitudeLoop_cons]
    cases atField fields n with
    | error e => rfl
    | ok fv => exact ih _

/-- The inner loop over the included fields among `names`, none of which is `pressure` or
`aircraftIndicatedAltitude`, visited from the last to the first: the first available one. -/
theorem altitudeLoop_others {F : Type} (ops : FloatOps F) (v : Variable) (map : BufrDataMap F)
    (fields : List (String × DataObject F)) (idx : Nat) :
    ∀ (names : List String) (alt : F),
      (∀ n ∈ names, n ≠ "pressure" ∧ n ≠ "aircraftIndicatedAltitude") →
      (∀ n ∈ names, findField fields n = fieldObject v map n) →
      (∀ n ∈ names, v.has n = true → ∃ obj, map (v.getExportKey n) = some obj) →
      AircraftAltitudeVariable.altitudeLoop ops fields idx (names.filter v.has).reverse alt =
        .ok (firstAvailable v map idx names alt) := by
  intro names
  induction names with
  | nil => intro alt _ _ _; rfl
  | cons n rest ih =>
    intro alt hne hfind hsome
    have ihr := ih alt (fun x hx => hne x (List.mem_cons_of_mem _ hx))
      (fun x hx => hfind x (List.mem_cons_of_mem _ hx))
      (fun x hx => hsome x (List.mem_cons_of_mem _ hx))
    by_cases hn : v.has n = true
    · obtain ⟨obj, hobj⟩ := hsome n (List.mem_cons_self _ _) hn
      have hfo : fieldObject v map n = some obj := by simp [fieldObject, hn, hobj]
      have hat : atField fields n = .ok obj := by
        simp [atField, hfind n (List.mem_cons_self _ _), hfo]
      have h1 : (n == "pressure") = false :=
        beq_eq_false_iff_ne.2 (hne n (List.mem_cons_self _ _)).1
      have h2 : (n == "aircraftIndicatedAltitude") = false :=
        beq_eq_false_iff_ne.2 (hne n (List.mem_cons_self _ _)).2
      rw [List.filter_cons, if_pos hn, List.reverse_cons, altitudeLoop_append, ihr]
      simp only [altitudeLoop_cons, hat, AircraftAltitudeVariable.altitudeLoop, altitudeStep, h1,
        h2, Bool.false_eq_true, if_false, firstAvailable, hfo, bind, Except.bind]
      by_cases hmiss : (!obj.isMissing idx) = true
      · simp only [hmiss, if_true]
      · simp only [hmiss, Bool.false_eq_true, if_false]
    · have hfo : fieldObject v map n = none := by simp [fieldObject, hn]
      rw [List.filter_cons, if_neg hn, ihr]
      simp only [firstAvailable, hfo]

/-- The inner loop of lines 85-125 computes the altitude expected at the position. -/
theorem altitudeLoop_expected {F : Type} (ops : FloatOps F) (v : Variable)
    (map : BufrDataMap F) (fields : List (String × DataObject F))
    (hfields : AircraftAltitudeVariable.includeFields v map
      AircraftAltitudeVariable.FieldNames = .ok fields) (idx : Nat) :
    AircraftAltitudeVariable.altitudeLoop ops fields idx
        (fields.map (fun e => e.1)).reverse ops.missingValue =
      .ok (expectedAltitude ops v map idx) := by
  obtain ⟨hkeys, hsome⟩ := includeFields_keys v map _ fields hfields
  have hfind : ∀ n ∈ AircraftAltitudeVariable.FieldNames,
      findField fields n = fieldObject v map n := by
    intro n hn
    rw [includeFields_find v map _ fields hfields n]
    simp [fieldObject, hn]
  have hnames : AircraftAltitudeVariable.FieldNames =
      "pressure" :: "aircraftIndicatedAltitude" ::
        AircraftAltitudeVariable.FieldNames.drop 2 := rfl
  have hothers := altitudeLoop_others ops v map fields idx
    (AircraftAltitudeVariable.FieldNames.drop 2) ops.missingValue (by decide)
    (fun n hn => hfind n (List.mem_of_mem_drop hn))
    (fun n hn => hsome n (List.mem_of_mem_drop hn))
  have hfP := hfind "pressure" (by decide)
  have hfA := hfind "aircraftIndicatedAltitude" (by decide)
  rw [hkeys, hnames, List.filter_cons, List.filter_cons]
  by_cases hP : v.has "pressure" = true
  · obtain ⟨p, hp⟩ := hsome "pressure" (by decide) hP
    have hfoP : fieldObject v map "pressure" = some p := by simp [fieldObject, hP, hp]
    have hatP : atField fields "pressure" = .ok p := by simp [atField, hfP, hfoP]
    by_cases hA : v.has "aircraftIndicatedAltitude" = true
    · obtain ⟨a, ha⟩ := hsome "aircraftIndicatedAltitude" (by decide) hA
      have hfoA : fieldObject v map "aircraftIndicatedAltitude" = some a := by
        simp [fieldObject, hA, ha]
      have hatA : atField fields "aircraftIndicatedAltitude" = .ok a := by
        simp [atField, hfA, hfoA]
      rw [if_pos hP, if_pos hA, List.reverse_cons, List.reverse_cons, altitudeLoop_append,
        altitudeLoop_append, hothers]
      simp only [altitudeLoop_cons, hatA, hatP, AircraftAltitudeVariable.altitudeLoop,
        altitudeStep, expectedAltitude, hfoP, hfoA, hfA]
      simp only [bind, Except.bind]
      by_cases hpm : p.isMissing idx = true <;> by_cases ham : a.isMissing idx = true <;>
        simp [hpm, ham]
    · have hfoA : fieldObject v map "aircraftIndicatedAltitude" = none := by
        simp [fieldObject, hA]
      rw [if_pos hP, if_neg hA, List.reverse_cons, altitudeLoop_append, hothers]
      simp only [altitudeLoop_cons, hatP, AircraftAltitudeVariable.altitudeLoop,
        altitudeStep, expectedAltitude, hfoP, hfoA, hfA]
      simp only [bind, Except.bind]
      by_cases hpm : p.isMissing idx = true <;> simp [hpm]
  · have hfoP : fieldObject v map "pressure" = none := by simp [fieldObject, hP]
    by_cases hA : v.has "aircraftIndicatedAltitude" = true
    · obtain ⟨a, ha⟩ := hsome "aircraftIndicatedAltitude" (by decide) hA
      have hfoA : fieldObject v map "aircraftIndicatedAltitude" = some a := by
        simp [fieldObject, hA, ha]
      have hatA : atField fields "aircraftIndicatedAltitude" = .ok a := by
        simp [atField, hfA, hfoA]
      rw [if_neg hP, if_pos hA, List.reverse_cons, altitudeLoop_append, hothers]
      simp only [altitudeLoop_cons, hatA, AircraftAltitudeVariable.altitudeLoop,
        altitudeStep, expectedAltitude, hfoP]
      simp [bind, Except.bind]
    · rw [if_neg hP, if_neg hA, hothers]
      simp only [expectedAltitude, hfoP]

/-! ## The aircraft altitude: the export -/

/-- Every entry of `includedFieldMap` is a configured field with its object of the data map. -/
theorem includeFields_mem {F : Type} (v : Variable) (map : BufrDataMap F) :
    ∀ (names : List String) (fields : List (String × DataObject F)),
      AircraftAltitudeVariable.includeFields v map names = .ok fields →
      ∀ e ∈ fields, e.1 ∈ names ∧ v.has e.1 = true ∧ map (v.getExportKey e.1) = some e.2 := by
  intro names
  induction names with
  | nil =>
    intro fields h e he
    simp only [AircraftAltitudeVariable.includeFields, Except.ok.injEq] at h
    subst h
    simp at he
  | cons m rest ih =>
    intro fields h e he
    rw [AircraftAltitudeVariable.includeFields] at h
    by_cases hm : v.has m = true
    · simp only [hm, if_true, bind, Except.bind, BufrDataMap.at] at h
      cases hobj : map (v.getExportKey m) with
      | none => rw [hobj] at h; simp at h
      | some obj =>
        rw [hobj] at h
        simp only at h
        cases htail : AircraftAltitudeVariable.includeFields v map rest with
        | error e => rw [htail] at h; simp at h
        | ok tail =>
          rw [htail] at h
          simp only [Except.ok.injEq] at h
          subst h
          rcases List.mem_cons.1 he with rfl | he'
          · exact ⟨List.mem_cons_self _ _, hm, hobj⟩
          · obtain ⟨h1, h2, h3⟩ := ih tail htail e he'
            exact ⟨List.mem_cons_of_mem _ h1, h2, h3⟩
    · simp only [hm, Bool.false_eq_true, if_false] at h
      obtain ⟨h1, h2, h3⟩ := ih fields h e he
      exact ⟨List.mem_cons_of_mem _ h1, h2, h3⟩

/-- The outer loop of lines 80-126 computes the expected altitude at each position. -/
theorem altitudes_expected {F : Type} (ops : FloatOps F) (v : Variable) (map : BufrDataMap F)
    (fields : List (String × DataObject F))
    (hfields : AircraftAltitudeVariable.includeFields v map
      AircraftAltitudeVariable.FieldNames = .ok fields) :
    ∀ (idxs : List Nat),
      AircraftAltitudeVariable.altitudes ops fields (fields.map (fun e => e.1)) idxs =
        .ok (idxs.map (expectedAltitude ops v map)) := by
  intro idxs
  induction idxs with
  | nil => rfl
  | cons idx rest ih =>
    rw [AircraftAltitudeVariable.altitudes, altitudeLoop_expected ops v map fields hfields idx, ih]
    rfl

/-- The stages of `exportData`, one after the other. -/
theorem aircraft_exportData_stages {F : Type} (ops : FloatOps F) (beginIdx : Nat) (v : Variable)
    (map : BufrDataMap F) :
    AircraftAltitudeVariable.exportData ops beginIdx v map =
      match AircraftAltitudeVariable.checkKeys v map with
      | .error e => .error e
      | .ok _ =>
        match AircraftAltitudeVariable.includeFields v map
            AircraftAltitudeVariable.FieldNames with
        | .error e => .error e
        | .ok fields =>
          match unorderedBegin beginIdx fields with
          | .error e => .error e
          | .ok referenceObj =>
            match AircraftAltitudeVariable.validatePaths fields referenceObj.path
                AircraftAltitudeVariable.FieldNames with
            | .error e => .error e
            | .ok _ =>
              .ok
                { values := (List.range referenceObj.size).map (expectedAltitude ops v map)
                  exportName := v.exportName
                  groupByField := v.groupByField_
                  dims := referenceObj.dims
                  path := referenceObj.path
                  dimPaths := referenceObj.dimPaths } := by
  unfold AircraftAltitudeVariable.exportData
  cases hck : AircraftAltitudeVariable.checkKeys v map with
  | error e => rfl
  | ok u =>
    cases hf : AircraftAltitudeVariable.includeFields v map
        AircraftAltitudeVariable.FieldNames with
    | error e => simp only [bind, Except.bind]
    | ok fields =>
      cases hb : unorderedBegin beginIdx fields with
      | error e => simp only [bind, Except.bind, hb]
      | ok referenceObj =>
        cases hv : AircraftAltitudeVariable.validatePaths fields referenceObj.path
            AircraftAltitudeVariable.FieldNames with
        | error e => simp only [bind, Except.bind, hb, hv]
        | ok u' =>
          simp only [bind, Except.bind, hb, hv,
            altitudes_expected ops v map fields hf (List.range referenceObj.size)]

/-- The key check of the aircraft altitude passes when the keys of the configured fields are in
the data map. -/
theorem aircraft_checkKeys_ok {F : Type} (v : Variable) (map : BufrDataMap F)
    (hkeys : ∀ n ∈ AircraftAltitudeVariable.FieldNames, v.has n = true →
      ∃ obj, map (v.getExportKey n) = some obj) :
    AircraftAltitudeVariable.checkKeys v map = .ok () := by
  apply (checkKeys_outcome map (AircraftAltitudeVariable.requiredKeys v)
    " could not be found during export of AircraftAltitude object.").1
  intro k hk
  simp only [AircraftAltitudeVariable.requiredKeys, List.mem_map, List.mem_filter] at hk
  obtain ⟨n, ⟨hn, hhas⟩, rfl⟩ := hk
  obtain ⟨obj, hobj⟩ := hkeys n hn hhas
  rw [hobj]; rfl

/-- With the keys of the configured fields in the map and at least one field configured,
`exportData` reaches the validation with a reference object that is the object of a configured
field, and ends as the validation does. -/
theorem aircraft_exportData_reference {F : Type} (ops : FloatOps F) (beginIdx : Nat)
    (v : Variable) (map : BufrDataMap F)
    (hkeys : ∀ n ∈ AircraftAltitudeVariable.FieldNames, v.has n = true →
      ∃ obj, map (v.getExportKey n) = some obj)
    (hsome : ∃ n ∈ AircraftAltitudeVariable.FieldNames, v.has n = true) :
    ∃ fields name referenceObj,
      AircraftAltitudeVariable.includeFields v map AircraftAltitudeVariable.FieldNames =
        .ok fields ∧
      name ∈ AircraftAltitudeVariable.FieldNames ∧ v.has name = true ∧
      map (v.getExportKey name) = some referenceObj ∧
      AircraftAltitudeVariable.exportData ops beginIdx v map =
        match AircraftAltitudeVariable.validatePaths fields referenceObj.path
            AircraftAltitudeVariable.FieldNames with
        | .error e => .error e
        | .ok _ =>
          .ok
            { values := (List.range referenceObj.size).map (expectedAltitude ops v map)
              exportName := v.exportName
              groupByField := v.groupByField_
              dims := referenceObj.dims
              path := referenceObj.path
              dimPaths := referenceObj.dimPaths } := by
  obtain ⟨fields, hf⟩ := includeFields_total v map AircraftAltitudeVariable.FieldNames hkeys
  have hne : fields ≠ [] := by
    intro h0
    obtain ⟨n, hn, hhas⟩ := hsome
    have hk := (includeFields_keys v map _ fields hf).1
    rw [h0] at hk
    have : n ∈ AircraftAltitudeVariable.FieldNames.filter v.has :=
      List.mem_filter.2 ⟨hn, hhas⟩
    rw [← hk] at this
    simp at this
  obtain ⟨e, he, hb⟩ := unorderedBegin_mem beginIdx fields hne
  obtain ⟨h1, h2, h3⟩ := includeFields_mem v map _ fields hf e he
  refine ⟨fields, e.1, e.2, hf, h1, h2, h3, ?_⟩
  rw [aircraft_exportData_stages, aircraft_checkKeys_ok v map hkeys]
  simp only [hf, hb]

/-- C16, as the source has it: with the keys of the configured fields in the map and at least
one field configured, `exportData` raises `BadParameter` with the fixed message
`Inconsistent dimensions found in source data.` exactly when two configured fields report
different paths (`getPath`); when all configured fields report one path it returns an object.
The shapes are not compared and the message names no field. -/
theorem aircraftAltitude_inconsistent_paths {F : Type} (ops : FloatOps F) (beginIdx : Nat)
    (v : Variable) (map : BufrDataMap F)
    (hkeys : ∀ n ∈ AircraftAltitudeVariable.FieldNames, v.has n = true →
      ∃ obj, map (v.getExportKey n) = some obj)
    (hsome : ∃ n ∈ AircraftAltitudeVariable.FieldNames, v.has n = true) :
    (AircraftAltitudeVariable.exportData ops beginIdx v map =
        .error (.raised (.badParameter "Inconsistent dimensions found in source data.")) ↔
      ∃ n1 ∈ AircraftAltitudeVariable.FieldNames, ∃ n2 ∈ AircraftAltitudeVariable.FieldNames,
        ∃ o1 o2, v.has n1 = true ∧ v.has n2 = true ∧ map (v.getExportKey n1) = some o1 ∧
          map (v.getExportKey n2) = some o2 ∧ o1.path ≠ o2.path) ∧
    ((∀ n1 ∈ AircraftAltitudeVariable.FieldNames, ∀ n2 ∈ AircraftAltitudeVariable.FieldNames,
        ∀ o1 o2, v.has n1 = true → v.has n2 = true → map (v.getExportKey n1) = some o1 →
          map (v.getExportKey n2) = some o2 → o1.path = o2.path) →
      ∃ out, AircraftAltitudeVariable.exportData ops beginIdx v map = .ok out) := by
  obtain ⟨fields, name, ref, hf, hname, hhas, href, hexp⟩ :=
    aircraft_exportData_reference ops beginIdx v map hkeys hsome
  have hfind : ∀ n obj, findField fields n = some obj →
      n ∈ AircraftAltitudeVariable.FieldNames ∧ v.has n = true ∧
        map (v.getExportKey n) = some obj := by
    intro n obj h
    rw [includeFields_find v map _ fields hf n] at h
    by_cases hc : n ∈ AircraftAltitudeVariable.FieldNames ∧ v.has n = true
    · rw [if_pos hc] at h
      exact ⟨hc.1, hc.2, h⟩
    · rw [if_neg hc] at h
      exact absurd h (by simp)
  have hfind' : ∀ n ∈ AircraftAltitudeVariable.FieldNames, ∀ obj, v.has n = true →
      map (v.getExportKey n) = some obj → findField fields n = some obj := by
    intro n hn obj hh hm
    rw [includeFields_find v map _ fields hf n, if_pos ⟨hn, hh⟩, hm]
  constructor
  · constructor
    · intro herr
      by_contra hno
      have hall : ∀ n ∈ AircraftAltitudeVariable.FieldNames, ∀ obj,
          findField fields n = some obj → obj.path = ref.path := by
        intro n hn obj hfo
        by_contra hp
        obtain ⟨_, hh, hm⟩ := hfind n obj hfo
        exact hno ⟨n, hn, name, hname, obj, ref, hh, hhas, hm, href, hp⟩
      rw [hexp, validatePaths_ok fields ref.path _ hall] at herr
      exact absurd herr (by simp)
    · rintro ⟨n1, hn1, n2, hn2, o1, o2, hh1, hh2, hm1, hm2, hp⟩
      have hex : ∃ n ∈ AircraftAltitudeVariable.FieldNames, ∃ obj,
          findField fields n = some obj ∧ obj.path ≠ ref.path := by
        by_cases h1 : o1.path = ref.path
        · refine ⟨n2, hn2, o2, hfind' n2 hn2 o2 hh2 hm2, ?_⟩
          intro h2
          exact hp (h1.trans h2.symm)
        · exact ⟨n1, hn1, o1, hfind' n1 hn1 o1 hh1 hm1, h1⟩
      rw [hexp, validatePaths_raises fields ref.path _ hex]
  · intro hsame
    have hall : ∀ n ∈ AircraftAltitudeVariable.FieldNames, ∀ obj,
        findField fields n = some obj → obj.path = ref.path := by
      intro n hn obj hfo
      obtain ⟨_, hh, hm⟩ := hfind n obj hfo
      exact hsame n hn name hname obj ref hh hhas hm href
    rw [hexp, validatePaths_ok fields ref.path _ hall]
    exact ⟨_, rfl⟩

/-- C16 on sample maps. Two fields of shapes (5, 3) and (5, 4) on two paths raise
`BadParameter` with a message that names neither: it is the same fixed message for `pressure`
and `height` as for `flightLevel` and `heightOrAltitude`. Two fields of shapes (5, 3) and
(5, 4) that report one path raise nothing: an object is returned, with the shape of the
reference. -/
theorem aircraftAltitude_error_names_no_target :
    sampleObject53.dims = [5, 3] ∧ sampleObject54.dims = [5, 4] ∧
    sampleObject54SamePath.dims = [5, 4] ∧
    AircraftAltitudeVariable.exportData sampleOps 0 altPressureHeight altMapTwoPaths =
      .error (.raised (.badParameter "Inconsistent dimensions found in source data.")) ∧
    AircraftAltitudeVariable.exportData sampleOps 0 altFlightLevels altMapFlightLevels =
      .error (.raised (.badParameter "Inconsistent dimensions found in source data.")) ∧
    (AircraftAltitudeVariable.exportData sampleOps 0 altPressureHeight altMapOnePath).map
      (fun out => (out.dims, out.values.length)) = .ok ([5, 3], 15) := by
  refine ⟨rfl, rfl, rfl, rfl, rfl, rfl⟩

/-- The keys of `pressure` and `height` are in the sample map with two paths. -/
theorem altMapTwoPaths_keys :
    ∀ n ∈ AircraftAltitudeVariable.FieldNames, altPressureHeight.has n = true →
      ∃ obj, altMapTwoPaths (altPressureHeight.getExportKey n) = some obj := by
  intro n hn hh
  simp only [AircraftAltitudeVariable.FieldNames, List.mem_cons, List.mem_singleton,
    List.not_mem_nil, or_false] at hn
  rcases hn with rfl | rfl | rfl | rfl | rfl | rfl | rfl <;>
    first
    | exact ⟨_, rfl⟩
    | exact absurd hh (by decide)

/-- The keys of `pressure` and `height` are in the sample map with one path. -/
theorem altMapOnePath_keys :
    ∀ n ∈ AircraftAltitudeVariable.FieldNames, altPressureHeight.has n = true →
      ∃ obj, altMapOnePath (altPressureHeight.getExportKey n) = some obj := by
  intro n hn hh
  simp only [AircraftAltitudeVariable.FieldNames, List.mem_cons, List.mem_singleton,
    List.not_mem_nil, or_false] at hn
  rcases hn with rfl | rfl | rfl | rfl | rfl | rfl | rfl <;>
    first
    | exact ⟨_, rfl⟩
    | exact absurd hh (by decide)

/-- The objects of `pressure` and `height` in the sample map with one path report one path. -/
theorem altMapOnePath_paths :
    ∀ n1 ∈ AircraftAltitudeVariable.FieldNames, ∀ n2 ∈ AircraftAltitudeVariable.FieldNames,
      ∀ o1 o2, altPressureHeight.has n1 = true → altPressureHeight.has n2 = true →
        altMapOnePath (altPressureHeight.getExportKey n1) = some o1 →
        altMapOnePath (altPressureHeight.getExportKey n2) = some o2 → o1.path = o2.path := by
  intro n1 hn1 n2 hn2 o1 o2 hh1 hh2 hm1 hm2
  simp only [AircraftAltitudeVariable.FieldNames, List.mem_cons, List.mem_singleton,
    List.not_mem_nil, or_false] at hn1 hn2
  rcases hn1 with rfl | rfl | rfl | rfl | rfl | rfl | rfl <;>
    first
    | exact absurd hh1 (by decide)
    | (rcases hn2 with rfl | rfl | rfl | rfl | rfl | rfl | rfl <;>
        first
        | exact absurd hh2 (by decide)
        | (cases (show some _ = some o1 from hm1)
           cases (show some _ = some o2 from hm2)
           rfl))

/-- The validation on the sample maps: two paths raise, one path returns. -/
theorem aircraftAltitude_inconsistent_paths_witness :
    AircraftAltitudeVariable.exportData sampleOps 0 altPressureHeight altMapTwoPaths =
      .error (.raised (.badParameter "Inconsistent dimensions found in source data.")) ∧
    ∃ out, AircraftAltitudeVariable.exportData sampleOps 1 altPressureHeight altMapOnePath =
      .ok out :=
  ⟨(aircraftAltitude_inconsistent_paths sampleOps 0 altPressureHeight altMapTwoPaths
      altMapTwoPaths_keys ⟨"pressure", by decide, rfl⟩).1.2
      ⟨"pressure", by decide, "height", by decide, sampleObject53, sampleObject54,
        rfl, rfl, rfl, rfl, by decide⟩,
   (aircraftAltitude_inconsistent_paths sampleOps 1 altPressureHeight altMapOnePath
      altMapOnePath_keys ⟨"pressure", by decide, rfl⟩).2 altMapOnePath_paths⟩

/-! ## The aircraft altitude: the indicated altitude -/

theorem firstAvailable_congr {F : Type} (v v2 : Variable) (map map2 : BufrDataMap F)
    (idx : Nat) :
    ∀ (names : List String) (alt : F),
      (∀ n ∈ names, fieldObject v2 map2 n = fieldObject v map n) →
      firstAvailable v2 map2 idx names alt = firstAvailable v map idx names alt := by
  intro names
  induction names with
  | nil => intro alt _; rfl
  | cons n rest ih =>
    intro alt h
    have hrest := ih alt (fun x hx => h x (List.mem_cons_of_mem _ hx))
    simp only [firstAvailable, h n (List.mem_cons_self _ _), hrest]

theorem firstAvailable_all_missing {F : Type} (v : Variable) (map : BufrDataMap F)
    (idx : Nat) :
    ∀ (names : List String) (alt : F),
      (∀ n ∈ names, ∀ obj, fieldObject v map n = some obj → obj.isMissing idx = true) →
      firstAvailable v map idx names alt = alt := by
  intro names
  induction names with
  | nil => intro alt _; rfl
  | cons n rest ih =>
    intro alt h
    have hrest := ih alt (fun x hx => h x (List.mem_cons_of_mem _ hx))
    cases hfo : fieldObject v map n with
    | none => simp only [firstAvailable, hfo, hrest]
    | some obj =>
      have hm := h n (List.mem_cons_self _ _) obj hfo
      simp [firstAvailable, hfo, hm, hrest]

theorem fieldObject_some_iff {F : Type} (v : Variable) (map : BufrDataMap F) (n : String)
    (obj : DataObject F) :
    fieldObject v map n = some obj ↔ v.has n = true ∧ map (v.getExportKey n) = some obj := by
  unfold fieldObject
  by_cases h : v.has n = true
  · simp [h]
  · simp [h]

theorem fieldObject_withoutIndicatedAltitude {F : Type} (v : Variable) (map : BufrDataMap F)
    (n : String) :
    fieldObject (withoutIndicatedAltitude v) map n =
      if n = "aircraftIndicatedAltitude" then none else fieldObject v map n := by
  by_cases h : n = "aircraftIndicatedAltitude"
  · subst h
    simp [fieldObject, withoutIndicatedAltitude]
  · simp [fieldObject, withoutIndicatedAltitude, Variable.getExportKey, h]

/-- The expected altitude is the one of the variable without the indicated altitude, unless
`pressure` is configured and missing at the position and the indicated altitude is configured
and not missing there, in which case it is the indicated altitude. -/
theorem expectedAltitude_cases {F : Type} (ops : FloatOps F) (v : Variable)
    (map : BufrDataMap F) (idx : Nat) :
    expectedAltitude ops v map idx =
        expectedAltitude ops (withoutIndicatedAltitude v) map idx ∨
      (v.has "pressure" = true ∧ v.has "aircraftIndicatedAltitude" = true ∧
        ∃ pressure indicated, map (v.getExportKey "pressure") = some pressure ∧
          map (v.getExportKey "aircraftIndicatedAltitude") = some indicated ∧
          pressure.isMissing idx = true ∧ indicated.isMissing idx = false ∧
          expectedAltitude ops v map idx = indicated.getAsFloat idx) := by
  have hother : firstAvailable (withoutIndicatedAltitude v) map idx
      (AircraftAltitudeVariable.FieldNames.drop 2) ops.missingValue =
      firstAvailable v map idx (AircraftAltitudeVariable.FieldNames.drop 2)
        ops.missingValue := by
    apply firstAvailable_congr
    intro n hn
    rw [fieldObject_withoutIndicatedAltitude]
    have hne : n ≠ "aircraftIndicatedAltitude" := by
      intro h
      subst h
      exact absurd hn (by decide)
    rw [if_neg hne]
  have hP : fieldObject (withoutIndicatedAltitude v) map "pressure" =
      fieldObject v map "pressure" := by
    rw [fieldObject_withoutIndicatedAltitude, if_neg (by decide)]
  have hA : fieldObject (withoutIndicatedAltitude v) map "aircraftIndicatedAltitude" =
      none := by
    rw [fieldObject_withoutIndicatedAltitude, if_pos rfl]
  cases hfp : fieldObject v map "pressure" with
  | none =>
    left
    simp only [expectedAltitude, hP, hA, hfp, hother]
  | some p =>
    by_cases hpm : p.isMissing idx = true
    · cases hfa : fieldObject v map "aircraftIndicatedAltitude" with
      | none =>
        left
        simp only [expectedAltitude, hP, hA, hfp, hfa, hother]
      | some a =>
        by_cases ham : a.isMissing idx = true
        · left
          simp [expectedAltitude, hP, hA, hfp, hfa, hother, hpm, ham]
        · right
          obtain ⟨h1, h2⟩ := (fieldObject_some_iff v map _ p).1 hfp
          obtain ⟨h3, h4⟩ := (fieldObject_some_iff v map _ a).1 hfa
          have ham' : a.isMissing idx = false := by
            cases hb : a.isMissing idx with
            | false => rfl
            | true => exact absurd hb ham
          refine ⟨h1, h3, p, a, h2, h4, hpm, ham', ?_⟩
          simp [expectedAltitude, hfp, hfa, hpm, ham']
    · left
      have hpm' : p.isMissing idx = false := by
        cases hb : p.isMissing idx with
        | false => rfl
        | true => exact absurd hb hpm
      simp [expectedAltitude, hP, hfp, hpm']

/-- Without `pressure` the expected altitude reads the map at the five other fields only. -/
theorem expectedAltitude_no_pressure_congr {F : Type} (ops : FloatOps F) (v : Variable)
    (map map2 : BufrDataMap F) (idx : Nat) (hP : v.has "pressure" = false)
    (hagree : ∀ n ∈ AircraftAltitudeVariable.FieldNames, n ≠ "aircraftIndicatedAltitude" →
      map2 (v.getExportKey n) = map (v.getExportKey n)) :
    expectedAltitude ops v map2 idx = expectedAltitude ops v map idx := by
  have h1 : fieldObject v map "pressure" = none := by simp [fieldObject, hP]
  have h2 : fieldObject v map2 "pressure" = none := by simp [fieldObject, hP]
  simp only [expectedAltitude, h1, h2]
  apply firstAvailable_congr
  intro n hn
  have hmem : n ∈ AircraftAltitudeVariable.FieldNames := List.mem_of_mem_drop hn
  have hne : n ≠ "aircraftIndicatedAltitude" := by
    intro h
    subst h
    exact absurd hn (by decide)
  simp only [fieldObject, hagree n hmem hne]

/-- Where every configured field is missing the expected altitude is the missing value. -/
theorem expectedAltitude_all_missing {F : Type} (ops : FloatOps F) (v : Variable)
    (map : BufrDataMap F) (idx : Nat)
    (hall : ∀ n ∈ AircraftAltitudeVariable.FieldNames, ∀ obj, v.has n = true →
      map (v.getExportKey n) = some obj → obj.isMissing idx = true) :
    expectedAltitude ops v map idx = ops.missingValue := by
  have hfo : ∀ n ∈ AircraftAltitudeVariable.FieldNames, ∀ obj,
      fieldObject v map n = some obj → obj.isMissing idx = true := by
    intro n hn obj h
    obtain ⟨h1, h2⟩ := (fieldObject_some_iff v map n obj).1 h
    exact hall n hn obj h1 h2
  have hother := firstAvailable_all_missing v map idx
    (AircraftAltitudeVariable.FieldNames.drop 2) ops.missingValue
    (fun n hn => hfo n (List.mem_of_mem_drop hn))
  cases hfp : fieldObject v map "pressure" with
  | none => simp only [expectedAltitude, hfp, hother]
  | some p =>
    have hpm := hfo "pressure" (by decide) p hfp
    cases hfa : fieldObject v map "aircraftIndicatedAltitude" with
    | none => simp [expectedAltitude, hfp, hfa, hpm, hother]
    | some a =>
      have ham := hfo "aircraftIndicatedAltitude" (by decide) a hfa
      simp [expectedAltitude, hfp, hfa, hpm, ham, hother]

/-- The values of an object that `exportData` returns are the expected altitudes. -/
theorem aircraft_exportData_values {F : Type} (ops : FloatOps F) (beginIdx : Nat)
    (v : Variable) (map : BufrDataMap F) (out : ExportedObject F)
    (hexp : AircraftAltitudeVariable.exportData ops beginIdx v map = .ok out) (idx : Nat)
    (hidx : idx < out.values.length) :
    out.values[idx]? = some (expectedAltitude ops v map idx) := by
  rw [aircraft_exportData_stages] at hexp
  cases hck : AircraftAltitudeVariable.checkKeys v map with
  | error e => rw [hck] at hexp; simp at hexp
  | ok u =>
    cases hf : AircraftAltitudeVariable.includeFields v map
        AircraftAltitudeVariable.FieldNames with
    | error e => rw [hck, hf] at hexp; simp at hexp
    | ok fields =>
      cases hb : unorderedBegin beginIdx fields with
      | error e => rw [hck, hf] at hexp; simp [hb] at hexp
      | ok ref =>
        cases hv : AircraftAltitudeVariable.validatePaths fields ref.path
            AircraftAltitudeVariable.FieldNames with
        | error e => rw [hck, hf] at hexp; simp [hb, hv] at hexp
        | ok u' =>
          rw [hck, hf] at hexp
          simp only [hb, hv, Except.ok.injEq] at hexp
          subst hexp
          simp only [List.length_map, List.length_range] at hidx
          simp only [List.getElem?_map, List.getElem?_range hidx, Option.map_some']

/-- With the keys of the configured fields in the map, a field configured and one path for all
configured fields, `exportData` returns an object. -/
theorem aircraft_exportData_returns {F : Type} (ops : FloatOps F) (beginIdx : Nat)
    (v : Variable) (map : BufrDataMap F)
    (hkeys : ∀ n ∈ AircraftAltitudeVariable.FieldNames, v.has n = true →
      ∃ obj, map (v.getExportKey n) = some obj)
    (hsome : ∃ n ∈ AircraftAltitudeVariable.FieldNames, v.has n = true)
    (hsame : ∀ n1 ∈ AircraftAltitudeVariable.FieldNames,
      ∀ n2 ∈ AircraftAltitudeVariable.FieldNames, ∀ o1 o2, v.has n1 = true →
        v.has n2 = true → map (v.getExportKey n1) = some o1 →
        map (v.getExportKey n2) = some o2 → o1.path = o2.path) :
    ∃ out, AircraftAltitudeVariable.exportData ops beginIdx v map = .ok out := by
  obtain ⟨fields, name, ref, hf, hname, hhas, href, hexp⟩ :=
    aircraft_exportData_reference ops beginIdx v map hkeys hsome
  have hall : ∀ n ∈ AircraftAltitudeVariable.FieldNames, ∀ obj,
      findField fields n = some obj → obj.path = ref.path := by
    intro n hn obj hfo
    rw [includeFields_find v map _ fields hf n] at hfo
    by_cases hc : n ∈ AircraftAltitudeVariable.FieldNames ∧ v.has n = true
    · rw [if_pos hc] at hfo
      exact hsame n hn name hname obj ref hc.2 hhas hfo href
    · rw [if_neg hc] at hfo
      exact absurd hfo (by simp)
  rw [hexp, validatePaths_ok fields ref.path _ hall]
  exact ⟨_, rfl⟩

/-- C19: with the keys of the configured fields in the map, a field configured and one path for
all configured fields, `AircraftAltitudeVariable::exportData` returns an object, and at every
index `idx` of its values the value `alt` there is the expected altitude and
(1) `alt` is what the variable yields without `aircraftIndicatedAltitude` in its configuration,
unless `pressure` is configured and missing at `idx` and `aircraftIndicatedAltitude` is
configured and not missing at `idx`, in which case `alt` is the indicated altitude at `idx`;
(2) when `pressure` is not configured, every export of the variable from a map that agrees with
this one on the keys of the six other fields has the same value at `idx`;
(3) when every configured field is missing at `idx`, `alt` is the float missing value. -/
theorem aircraftAltitude_indicated_altitude {F : Type} (ops : FloatOps F) (beginIdx : Nat)
    (v : Variable) (map : BufrDataMap F)
    (hkeys : ∀ n ∈ AircraftAltitudeVariable.FieldNames, v.has n = true →
      ∃ obj, map (v.getExportKey n) = some obj)
    (hsome : ∃ n ∈ AircraftAltitudeVariable.FieldNames, v.has n = true)
    (hsame : ∀ n1 ∈ AircraftAltitudeVariable.FieldNames,
      ∀ n2 ∈ AircraftAltitudeVariable.FieldNames, ∀ o1 o2, v.has n1 = true →
        v.has n2 = true → map (v.getExportKey n1) = some o1 →
        map (v.getExportKey n2) = some o2 → o1.path = o2.path) :
    ∃ out, AircraftAltitudeVariable.exportData ops beginIdx v map = .ok out ∧
      ∀ idx, idx < out.values.length →
        ∃ alt, out.values[idx]? = some alt ∧
          alt = expectedAltitude ops v map idx ∧
          (alt = expectedAltitude ops (withoutIndicatedAltitude v) map idx ∨
            (v.has "pressure" = true ∧ v.has "aircraftIndicatedAltitude" = true ∧
              ∃ pressure indicated, map (v.getExportKey "pressure") = some pressure ∧
                map (v.getExportKey "aircraftIndicatedAltitude") = some indicated ∧
                pressure.isMissing idx = true ∧ indicated.isMissing idx = false ∧
                alt = indicated.getAsFloat idx)) ∧
          (v.has "pressure" = false →
            ∀ (map2 : BufrDataMap F) (beginIdx2 : Nat) (out2 : ExportedObject F),
              (∀ n ∈ AircraftAltitudeVariable.FieldNames, n ≠ "aircraftIndicatedAltitude" →
                map2 (v.getExportKey n) = map (v.getExportKey n)) →
              AircraftAltitudeVariable.exportData ops beginIdx2 v map2 = .ok out2 →
              idx < out2.values.length → out2.values[idx]? = some alt) ∧
          ((∀ n ∈ AircraftAltitudeVariable.FieldNames, ∀ obj, v.has n = true →
              map (v.getExportKey n) = some obj → obj.isMissing idx = true) →
            alt = ops.missingValue) := by
  obtain ⟨out, hout⟩ := aircraft_exportData_returns ops beginIdx v map hkeys hsome hsame
  refine ⟨out, hout, ?_⟩
  intro idx hidx
  refine ⟨expectedAltitude ops v map idx,
    aircraft_exportData_values ops beginIdx v map out hout idx hidx, rfl,
    expectedAltitude_cases ops v map idx, ?_, expectedAltitude_all_missing ops v map idx⟩
  intro hP map2 beginIdx2 out2 hagree hout2 hidx2
  rw [aircraft_exportData_values ops beginIdx2 v map2 out2 hout2 idx hidx2,
    expectedAltitude_no_pressure_congr ops v map map2 idx hP hagree]

/-- The keys of the three configured fields are in the sample map of three fields. -/
theorem altMapThreeFields_keys :
    ∀ n ∈ AircraftAltitudeVariable.FieldNames, altThreeFields.has n = true →
      ∃ obj, altMapThreeFields (altThreeFields.getExportKey n) = some obj := by
  intro n hn hh
  simp only [AircraftAltitudeVariable.FieldNames, List.mem_cons, List.mem_singleton,
    List.not_mem_nil, or_false] at hn
  rcases hn with rfl | rfl | rfl | rfl | rfl | rfl | rfl <;>
    first
    | exact ⟨_, rfl⟩
    | exact absurd hh (by decide)

/-- The objects of the three configured fields in the sample map report one path. -/
theorem altMapThreeFields_paths :
    ∀ n1 ∈ AircraftAltitudeVariable.FieldNames, ∀ n2 ∈ AircraftAltitudeVariable.FieldNames,
      ∀ o1 o2, altThreeFields.has n1 = true → altThreeFields.has n2 = true →
        altMapThreeFields (altThreeFields.getExportKey n1) = some o1 →
        altMapThreeFields (altThreeFields.getExportKey n2) = some o2 → o1.path = o2.path := by
  intro n1 hn1 n2 hn2 o1 o2 hh1 hh2 hm1 hm2
  simp only [AircraftAltitudeVariable.FieldNames, List.mem_cons, List.mem_singleton,
    List.not_mem_nil, or_false] at hn1 hn2
  rcases hn1 with rfl | rfl | rfl | rfl | rfl | rfl | rfl <;>
    first
    | exact absurd hh1 (by decide)
    | (rcases hn2 with rfl | rfl | rfl | rfl | rfl | rfl | rfl <;>
        first
        | exact absurd hh2 (by decide)
        | (cases (show some _ = some o1 from hm1)
           cases (show some _ = some o2 from hm2)
           rfl))

/-- The export of the sample with three fields: the indicated altitude `100` at position 0,
where `pressure` is missing; the converted pressure `-1001` at position 1; the missing value
`-1` at position 2, where the three fields are missing. Without the indicated altitude in the
configuration position 0 holds the height `200`. -/
theorem aircraftAltitude_sample_values :
    (AircraftAltitudeVariable.exportData sampleOps 0 altThreeFields altMapThreeFields).map
        (fun out => out.values) = .ok [100, -1001, -1] ∧
    (AircraftAltitudeVariable.exportData sampleOps 0 (withoutIndicatedAltitude altThreeFields)
        altMapThreeFields).map (fun out => out.values) = .ok [200, -1001, -1] := by
  refine ⟨rfl, rfl⟩

/-- The use of the indicated altitude on the sample with three fields, whose keys are present
and whose objects report one path. -/
theorem aircraftAltitude_indicated_altitude_witness :
    ∃ out, AircraftAltitudeVariable.exportData sampleOps 0 altThreeFields altMapThreeFields =
        .ok out ∧
      ∀ idx, idx < out.values.length →
        ∃ alt, out.values[idx]? = some alt ∧
          alt = expectedAltitude sampleOps altThreeFields altMapThreeFields idx ∧
          (alt = expectedAltitude sampleOps (withoutIndicatedAltitude altThreeFields)
              altMapThreeFields idx ∨
            (altThreeFields.has "pressure" = true ∧
              altThreeFields.has "aircraftIndicatedAltitude" = true ∧
              ∃ pressure indicated,
                altMapThreeFields (altThreeFields.getExportKey "pressure") = some pressure ∧
                altMapThreeFields (altThreeFields.getExportKey "aircraftIndicatedAltitude") =
                  some indicated ∧
                pressure.isMissing idx = true ∧ indicated.isMissing idx = false ∧
                alt = indicated.getAsFloat idx)) ∧
          (altThreeFields.has "pressure" = false →
            ∀ (map2 : BufrDataMap Int) (beginIdx2 : Nat) (out2 : ExportedObject Int),
              (∀ n ∈ AircraftAltitudeVariable.FieldNames, n ≠ "aircraftIndicatedAltitude" →
                map2 (altThreeFields.getExportKey n) =
                  altMapThreeFields (altThreeFields.getExportKey n)) →
              AircraftAltitudeVariable.exportData sampleOps beginIdx2 altThreeFields map2 =
                .ok out2 →
              idx < out2.values.length → out2.values[idx]? = some alt) ∧
          ((∀ n ∈ AircraftAltitudeVariable.FieldNames, ∀ obj, altThreeFields.has n = true →
              altMapThreeFields (altThreeFields.getExportKey n) = some obj →
              obj.isMissing idx = true) →
            alt = sampleOps.missingValue) :=
  aircraftAltitude_indicated_altitude sampleOps 0 altThreeFields altMapThreeFields
    altMapThreeFields_keys ⟨"pressure", by decide, rfl⟩ altMapThreeFields_paths

/-! ## The brightness temperature: the dimension check -/

/-- C18, on sample maps with the three required keys present: for a brightness temperature of
one dimension `exportData` logs the two lines of lines 59-63, raises nothing and reads `dims[1]`
of a vector of one element, out of range; for one of three dimensions it logs the two lines,
raises nothing and goes on to lines 67-112 with `nobs = dims[0]` and `nchn = dims[1]`. -/
theorem remappedBrightnessTemperature_dimension_failure_continues :
    sampleObject5.dims.length = 1 ∧ sampleObject532.dims.length = 3 ∧
    RemappedBrightnessTemperatureVariable.exportData sampleRemap btVar (btMap sampleObject5) =
      (["Observation dimension should be 2 \n", "Incorrect observation dimension : 1\n"],
        .error (.undefined .outOfRange)) ∧
    RemappedBrightnessTemperatureVariable.exportData sampleRemap btVar (btMap sampleObject532) =
      (["Observation dimension should be 2 \n", "Incorrect observation dimension : 3\n"],
        .ok (5, 3)) ∧
    RemappedBrightnessTemperatureVariable.exportData sampleRemap btVar (btMap sampleObject53) =
      ([], .ok (5, 3)) := by
  refine ⟨rfl, rfl, rfl, rfl, rfl⟩

end bufr
